import Mathlib

/-!
# Order orchestration and inventory reconciliation

A shallow embedding of the order service (`order-service/internal/{sharding,repository,service}`)
and of the inventory side (`product-catalog-service/internal/{consumer,service,repository}`).

Conventions of the embedding.

* Go's `int` is `Int`: `%` cannot overflow, and the ids, stocks and quantities that are added or
  subtracted are values of MySQL `INT` columns, whose sums stay inside a 64-bit word.
* Go's `float64` is a type parameter `F` carrying `0`, `+`, `*`, the conversion `float64(n)`
  (the `IntCast`) and decimal literals.  Nothing is assumed about these operations, so every
  general theorem holds for IEEE arithmetic; concrete runs instantiate `F` with `ℚ`.
* A call ends with an `Outcome`: a value, a non-nil `error`, a run-time panic, or it never returns.
* External systems (MySQL shards, Redis, Kafka, the HTTP collaborators, the clock, `math/rand`,
  the goroutine scheduler) are explicit state or explicit inputs of each call.
-/

set_option autoImplicit false

namespace Microservices

/-! ## Outcomes -/

/-- Result of running a Go function. -/
inductive Outcome (α : Type) where
  /-- normal return with a nil error -/
  | ok (a : α)
  /-- return with a non-nil error carrying this message -/
  | error (msg : String)
  /-- run-time panic (index out of range, nil dereference, division by zero) -/
  | panic (msg : String)
  /-- the call blocks forever -/
  | hang
  deriving DecidableEq, Repr

/-! ## `order-service/internal/sharding` -/

/-- The struct `sharding.ShardRouter`. -/
structure ShardRouter where
  ShardCount : Int
  deriving DecidableEq, Repr

/-- Go's `x % y` on `int`: truncated remainder, a panic when `y` is zero. -/
def goMod (x y : Int) : Outcome Int :=
  if y = 0 then .panic "integer divide by zero" else .ok (Int.tmod x y)

/-- The method `ShardRouter.GetShard`: `shardIndex := id % r.ShardCount`. -/
def ShardRouter.GetShard (r : ShardRouter) (id : Int) : Outcome Int :=
  goMod id r.ShardCount

/-- Go's slice indexing `xs[i]` with an `int` index: a panic outside `0 <= i < len(xs)`. -/
def goIndex {α : Type} (xs : List α) (i : Int) : Outcome α :=
  if i < 0 then .panic "index out of range"
  else match xs.get? i.toNat with
    | some x => .ok x
    | none => .panic "index out of range"

/-! ## `order-service/internal/entity` -/

/-- The struct `entity.ProductRequest`. -/
structure ProductRequest (F : Type) where
  ProductID : Int
  Quantity : Int
  MarkUp : F
  Discount : F
  FinalPrice : F
  deriving DecidableEq, Repr

/-- The struct `entity.Order`. -/
structure Order (F : Type) where
  ID : Int
  UserID : Int
  OrderID : Int
  ProductRequests : List (ProductRequest F)
  Quantity : Int
  Total : F
  TotalMarkUp : F
  TotalDiscount : F
  Status : String
  IdempotentKey : String
  deriving DecidableEq, Repr

/-- The struct `entity.Pricing` as the order service decodes it from the pricing reply. -/
structure Pricing (F : Type) where
  ProductID : Int
  Markup : F
  Discount : F
  FinalPrice : F
  deriving DecidableEq, Repr

/-! ## The MySQL shards (`order-service/migrations`) -/

/-- A row of table `orders`. -/
structure OrderRow (F : Type) where
  id : Int
  user_id : Int
  order_id : Int
  quantity : Int
  total : F
  total_mark_up : F
  total_discount : F
  status : String
  idempotent_key : String
  deriving DecidableEq, Repr

/-- A row of table `product_requests`. -/
structure ProductRequestRow (F : Type) where
  id : Int
  order_id : Int
  product_id : Int
  quantity : Int
  mark_up : F
  discount : F
  final_price : F
  deriving DecidableEq, Repr

/-- One `*sql.DB`: the two tables in insertion order and their AUTO_INCREMENT counters. -/
structure Shard (F : Type) where
  orders : List (OrderRow F)
  product_requests : List (ProductRequestRow F)
  ordersAutoInc : Int
  productRequestsAutoInc : Int
  deriving DecidableEq, Repr

/-- The points at which a database call of the repository can fail for a reason outside the
model (connection loss, deadline, server error). -/
inductive DbStep where
  | begin
  | insertOrder
  | lastInsertId
  | insertProductRequests
  | commit
  | selectOrder
  | selectProductRequests
  | scanProductRequest
  | updateOrder
  | deleteProductRequests
  /-- the single-row insert of the line item with this index, in `UpdateOrder` -/
  | insertProductRequest (index : Nat)
  | updateStatus
  deriving DecidableEq, Repr

/-- Fault injection: the error, if any, that the driver reports at a step. -/
abbrev DbFaults := DbStep → Option String

/-- No driver fault. -/
def noDbFaults : DbFaults := fun _ => none

/-- `INSERT INTO orders (...) VALUES (...)` inside a transaction: the row gets the next
AUTO_INCREMENT id; the PRIMARY KEY and the two UNIQUE columns reject duplicates. -/
def Shard.insertOrder {F : Type} (db : Shard F) (o : Order F) : Outcome (Int × Shard F) :=
  if db.orders.any (fun r => r.id == db.ordersAutoInc) then
    .error "Duplicate entry for key PRIMARY"
  else if db.orders.any (fun r => r.order_id == o.OrderID) then
    .error "Duplicate entry for key order_id"
  else if db.orders.any (fun r => r.idempotent_key == o.IdempotentKey) then
    .error "Duplicate entry for key idempotent_key"
  else
    let row : OrderRow F :=
      { id := db.ordersAutoInc, user_id := o.UserID, order_id := o.OrderID,
        quantity := o.Quantity, total := o.Total, total_mark_up := o.TotalMarkUp,
        total_discount := o.TotalDiscount, status := o.Status,
        idempotent_key := o.IdempotentKey }
    .ok (db.ordersAutoInc,
      { db with orders := db.orders ++ [row], ordersAutoInc := db.ordersAutoInc + 1 })

/-- Rows appended by one multi-row `INSERT INTO product_requests`, numbered from `next`. -/
def productRequestRows {F : Type} (orderID : Int) :
    Int → List (ProductRequest F) → List (ProductRequestRow F)
  | _, [] => []
  | next, p :: ps =>
    { id := next, order_id := orderID, product_id := p.ProductID, quantity := p.Quantity,
      mark_up := p.MarkUp, discount := p.Discount, final_price := p.FinalPrice }
      :: productRequestRows orderID (next + 1) ps

/-- The batch statement built by the repository, `INSERT ... VALUES (?, ... ),( ... )` with the
trailing comma cut: with no product the cut removes the blank after `VALUES` and the statement
is a syntax error; a row whose `order_id` names no order breaks the FOREIGN KEY. -/
def Shard.insertProductRequests {F : Type} (db : Shard F) (orderID : Int)
    (ps : List (ProductRequest F)) : Outcome (Shard F) :=
  if ps.isEmpty then .error "You have an error in your SQL syntax"
  else if !db.orders.any (fun r => r.id == orderID) then
    .error "Cannot add or update a child row: a foreign key constraint fails"
  else
    .ok { db with
      product_requests :=
        db.product_requests ++ productRequestRows orderID db.productRequestsAutoInc ps,
      productRequestsAutoInc := db.productRequestsAutoInc + ps.length }

/-! ## `order-service/internal/repository` -/

/-- The struct `repository.OrderRepository`. -/
structure OrderRepository (F : Type) where
  dbShards : List (Shard F)
  router : ShardRouter
  deriving DecidableEq, Repr

/-- Body of `OrderRepository.CreateOrder` once the shard `db` is chosen: the transaction.
Returns the outcome and the shard as it is afterwards (`db` itself after a rollback or a
failed commit). -/
def createOrderTx {F : Type} (flt : DbFaults) (db : Shard F) (order : Order F) :
    Outcome (Order F) × Shard F :=
  match flt .begin with
  | some e => (.error e, db)
  | none =>
    match flt .insertOrder with
    | some e => (.error e, db)
    | none =>
      match db.insertOrder order with
      | .error e => (.error e, db)
      | .panic e => (.panic e, db)
      | .hang => (.hang, db)
      | .ok (orderID, tx) =>
        match flt .lastInsertId with
        | some e => (.error e, db)
        | none =>
          match flt .insertProductRequests with
          | some e => (.error e, db)
          | none =>
            match tx.insertProductRequests orderID order.ProductRequests with
            | .error e => (.error e, db)
            | .panic e => (.panic e, db)
            | .hang => (.hang, db)
            | .ok tx =>
              match flt .commit with
              | some e => (.error e, db)
              | none => (.ok { order with ID := orderID }, tx)

/-- Shard selection of `OrderRepository.CreateOrder`: `r.router.GetShard(order.OrderID)`. -/
def OrderRepository.shardOfCreateOrder {F : Type} (r : OrderRepository F) (order : Order F) :
    Outcome Int :=
  r.router.GetShard order.OrderID

/-- Shard selection of `OrderRepository.GetOrderByID`: `r.router.GetShard(id)`. -/
def OrderRepository.shardOfGetOrderByID {F : Type} (r : OrderRepository F) (id : Int) :
    Outcome Int :=
  r.router.GetShard id

/-- The method `OrderRepository.CreateOrder`: the shard is `GetShard(order.OrderID)`. -/
def OrderRepository.CreateOrder {F : Type} (r : OrderRepository F) (flt : DbFaults)
    (order : Order F) : Outcome (Order F) × OrderRepository F :=
  match r.shardOfCreateOrder order with
  | .error e => (.error e, r)
  | .panic e => (.panic e, r)
  | .hang => (.hang, r)
  | .ok dbIndex =>
    match goIndex r.dbShards dbIndex with
    | .error e => (.error e, r)
    | .panic e => (.panic e, r)
    | .hang => (.hang, r)
    | .ok db =>
      let (res, db) := createOrderTx flt db order
      (res, { r with dbShards := r.dbShards.set dbIndex.toNat db })

/-- The rows of `product_requests` with `order_id = id`, scanned into `entity.ProductRequest`. -/
def Shard.selectProductRequests {F : Type} (db : Shard F) (id : Int) : List (ProductRequest F) :=
  (db.product_requests.filter (fun r => r.order_id == id)).map fun r =>
    { ProductID := r.product_id, Quantity := r.quantity, MarkUp := r.mark_up,
      Discount := r.discount, FinalPrice := r.final_price }

/-- The method `OrderRepository.GetOrderByID`: the shard is `GetShard(id)`, `id` being the
value compared with column `orders.id`.  Fields not selected keep Go's zero value. -/
def OrderRepository.GetOrderByID {F : Type} (r : OrderRepository F) (flt : DbFaults)
    (id : Int) : Outcome (Order F) :=
  match r.shardOfGetOrderByID id with
  | .error e => .error e
  | .panic e => .panic e
  | .hang => .hang
  | .ok dbIndex =>
    match goIndex r.dbShards dbIndex with
    | .error e => .error e
    | .panic e => .panic e
    | .hang => .hang
    | .ok db =>
      match flt .selectOrder with
      | some e => .error e
      | none =>
        match db.orders.find? (fun row => row.id == id) with
        | none => .error "sql: no rows in result set"
        | some row =>
          match flt .selectProductRequests with
          | some e => .error e
          | none =>
            match flt .scanProductRequest with
            | some e => if (db.selectProductRequests id).isEmpty then
                .ok { ID := row.id, UserID := row.user_id, OrderID := row.order_id,
                      ProductRequests := [], Quantity := row.quantity, Total := row.total,
                      TotalMarkUp := row.total_mark_up, TotalDiscount := row.total_discount,
                      Status := row.status, IdempotentKey := "" }
              else .error e
            | none =>
              .ok { ID := row.id, UserID := row.user_id, OrderID := row.order_id,
                    ProductRequests := db.selectProductRequests id, Quantity := row.quantity,
                    Total := row.total, TotalMarkUp := row.total_mark_up,
                    TotalDiscount := row.total_discount, Status := row.status,
                    IdempotentKey := "" }

/-- Shard selection of `OrderRepository.UpdateOrder`: `r.router.GetShard(order.OrderID)`;
its statements then address the row by `order.ID`. -/
def OrderRepository.shardOfUpdateOrder {F : Type} (r : OrderRepository F) (order : Order F) :
    Outcome Int :=
  r.router.GetShard order.OrderID

/-- Shard selection of `OrderRepository.DeleteOrder`: `r.router.GetShard(id)`, with `id` the
value its statements compare with column `orders.id`. -/
def OrderRepository.shardOfDeleteOrder {F : Type} (r : OrderRepository F) (id : Int) :
    Outcome Int :=
  r.router.GetShard id

/-- Shard selection of `OrderRepository.UpdateOrderStatus`: `r.router.GetShard(id)`, with
`id` the value its statement compares with column `orders.id`. -/
def OrderRepository.shardOfUpdateOrderStatus {F : Type} (r : OrderRepository F) (id : Int) :
    Outcome Int :=
  r.router.GetShard id

/-- The text `productQuery` starts from: the raw string literal of `CreateOrder`. -/
def productQueryPrefix : String :=
  "\n\t\tINSERT INTO product_requests (order_id, product_id, quantity, mark_up, discount, final_price)\n\t\tVALUES "

/-- The statement text that `CreateOrder` builds: one placeholder group and a comma appended
per line item, then `productQuery[:len(productQuery)-1]` (the text is ASCII, a byte is a
character). -/
def buildProductQuery {F : Type} (ps : List (ProductRequest F)) : String :=
  String.mk
    (ps.foldl (fun productQuery _ => productQuery ++ "(?, ?, ?, ?, ?, ?),")
      productQueryPrefix).data.dropLast

/-- A value of the argument list `values []interface{}` of the batch statement: the
`int64` and `int` arguments, and the `float64` ones. -/
inductive SqlValue (F : Type) where
  | int (v : Int)
  | float (v : F)
  deriving DecidableEq, Repr

/-- The argument list that `CreateOrder` builds next to the statement text: six values
appended per line item, `orderID` being the value of `res.LastInsertId()`. -/
def buildProductValues {F : Type} (orderID : Int) (ps : List (ProductRequest F)) :
    List (SqlValue F) :=
  ps.foldl
    (fun values product =>
      values ++ [.int orderID, .int product.ProductID, .int product.Quantity,
                 .float product.MarkUp, .float product.Discount, .float product.FinalPrice])
    []

/-- `UPDATE orders SET user_id, quantity, total, status, total_mark_up, total_discount
WHERE id = order.ID`. -/
def Shard.updateOrder {F : Type} (db : Shard F) (o : Order F) : Shard F :=
  { db with orders := db.orders.map fun row =>
      if row.id = o.ID then
        { row with user_id := o.UserID, quantity := o.Quantity, total := o.Total,
                   status := o.Status, total_mark_up := o.TotalMarkUp,
                   total_discount := o.TotalDiscount }
      else row }

/-- `DELETE FROM product_requests WHERE order_id = id`. -/
def Shard.deleteProductRequests {F : Type} (db : Shard F) (id : Int) : Shard F :=
  { db with product_requests := db.product_requests.filter (fun row => row.order_id != id) }

/-- One single-row `INSERT INTO product_requests`, with the FOREIGN KEY check. -/
def Shard.insertProductRequest {F : Type} (db : Shard F) (orderID : Int)
    (p : ProductRequest F) : Outcome (Shard F) :=
  if !db.orders.any (fun r => r.id == orderID) then
    .error "Cannot add or update a child row: a foreign key constraint fails"
  else
    .ok { db with
      product_requests :=
        db.product_requests ++ productRequestRows orderID db.productRequestsAutoInc [p],
      productRequestsAutoInc := db.productRequestsAutoInc + 1 }

/-- The loop of single-row inserts of `UpdateOrder`, from the line item with index `i`. -/
def insertLoop {F : Type} (flt : DbFaults) (orderID : Int) :
    Nat → List (ProductRequest F) → Shard F → Outcome (Shard F)
  | _, [], tx => .ok tx
  | i, p :: ps, tx =>
    match flt (.insertProductRequest i) with
    | some e => .error e
    | none =>
      match tx.insertProductRequest orderID p with
      | .ok tx => insertLoop flt orderID (i + 1) ps tx
      | .error e => .error e
      | .panic e => .panic e
      | .hang => .hang

/-- Body of `OrderRepository.UpdateOrder` once the shard is chosen: the transaction. -/
def updateOrderTx {F : Type} (flt : DbFaults) (db : Shard F) (order : Order F) :
    Outcome (Order F) × Shard F :=
  match flt .begin with
  | some e => (.error e, db)
  | none =>
    match flt .updateOrder with
    | some e => (.error e, db)
    | none =>
      match flt .deleteProductRequests with
      | some e => (.error e, db)
      | none =>
        match insertLoop flt order.ID 0 order.ProductRequests
            ((db.updateOrder order).deleteProductRequests order.ID) with
        | .error e => (.error e, db)
        | .panic e => (.panic e, db)
        | .hang => (.hang, db)
        | .ok tx =>
          match flt .commit with
          | some e => (.error e, db)
          | none => (.ok order, tx)

/-- The method `OrderRepository.UpdateOrder` (the spec's Replace). -/
def OrderRepository.UpdateOrder {F : Type} (r : OrderRepository F) (flt : DbFaults)
    (order : Order F) : Outcome (Order F) × OrderRepository F :=
  match r.shardOfUpdateOrder order with
  | .error e => (.error e, r)
  | .panic e => (.panic e, r)
  | .hang => (.hang, r)
  | .ok dbIndex =>
    match goIndex r.dbShards dbIndex with
    | .error e => (.error e, r)
    | .panic e => (.panic e, r)
    | .hang => (.hang, r)
    | .ok db =>
      let (res, db) := updateOrderTx flt db order
      (res, { r with dbShards := r.dbShards.set dbIndex.toNat db })

/-- `UPDATE orders SET status = ? WHERE id = ?`. -/
def Shard.updateStatus {F : Type} (db : Shard F) (id : Int) (status : String) : Shard F :=
  { db with orders := db.orders.map fun row =>
      if row.id = id then { row with status := status } else row }

/-- The method `OrderRepository.UpdateOrderStatus` (the spec's SetStatus). -/
def OrderRepository.UpdateOrderStatus {F : Type} (r : OrderRepository F) (flt : DbFaults)
    (id : Int) (status : String) : Outcome Unit × OrderRepository F :=
  match r.shardOfUpdateOrderStatus id with
  | .error e => (.error e, r)
  | .panic e => (.panic e, r)
  | .hang => (.hang, r)
  | .ok dbIndex =>
    match goIndex r.dbShards dbIndex with
    | .error e => (.error e, r)
    | .panic e => (.panic e, r)
    | .hang => (.hang, r)
    | .ok db =>
      match flt .updateStatus with
      | some e => (.error e, r)
      | none =>
        (.ok (), { r with dbShards := r.dbShards.set dbIndex.toNat (db.updateStatus id status) })

/-! ## Redis -/

/-- A Redis string value with its absolute expiry time in seconds (`none`: no expiry). -/
structure RedisEntry where
  value : String
  expireAt : Option Nat
  deriving DecidableEq, Repr

/-- The keyspace of the Redis server. -/
abbrev Redis := List (String × RedisEntry)

/-- Whether an entry is still alive at time `now`. -/
def RedisEntry.alive (e : RedisEntry) (now : Nat) : Bool :=
  match e.expireAt with
  | none => true
  | some t => decide (now < t)

/-- The command `GET key` at time `now`: `none` is the reply `redis.Nil`. -/
def Redis.get (db : Redis) (now : Nat) (key : String) : Option String :=
  match db.lookup key with
  | some e => if e.alive now then some e.value else none
  | none => none

/-- The command `SET key value EX ttl` at time `now` (`ttl = 0`: no expiry). -/
def Redis.set (db : Redis) (now : Nat) (key value : String) (ttl : Nat) : Redis :=
  (key, { value := value, expireAt := if ttl = 0 then none else some (now + ttl) })
    :: db.filter (fun kv => kv.1 != key)

/-- Go's `24*time.Hour`, in seconds. -/
def idempotentKeyTTL : Nat := 24 * 3600

/-! ## HTTP collaborators -/

/-- What `http.DefaultClient.Do` followed by the JSON decoding of the body yields. -/
inductive HttpReply (β : Type) where
  /-- the request could not be built or sent -/
  | failed (msg : String)
  /-- a response with this status code, and the body as decoded (or why it does not decode) -/
  | response (statusCode : Nat) (body : Except String β)

/-- A line of the record of outgoing requests. -/
inductive Lookup where
  | stock (productId : Int)
  | pricing (productId : Int)
  deriving DecidableEq, Repr

/-! ## Kafka -/

/-- A `kafka.Message`; `Value` stands for the bytes of `json.Marshal(order)`. -/
structure KafkaMessage (V : Type) where
  Key : String
  Value : V
  deriving DecidableEq, Repr

/-- Go's `%d` verb on an `int`: decimal digits, a leading minus sign for negatives. -/
def formatInt (i : Int) : String :=
  if i < 0 then "-" ++ (Nat.toDigits 10 (-i).toNat).asString
  else (Nat.toDigits 10 i.toNat).asString

/-! ## `order-service/internal/service` -/

/-- What one call observes of the world outside the process. -/
structure Env (F : Type) where
  /-- `os.Getenv("ENV") == "test"` -/
  test : Bool
  /-- the clock of the Redis server, in seconds -/
  now : Nat
  /-- the value of `rand.Intn(1000)` -/
  rand : Fin 1000
  /-- the product service's reply to `GET /products/<id>/stock` -/
  stockService : Int → HttpReply (List (String × Int))
  /-- the reply to `GET /products/<id>/pricing` -/
  pricingService : Int → HttpReply (Pricing F)
  /-- an error of the Redis `GET` other than `redis.Nil` -/
  redisGetErr : Option String
  /-- an error of the Redis `SET` -/
  redisSetErr : Option String
  /-- driver faults of the shard -/
  db : DbFaults
  /-- an error of `json.Marshal(order)` -/
  marshalErr : Option String
  /-- an error of `kafkaWriter.WriteMessages` -/
  kafkaErr : Option String
  /-- completion order of the stock goroutines: position `k` holds the index of the line item
  whose result is the `k`-th value received from `availabilityCh` -/
  availabilityOrder : List Nat
  /-- completion order of the pricing goroutines, likewise for `pricingCh` -/
  pricingOrder : List Nat

/-- The struct `service.OrderService` with the state of the systems behind its clients, and
the requests it has sent so far. -/
structure OrderService (F : Type) where
  orderRepo : OrderRepository F
  rdb : Redis
  /-- messages written to the topic by `kafkaWriter`, oldest first -/
  kafka : List (KafkaMessage (Order F))
  /-- requests sent to the product and pricing services, oldest first -/
  lookups : List Lookup
  deriving DecidableEq, Repr

/-- The function `randomOrderID`: `1000 + rand.Intn(1000)`. -/
def randomOrderID (r : Fin 1000) : Int := 1000 + (r.val : Int)

/-- The method `validateIdempotentKey`: a `GET`, then (key absent) a `SET` whose error is
dropped.  Returns Go's `(bool, error)` and the keyspace afterwards. -/
def validateIdempotentKey {F : Type} (env : Env F) (rdb : Redis) (key : String) :
    (Bool × Option String) × Redis :=
  if env.test then ((true, none), rdb)
  else
    let redisKey := "idempotent-key:" ++ key
    match env.redisGetErr with
    | some e => ((false, some e), rdb)
    | none =>
      let val := (rdb.get env.now redisKey).getD ""
      if val ≠ "" then ((false, some "idempotent key already exists"), rdb)
      else
        match env.redisSetErr with
        | some _ => ((true, none), rdb)
        | none => ((true, none), rdb.set env.now redisKey "exists" idempotentKeyTTL)

/-- Go's map read `m[key]` on a `map[string]int`: the zero value for an absent key. -/
def mapIndex (m : List (String × Int)) (key : String) : Int :=
  (m.lookup key).getD 0

/-- The method `checkProductStock`, Go's `(bool, error)`. -/
def checkProductStock {F : Type} (env : Env F) (productId quantity : Int) :
    Bool × Option String :=
  if env.test then (true, none)
  else
    match env.stockService productId with
    | .failed e => (false, some e)
    | .response statusCode body =>
      if statusCode ≠ 200 then (false, some "product not available")
      else
        match body with
        | .error e => (false, some e)
        | .ok stockData => (decide (mapIndex stockData "stock" ≥ quantity), none)

/-- The method `getPricing`, Go's `(*entity.Pricing, error)`: `none` is the nil pointer. -/
def getPricing {F : Type} [IntCast F] [OfScientific F] (env : Env F) (productId : Int) :
    Option (Pricing F) × Option String :=
  if env.test then
    (some { ProductID := productId, Markup := 0.1, Discount := 0.05,
            FinalPrice := ((100 : Int) : F) }, none)
  else
    match env.pricingService productId with
    | .failed e => (none, some e)
    | .response statusCode body =>
      if statusCode ≠ 200 then (none, some "failed to get pricing")
      else
        match body with
        | .error e => (none, some e)
        | .ok pricing => (some pricing, none)

/-- The value sent on `availabilityCh`. -/
structure AvailabilityResult where
  ProductID : Int
  Available : Bool
  Error : Option String
  deriving DecidableEq, Repr

/-- The value sent on `pricingCh`. -/
structure PricingResult (F : Type) where
  ProductID : Int
  FinalPrice : F
  MarkUp : F
  Discount : F
  Error : Option String
  deriving DecidableEq, Repr

/-- The first goroutine of a line item (each goroutine reads the line item of its own
iteration, the per-iteration loop variable of Go 1.22). -/
def availabilityGoroutine {F : Type} (env : Env F) (productRequest : ProductRequest F) :
    AvailabilityResult :=
  let (available, err) := checkProductStock env productRequest.ProductID productRequest.Quantity
  { ProductID := productRequest.ProductID, Available := available, Error := err }

/-- The second goroutine of a line item.  It reads `pricing.FinalPrice` before looking at
`err`: with the nil pointer of a failed lookup that is a nil dereference, and a panic in a
goroutine ends the process. -/
def pricingGoroutine {F : Type} [IntCast F] [OfScientific F] (env : Env F)
    (productRequest : ProductRequest F) : Outcome (PricingResult F) :=
  let (pricing, err) := getPricing env productRequest.ProductID
  match pricing with
  | none => .panic "invalid memory address or nil pointer dereference"
  | some pricing =>
    .ok { ProductID := productRequest.ProductID, FinalPrice := pricing.FinalPrice,
          MarkUp := pricing.Markup, Discount := pricing.Discount, Error := err }

/-- Local state of the inner loop `for _, productRequest := range order.ProductRequests`:
the order behind the pointer `order`, and the range variable `productRequest`, which holds a
copy of the current element. -/
structure RangeFrame (F : Type) where
  order : Order F
  productRequest : ProductRequest F

/-- Body of the inner loop: the three assignments go to the fields of the range variable. -/
def assignPricing {F : Type} [Mul F] [IntCast F] (availabilityResult : AvailabilityResult)
    (pricingResult : PricingResult F) (fr : RangeFrame F) : RangeFrame F :=
  if fr.productRequest.ProductID = availabilityResult.ProductID then
    { fr with productRequest :=
        { fr.productRequest with
          FinalPrice := ((fr.productRequest.Quantity : Int) : F) * pricingResult.FinalPrice,
          MarkUp := ((fr.productRequest.Quantity : Int) : F) * pricingResult.MarkUp,
          Discount := ((fr.productRequest.Quantity : Int) : F) * pricingResult.Discount } }
  else fr

/-- The inner loop: each iteration copies the next element into the range variable and runs
the body; the order is what the frame holds at the end. -/
def pricingLoop {F : Type} [Mul F] [IntCast F] (availabilityResult : AvailabilityResult)
    (pricingResult : PricingResult F) (order : Order F) : Order F :=
  order.ProductRequests.foldl
    (fun order elem =>
      (assignPricing availabilityResult pricingResult
        { order := order, productRequest := elem }).order)
    order

/-- The `k`-th value received from a channel on which the goroutines sent `results` in the
completion order `completion`; `none` when no `k`-th value is ever sent. -/
def received {α : Type} (results : List α) (completion : List Nat) (k : Nat) : Option α :=
  match completion.get? k with
  | some i => results.get? i
  | none => none

/-- The receiving loop `for range order.ProductRequests`, run for the iterations `ks`. -/
def gatherLoop {F : Type} [Mul F] [IntCast F] (availability : List AvailabilityResult)
    (pricing : List (PricingResult F)) (availabilityOrder pricingOrder : List Nat) :
    List Nat → Order F → Outcome (Order F)
  | [], order => .ok order
  | k :: ks, order =>
    match received availability availabilityOrder k with
    | none => .hang
    | some availabilityResult =>
      match received pricing pricingOrder k with
      | none => .hang
      | some pricingResult =>
        match availabilityResult.Error with
        | some e => .error e
        | none =>
          if !availabilityResult.Available then .error "product out of stock"
          else
            match pricingResult.Error with
            | some e => .error e
            | none =>
              gatherLoop availability pricing availabilityOrder pricingOrder ks
                (pricingLoop availabilityResult pricingResult order)

/-- Results of the pricing goroutines in line-item order, or the panic of the first one that
panics. -/
def pricingResults {F : Type} [IntCast F] [OfScientific F] (env : Env F) :
    List (ProductRequest F) → Outcome (List (PricingResult F))
  | [] => .ok []
  | p :: ps =>
    match pricingGoroutine env p with
    | .ok r =>
      (match pricingResults env ps with
       | .ok rs => .ok (r :: rs)
       | .error e => .error e
       | .panic e => .panic e
       | .hang => .hang)
    | .error e => .error e
    | .panic e => .panic e
    | .hang => .hang

/-- The loop `order.Total = 0; for ... { order.Total += productRequest.FinalPrice }`. -/
def sumTotal {F : Type} [Zero F] [Add F] (order : Order F) : Order F :=
  order.ProductRequests.foldl
    (fun order productRequest => { order with Total := order.Total + productRequest.FinalPrice })
    { order with Total := 0 }

/-- Requests that the goroutines of `CreateOrder` send (none under `ENV=test`). -/
def createLookups {F : Type} (env : Env F) (order : Order F) : List Lookup :=
  if env.test then []
  else order.ProductRequests.map (fun p => Lookup.stock p.ProductID)
    ++ order.ProductRequests.map (fun p => Lookup.pricing p.ProductID)

/-- Lines 76 to 178 of `CreateOrder`: the order id, the fan-out, the receiving loop and the
total.  The value is the order handed to the Order Store. -/
def aggregate {F : Type} [Zero F] [Add F] [Mul F] [IntCast F] [OfScientific F] (env : Env F)
    (order : Order F) : Outcome (Order F) :=
  let order := { order with OrderID := randomOrderID env.rand }
  let availability := order.ProductRequests.map (availabilityGoroutine env)
  match pricingResults env order.ProductRequests with
  | .error e => .error e
  | .panic e => .panic e
  | .hang => .hang
  | .ok pricing =>
    match gatherLoop availability pricing env.availabilityOrder env.pricingOrder
        (List.range order.ProductRequests.length) order with
    | .error e => .error e
    | .panic e => .panic e
    | .hang => .hang
    | .ok order => .ok (sumTotal order)

/-- The key `fmt.Sprintf("order-%s-%d", key, order.ID)`. -/
def eventKey (key : String) (id : Int) : String :=
  "order-" ++ key ++ "-" ++ formatInt id

/-- The method `publishOrderEvent`: the error if any, and the topic afterwards. -/
def publishOrderEvent {F : Type} (env : Env F) (topic : List (KafkaMessage (Order F)))
    (order : Order F) (key : String) : Option String × List (KafkaMessage (Order F)) :=
  match env.marshalErr with
  | some e => (some e, topic)
  | none =>
    match env.kafkaErr with
    | some e => (some e, topic)
    | none => (none, topic ++ [{ Key := eventKey key order.ID, Value := order }])

/-- The method `OrderService.CreateOrder`: the outcome and the service afterwards. -/
def OrderService.CreateOrder {F : Type} [Zero F] [Add F] [Mul F] [IntCast F] [OfScientific F]
    (s : OrderService F) (env : Env F) (order : Order F) :
    Outcome (Order F) × OrderService F :=
  let ((validate, err), rdb) := validateIdempotentKey env s.rdb order.IdempotentKey
  let s := { s with rdb := rdb }
  match err with
  | some e => (.error e, s)
  | none =>
    if !validate then (.error "idempotent key already exists", s)
    else
      let s := { s with lookups := s.lookups ++ createLookups env order }
      match aggregate env order with
      | .error e => (.error e, s)
      | .panic e => (.panic e, s)
      | .hang => (.hang, s)
      | .ok order =>
        let (res, repo) := s.orderRepo.CreateOrder env.db order
        let s := { s with orderRepo := repo }
        match res with
        | .error e => (.error e, s)
        | .panic e => (.panic e, s)
        | .hang => (.hang, s)
        | .ok createdOrder =>
          if env.test then (.ok createdOrder, s)
          else
            match publishOrderEvent env s.kafka createdOrder "created" with
            | (some e, topic) => (.error e, { s with kafka := topic })
            | (none, topic) => (.ok createdOrder, { s with kafka := topic })

/-- The loop of `UpdateOrder` under `order.Status == "paid"`: one stock check per line item
in order, stopped by the first error or shortage.  The value is the requests sent and the
error, if any. -/
def stockCheckLoop {F : Type} (env : Env F) :
    List (ProductRequest F) → List Lookup × Option String
  | [] => ([], none)
  | productRequest :: rest =>
    let sent := if env.test then [] else [Lookup.stock productRequest.ProductID]
    match checkProductStock env productRequest.ProductID productRequest.Quantity with
    | (_, some e) => (sent, some e)
    | (available, none) =>
      if !available then (sent, some "product out of stock")
      else
        let (more, err) := stockCheckLoop env rest
        (sent ++ more, err)

/-- The method `OrderService.UpdateOrder`. -/
def OrderService.UpdateOrder {F : Type} (s : OrderService F) (env : Env F) (order : Order F) :
    Outcome (Order F) × OrderService F :=
  let (sent, err) :=
    if order.Status = "paid" then stockCheckLoop env order.ProductRequests else ([], none)
  let s := { s with lookups := s.lookups ++ sent }
  match err with
  | some e => (.error e, s)
  | none =>
    let (res, repo) := s.orderRepo.UpdateOrder env.db order
    let s := { s with orderRepo := repo }
    match res with
    | .error e => (.error e, s)
    | .panic e => (.panic e, s)
    | .hang => (.hang, s)
    | .ok updateOrder =>
      match publishOrderEvent env s.kafka updateOrder "updated" with
      | (some e, topic) => (.error e, { s with kafka := topic })
      | (none, topic) => (.ok updateOrder, { s with kafka := topic })

/-- The method `OrderService.CancelOrder`. -/
def OrderService.CancelOrder {F : Type} (s : OrderService F) (env : Env F) (id : Int) :
    Outcome (Order F) × OrderService F :=
  match s.orderRepo.GetOrderByID env.db id with
  | .error e => (.error e, s)
  | .panic e => (.panic e, s)
  | .hang => (.hang, s)
  | .ok order =>
    let order := { order with Status := "cancelled" }
    let (res, repo) := s.orderRepo.UpdateOrder env.db order
    let s := { s with orderRepo := repo }
    match res with
    | .error e => (.error e, s)
    | .panic e => (.panic e, s)
    | .hang => (.hang, s)
    | .ok updatedOrder =>
      match publishOrderEvent env s.kafka updatedOrder "cancelled" with
      | (some e, topic) => (.error e, { s with kafka := topic })
      | (none, topic) => (.ok updatedOrder, { s with kafka := topic })

/-- A run of `CreateOrder` calls one after the other, each with what it observes. -/
def runCreates {F : Type} [Zero F] [Add F] [Mul F] [IntCast F] [OfScientific F] :
    List (Env F × Order F) → OrderService F → OrderService F
  | [], s => s
  | (env, order) :: rest, s => runCreates rest (s.CreateOrder env order).2

/-! ### Two calls of `validateIdempotentKey` in parallel

The guard is two Redis commands.  A call is a small machine whose steps are the commands;
parallel calls interleave their steps on the shared keyspace. -/

/-- Where a call of `validateIdempotentKey` stands. -/
inductive GuardPc where
  /-- not started -/
  | entry
  /-- the `GET` has answered `val` (`""` with `redis.Nil`); the `SET` is not yet sent -/
  | afterGet (val : String)
  /-- returned Go's `(bool, error)` -/
  | returned (validate : Bool) (err : Option String)
  deriving DecidableEq, Repr

/-- One step of a call: the next Redis command of `validateIdempotentKey` and the code up to
the following command or to the return. -/
def guardStep {F : Type} (env : Env F) (key : String) (pc : GuardPc) (rdb : Redis) :
    GuardPc × Redis :=
  match pc with
  | .entry =>
    if env.test then (.returned true none, rdb)
    else
      match env.redisGetErr with
      | some e => (.returned false (some e), rdb)
      | none => (.afterGet ((rdb.get env.now ("idempotent-key:" ++ key)).getD ""), rdb)
  | .afterGet val =>
    if val ≠ "" then (.returned false (some "idempotent key already exists"), rdb)
    else
      match env.redisSetErr with
      | some _ => (.returned true none, rdb)
      | none =>
        (.returned true none,
          rdb.set env.now ("idempotent-key:" ++ key) "exists" idempotentKeyTTL)
  | .returned validate err => (.returned validate err, rdb)

/-- Two calls with the same key and the keyspace they share. -/
structure GuardPair where
  first : GuardPc
  second : GuardPc
  rdb : Redis
  deriving DecidableEq, Repr

/-- Runs an interleaving: `false` lets the first call take a step, `true` the second. -/
def runGuards {F : Type} (envA envB : Env F) (key : String) : List Bool → GuardPair → GuardPair
  | [], st => st
  | false :: sched, st =>
    let (pc, rdb) := guardStep envA key st.first st.rdb
    runGuards envA envB key sched { st with first := pc, rdb := rdb }
  | true :: sched, st =>
    let (pc, rdb) := guardStep envB key st.second st.rdb
    runGuards envA envB key sched { st with second := pc, rdb := rdb }

/-- The call has returned `(true, nil)`. -/
def GuardPc.admitted : GuardPc → Bool
  | .returned true none => true
  | _ => false

/-- The call has returned the duplicate-key error. -/
def GuardPc.rejected : GuardPc → Bool
  | .returned false (some e) => e == "idempotent key already exists"
  | _ => false

/-- The keyspace holds the marker `exists` under `redisKey`, alive at least until `till`. -/
def markerHeld (rdb : Redis) (redisKey : String) (till : Nat) : Bool :=
  match rdb.lookup redisKey with
  | some e =>
    e.value == "exists" &&
      (match e.expireAt with
       | some t => decide (till ≤ t)
       | none => true)
  | none => false

/-! ## `product-catalog-service/internal/consumer` -/

/-- Modelled from the spec: a line item of the consumer's `entity.Order`, whose declaration
is not among the sources; the fields are those `processMessage` reads. -/
structure EventItem where
  ProductID : Int
  Quantity : Int
  deriving DecidableEq, Repr

/-- Modelled from the spec: the consumer's `entity.Order` (declaration not among the
sources), with the fields `processMessage` reads. -/
structure EventOrder where
  ProductRequests : List EventItem
  Status : String
  deriving DecidableEq, Repr

/-- The two methods of `service.ProductService` that the consumer calls, over the state `σ`
of the stock ledger: each returns the ledger afterwards and Go's `error`. -/
structure ProductService (σ : Type) where
  ReserveProductStock : σ → Int → Int → σ × Option String
  ReleaseProductStock : σ → Int → Int → σ × Option String

/-- Pieces of a character list between occurrences of `sep`. -/
def splitChars (sep : Char) : List Char → List (List Char)
  | [] => [[]]
  | c :: cs =>
    if c = sep then [] :: splitChars sep cs
    else
      match splitChars sep cs with
      | [] => [[c]]
      | w :: ws => (c :: w) :: ws

/-- Go's `strings.Split(s, sep)` for a separator of one character. -/
def stringsSplit (s : String) (sep : Char) : List String :=
  (splitChars sep s.data).map String.mk

/-- The lines `listKey := strings.Split(key, "."); eventType := listKey[1]`. -/
def eventType (key : String) : Outcome String :=
  goIndex (stringsSplit key '.') 1

/-- The loop of the `created` case: an error of a reservation is logged and the loop goes on. -/
def reserveLoop {σ : Type} (productSvc : ProductService σ) : List EventItem → σ → σ
  | [], st => st
  | item :: items, st =>
    match productSvc.ReserveProductStock st item.ProductID item.Quantity with
    | (st, some _) => reserveLoop productSvc items st
    | (st, none) => reserveLoop productSvc items st

/-- The loop of the `cancelled` case. -/
def releaseLoop {σ : Type} (productSvc : ProductService σ) : List EventItem → σ → σ
  | [], st => st
  | item :: items, st =>
    match productSvc.ReleaseProductStock st item.ProductID item.Quantity with
    | (st, some _) => releaseLoop productSvc items st
    | (st, none) => releaseLoop productSvc items st

/-- The method `Consumer.processMessage`; `unmarshal` is `json.Unmarshal` into the consumer's
order type.  The value is the ledger when the method returns. -/
def processMessage {σ V : Type} (productSvc : ProductService σ)
    (unmarshal : V → Except String EventOrder) (st : σ) (msg : KafkaMessage V) : Outcome σ :=
  match unmarshal msg.Value with
  | .error _ => .ok st
  | .ok orderEvent =>
    match eventType msg.Key with
    | .error e => .error e
    | .panic e => .panic e
    | .hang => .hang
    | .ok eventType =>
      if eventType = "created" then
        .ok (reserveLoop productSvc orderEvent.ProductRequests st)
      else if eventType = "cancelled" then
        .ok (releaseLoop productSvc orderEvent.ProductRequests st)
      else .ok st

/-- A call of the product service as seen from outside. -/
inductive StockCall where
  | reserve (productID quantity : Int)
  | release (productID quantity : Int)
  deriving DecidableEq, Repr

/-- A product service that only records the calls it gets, and answers with an error for
the products in `failing`. -/
def recordingService (failing : List Int) : ProductService (List StockCall) where
  ReserveProductStock := fun calls productID quantity =>
    (calls ++ [StockCall.reserve productID quantity],
      if productID ∈ failing then some "product out of stock" else none)
  ReleaseProductStock := fun calls productID quantity =>
    (calls ++ [StockCall.release productID quantity],
      if productID ∈ failing then some "update failed" else none)

/-! ## `product-catalog-service/internal/{entity,repository,service}` -/

/-- The struct `entity.Product`, also a row of table `products`. -/
structure Product (F : Type) where
  ID : Int
  Name : String
  Description : String
  Price : F
  Stock : Int
  deriving DecidableEq, Repr

/-- A non-empty text held by the cache, by what `json.Unmarshal` into an `entity.Product`
makes of it: an error, or the product it decodes to (absent fields zero). -/
inductive CachedText (F : Type) where
  | malformed (err : String)
  | product (p : Product F)
  deriving DecidableEq, Repr

/-- A value of the product cache with its absolute expiry time (`none`: no expiry). -/
structure CacheEntry (F : Type) where
  value : CachedText F
  expireAt : Option Nat
  deriving DecidableEq, Repr

/-- The keyspace of the product service's Redis. -/
abbrev ProductCache (F : Type) := List (String × CacheEntry F)

/-- The command `GET key` at time `now`: `none` is the reply `redis.Nil`, with which
`Result()` yields the empty string. -/
def cacheGet {F : Type} (cache : ProductCache F) (now : Nat) (key : String) :
    Option (CachedText F) :=
  match cache.lookup key with
  | some e =>
    (match e.expireAt with
     | none => some e.value
     | some t => if now < t then some e.value else none)
  | none => none

/-- Go's `json.Unmarshal([]byte(productCache), &productData)`: the empty input of a cache
miss is an error (`unexpected end of JSON input`). -/
def jsonUnmarshal {F : Type} : Option (CachedText F) → Except String (Product F)
  | none => .error "unexpected end of JSON input"
  | some (.malformed e) => .error e
  | some (.product p) => .ok p

/-- The durable table and the cache: the stock ledger behind `service.ProductService`. -/
structure StockLedger (F : Type) where
  /-- rows of table `products` -/
  products : List (Product F)
  cache : ProductCache F
  deriving DecidableEq, Repr

/-- What one call of the product service observes of the world outside the process. -/
structure LedgerEnv where
  /-- the clock of the Redis server, in seconds -/
  now : Nat
  /-- an error of the Redis `GET` other than `redis.Nil` -/
  redisGetErr : Option String
  /-- an error of the `UPDATE products` statement -/
  updateErr : Option String
  deriving DecidableEq, Repr

/-- The key `fmt.Sprintf("product:%d", productID)`. -/
def productKey (productID : Int) : String := "product:" ++ formatInt productID

/-- The method `ProductRepository.GetProductByID`: it declares `var product *entity.Product`
and passes `&product.ID` to `Scan`; taking the address of a field of the nil pointer panics,
whatever the table holds. -/
def GetProductByID {F : Type} (_products : List (Product F)) (_id : Int) :
    Outcome (Product F) :=
  .panic "invalid memory address or nil pointer dereference"

/-- The method `ProductRepository.UpdateProduct`:
`UPDATE products SET name, description, price, stock WHERE id = product.ID`. -/
def UpdateProduct {F : Type} (env : LedgerEnv) (products : List (Product F))
    (product : Product F) : Option String × List (Product F) :=
  match env.updateErr with
  | some e => (some e, products)
  | none => (none, products.map (fun row => if row.ID = product.ID then product else row))

/-- The last lines of both methods: `rdb.Set(ctx, key, productData, 0)` is handed the struct
`entity.Product`, which declares no `MarshalBinary`; the client takes strings, byte slices,
numbers and binary marshalers only, reports `can't marshal entity.Product` without sending a
command, and the methods only log that error: the cache is as before. -/
def writeCache {F : Type} (cache : ProductCache F) (_key : String)
    (_productData : Product F) : ProductCache F :=
  cache

/-- The method `ProductService.ReserveProductStock`: the outcome and the ledger afterwards. -/
def StockLedger.ReserveProductStock {F : Type} (env : LedgerEnv) (l : StockLedger F)
    (productID quantity : Int) : Outcome Unit × StockLedger F :=
  let key := productKey productID
  match env.redisGetErr with
  | some e => (.error e, l)
  | none =>
    match jsonUnmarshal (cacheGet l.cache env.now key) with
    | .error e => (.error e, l)
    | .ok productData =>
      match (if productData.ID = 0 then GetProductByID l.products productID
             else .ok productData) with
      | .error e => (.error e, l)
      | .panic e => (.panic e, l)
      | .hang => (.hang, l)
      | .ok productData =>
        if productData.Stock < quantity then (.error "product out of stock", l)
        else
          let productData := { productData with Stock := productData.Stock - quantity }
          match UpdateProduct env l.products productData with
          | (some e, _) => (.error e, l)
          | (none, products) =>
            (.ok (), { products := products,
                       cache := writeCache l.cache key productData })

/-- The method `ProductService.ReleaseProductStock`.  An error of `GetProductByID` is only
logged there, and the nil `product` is dereferenced next. -/
def StockLedger.ReleaseProductStock {F : Type} (env : LedgerEnv) (l : StockLedger F)
    (productID quantity : Int) : Outcome Unit × StockLedger F :=
  let key := productKey productID
  match env.redisGetErr with
  | some e => (.error e, l)
  | none =>
    match jsonUnmarshal (cacheGet l.cache env.now key) with
    | .error e => (.error e, l)
    | .ok productData =>
      match (if productData.ID = 0 then GetProductByID l.products productID
             else .ok productData) with
      | .error _ => (.panic "invalid memory address or nil pointer dereference", l)
      | .panic e => (.panic e, l)
      | .hang => (.hang, l)
      | .ok productData =>
        let productData := { productData with Stock := productData.Stock + quantity }
        match UpdateProduct env l.products productData with
        | (some e, _) => (.error e, l)
        | (none, products) =>
          (.ok (), { products := products,
                     cache := writeCache l.cache key productData })

/-- The product service as the consumer sees it.  The state is `none` once a call has
panicked: the panic is not recovered and ends the consumer process. -/
def ledgerService {F : Type} (env : LedgerEnv) : ProductService (Option (StockLedger F)) where
  ReserveProductStock := fun st productID quantity =>
    match st with
    | none => (none, none)
    | some l =>
      match l.ReserveProductStock env productID quantity with
      | (.ok _, l) => (some l, none)
      | (.error e, l) => (some l, some e)
      | (.panic _, _) => (none, none)
      | (.hang, _) => (none, none)
  ReleaseProductStock := fun st productID quantity =>
    match st with
    | none => (none, none)
    | some l =>
      match l.ReleaseProductStock env productID quantity with
      | (.ok _, l) => (some l, none)
      | (.error e, l) => (some l, some e)
      | (.panic _, _) => (none, none)
      | (.hang, _) => (none, none)

/-- The record of a product has a stock of at least zero, in every row of the durable table
with that id and in the cache entry under the product's key. -/
def StockLedger.recordNonneg {F : Type} (l : StockLedger F) (productID : Int) : Bool :=
  l.products.all (fun row => row.ID != productID || decide (0 ≤ row.Stock)) &&
    (match l.cache.lookup (productKey productID) with
     | some e =>
       (match e.value with
        | .product p => decide (0 ≤ p.Stock)
        | .malformed _ => true)
     | none => true)

/-! ## Concrete data used in the examples -/

/-- An empty shard. -/
def emptyShard : Shard ℚ :=
  { orders := [], product_requests := [], ordersAutoInc := 1, productRequestsAutoInc := 1 }

/-- The repository of `cmd/main.go`: three shards and `NewShardRouter(3)`, nothing stored. -/
def emptyRepo : OrderRepository ℚ :=
  { dbShards := [emptyShard, emptyShard, emptyShard], router := { ShardCount := 3 } }

/-- A freshly started order service. -/
def freshService : OrderService ℚ :=
  { orderRepo := emptyRepo, rdb := [], kafka := [], lookups := [] }

/-- A world in which nothing fails: every product has stock 10 and the unit pricing
`{markup: 0.1, discount: 0.05, final_price: 100}`; goroutines complete in line-item order. -/
def calmEnv (test : Bool) (now : Nat) (rand : Fin 1000) : Env ℚ :=
  { test := test, now := now, rand := rand,
    stockService := fun _ => .response 200 (.ok [("stock", 10)]),
    pricingService := fun productId =>
      .response 200 (.ok { ProductID := productId, Markup := 0.1, Discount := 0.05,
                           FinalPrice := 100 }),
    redisGetErr := none, redisSetErr := none, db := noDbFaults, marshalErr := none,
    kafkaErr := none, availabilityOrder := [0, 1, 2, 3], pricingOrder := [0, 1, 2, 3] }

/-- The submission `{user_id: 7, line_items: [{product_id: 42, quantity: 2}]}` with the
header `Idempotent-Key: abc`; fields absent from the payload have Go's zero value. -/
def sampleOrder : Order ℚ :=
  { ID := 0, UserID := 7, OrderID := 0,
    ProductRequests :=
      [{ ProductID := 42, Quantity := 2, MarkUp := 0, Discount := 0, FinalPrice := 0 }],
    Quantity := 0, Total := 0, TotalMarkUp := 0, TotalDiscount := 0, Status := "",
    IdempotentKey := "abc" }

/-- The payload of the second example: two line items, a stale total and stale prices. -/
def twoItemOrder : Order ℚ :=
  { ID := 0, UserID := 7, OrderID := 0,
    ProductRequests :=
      [{ ProductID := 42, Quantity := 2, MarkUp := 0, Discount := 0, FinalPrice := 5 },
       { ProductID := 43, Quantity := 3, MarkUp := 0, Discount := 0, FinalPrice := 7 }],
    Quantity := 0, Total := 999, TotalMarkUp := 0, TotalDiscount := 0, Status := "",
    IdempotentKey := "xyz" }

/-- As `calmEnv` outside test mode, with the second line item's lookups completing first. -/
def swappedEnv : Env ℚ :=
  { calmEnv false 0 1 with availabilityOrder := [1, 0], pricingOrder := [1, 0] }

/-- An event of the consumer's topic with a dotted key and two line items. -/
def dottedEvent : KafkaMessage EventOrder :=
  { Key := "order.created.17",
    Value := { ProductRequests := [{ ProductID := 1, Quantity := 3 },
                                   { ProductID := 2, Quantity := 1 }],
               Status := "created" } }

/-- The product with id 1 and the given stock. -/
def gadget (stock : Int) : Product ℚ :=
  { ID := 1, Name := "gadget", Description := "", Price := 10, Stock := stock }

/-- A ledger whose durable table holds product 1 with stock 10 and whose cache is empty. -/
def coldLedger : StockLedger ℚ :=
  { products := [gadget 10], cache := [] }

/-- A ledger whose durable table and cache both hold product 1 with the given stock. -/
def warmLedger (stock : Int) : StockLedger ℚ :=
  { products := [gadget stock],
    cache := [(productKey 1, { value := .product (gadget stock), expireAt := none })] }

/-- A product-service world at time 0 in which neither the `GET` nor the `UPDATE` fails. -/
def quietLedgerEnv : LedgerEnv :=
  { now := 0, redisGetErr := none, updateErr := none }

/-- A world in which the commit of the shard transaction fails. -/
def commitFails : DbFaults := fun step =>
  match step with
  | .commit => some "driver: bad connection"
  | _ => none

/-- A shard holding the order with row id 1 and business key 1001, status `cancelled`, and
its line item. -/
def cancelledShard : Shard ℚ :=
  { orders := [{ id := 1, user_id := 7, order_id := 1001, quantity := 0, total := 0,
                 total_mark_up := 0, total_discount := 0, status := "cancelled",
                 idempotent_key := "abc" }],
    product_requests := [{ id := 1, order_id := 1, product_id := 42, quantity := 2,
                           mark_up := 0, discount := 0, final_price := 0 }],
    ordersAutoInc := 2, productRequestsAutoInc := 2 }

/-- Three shards, the cancelled order on the one its business key routes to (1001 % 3 = 2). -/
def cancelledRepo : OrderRepository ℚ :=
  { dbShards := [emptyShard, emptyShard, cancelledShard], router := { ShardCount := 3 } }

/-- An order service whose store holds the cancelled order. -/
def cancelledService : OrderService ℚ :=
  { orderRepo := cancelledRepo, rdb := [], kafka := [], lookups := [] }

/-- The pairs (id, stock) of the durable table, row by row. -/
def StockLedger.durableStocks {F : Type} (l : StockLedger F) : List (Int × Int) :=
  l.products.map (fun row => (row.ID, row.Stock))

/-- The stock of the product held by the cache under `key`, if it holds one. -/
def StockLedger.cachedStock {F : Type} (l : StockLedger F) (key : String) : Option Int :=
  match l.cache.lookup key with
  | some e =>
    (match e.value with
     | .product p => some p.Stock
     | .malformed _ => none)
  | none => none

/-- The `created` event of the order with the single line item (product 1, quantity 3). -/
def createdEvent : KafkaMessage EventOrder :=
  { Key := "order.created.1",
    Value := { ProductRequests := [{ ProductID := 1, Quantity := 3 }], Status := "created" } }

/-- The `cancelled` event of the same order. -/
def cancelledEvent : KafkaMessage EventOrder :=
  { Key := "order.cancelled.1",
    Value := { ProductRequests := [{ ProductID := 1, Quantity := 3 }], Status := "created" } }

/-- A world outside test mode in which the event log refuses the write. -/
def kafkaDownEnv : Env ℚ :=
  { calmEnv false 0 1 with kafkaErr := some "kafka: leader not available" }

/-- A world outside test mode in which the Redis `GET` fails. -/
def redisDownEnv : Env ℚ :=
  { calmEnv false 0 1 with redisGetErr := some "dial tcp: connection refused" }

/-- The sample submission with aggregate markup 9 and aggregate discount 4 in the payload. -/
def markedUpOrder : Order ℚ :=
  { sampleOrder with TotalMarkUp := 9, TotalDiscount := 4 }

/-- As `calmEnv` outside test mode, except that product 43 has stock 1. -/
def scarceEnv : Env ℚ :=
  { calmEnv false 0 1 with
    stockService := fun productId =>
      if productId = 43 then .response 200 (.ok [("stock", 1)])
      else .response 200 (.ok [("stock", 10)]) }

/-- A world outside test mode in which the stock lookup of product 42 fails in transport and
product 43 has stock 1; goroutines complete in line-item order. -/
def flakyEnv : Env ℚ :=
  { calmEnv false 0 1 with
    stockService := fun productId =>
      if productId = 42 then .failed "dial tcp: connection refused"
      else .response 200 (.ok [("stock", 1)]) }

/-- The `order_id` values of all order rows, shard by shard. -/
def OrderRepository.orderIds {F : Type} (r : OrderRepository F) : List Int :=
  (r.dbShards.map (fun db => db.orders.map (fun row => row.order_id))).flatten

/-- Every shard satisfies its UNIQUE constraint on `orders.order_id`, and every order row
lies on the shard that the router selects for its `order_id`. -/
def OrderRepository.wellPlaced {F : Type} (r : OrderRepository F) : Prop :=
  ∀ (i : Nat) (db : Shard F), r.dbShards[i]? = some db →
    (db.orders.map (fun row => row.order_id)).Nodup
    ∧ ∀ row ∈ db.orders, r.router.GetShard row.order_id = .ok (i : Int)

/-- Three submissions with different keys; the first two draw the same random number. -/
def threeCreates : List (Env ℚ × Order ℚ) :=
  [(calmEnv false 0 1, sampleOrder),
   (calmEnv false 0 1, { sampleOrder with IdempotentKey := "def" }),
   (calmEnv false 0 2, { sampleOrder with IdempotentKey := "ghi" })]

/-- A shard holding the cancelled order with row id 1 and business key 1000, and its line
item. -/
def alignedShard : Shard ℚ :=
  { orders := [{ id := 1, user_id := 7, order_id := 1000, quantity := 0, total := 0,
                 total_mark_up := 0, total_discount := 0, status := "cancelled",
                 idempotent_key := "abc" }],
    product_requests := [{ id := 1, order_id := 1, product_id := 42, quantity := 2,
                           mark_up := 0, discount := 0, final_price := 0 }],
    ordersAutoInc := 2, productRequestsAutoInc := 2 }

/-- An order service with three shards whose store holds that order on the shard that both
its row id and its business key route to (1 % 3 = 1000 % 3 = 1). -/
def alignedService : OrderService ℚ :=
  { orderRepo := { dbShards := [emptyShard, alignedShard, emptyShard],
                   router := { ShardCount := 3 } },
    rdb := [], kafka := [], lookups := [] }

/-- The order that `GetOrderByID(1)` reads from that store. -/
def alignedOrder : Order ℚ :=
  { ID := 1, UserID := 7, OrderID := 1000,
    ProductRequests :=
      [{ ProductID := 42, Quantity := 2, MarkUp := 0, Discount := 0, FinalPrice := 0 }],
    Quantity := 0, Total := 0, TotalMarkUp := 0, TotalDiscount := 0, Status := "cancelled",
    IdempotentKey := "" }

/-! # Theorems -/

/-! ## The aggregation step of `CreateOrder` -/

theorem assignPricing_order {F : Type} [Mul F] [IntCast F] (a : AvailabilityResult)
    (p : PricingResult F) (fr : RangeFrame F) : (assignPricing a p fr).order = fr.order := by
  unfold assignPricing
  split <;> rfl

theorem pricingLoop_eq {F : Type} [Mul F] [IntCast F] (a : AvailabilityResult)
    (p : PricingResult F) (order : Order F) : pricingLoop a p order = order := by
  unfold pricingLoop
  generalize order.ProductRequests = items
  induction items with
  | nil => rfl
  | cons elem rest ih => simp [List.foldl, assignPricing_order]

theorem gatherLoop_ok {F : Type} [Mul F] [IntCast F] (availability : List AvailabilityResult)
    (pricing : List (PricingResult F)) (ao po : List Nat) (ks : List Nat) (order o : Order F)
    (h : gatherLoop availability pricing ao po ks order = .ok o) : o = order := by
  induction ks generalizing order with
  | nil =>
    simp only [gatherLoop, Outcome.ok.injEq] at h
    exact h.symm
  | cons k ks ih =>
    simp only [gatherLoop] at h
    split at h
    · exact absurd h (by simp)
    · split at h
      · exact absurd h (by simp)
      · split at h
        · exact absurd h (by simp)
        · split at h
          · exact absurd h (by simp)
          · split at h
            · exact absurd h (by simp)
            · rw [pricingLoop_eq] at h
              exact ih order h

theorem sumTotal_foldl {F : Type} [Add F] (items : List (ProductRequest F)) (order : Order F) :
    items.foldl
        (fun order productRequest =>
          { order with Total := order.Total + productRequest.FinalPrice }) order
      = { order with
          Total := (items.map (fun p => p.FinalPrice)).foldl (fun x y => x + y) order.Total } := by
  induction items generalizing order with
  | nil => rfl
  | cons p ps ih => simp only [List.foldl, List.map, ih]

theorem sumTotal_eq {F : Type} [Zero F] [Add F] (order : Order F) :
    sumTotal order = { order with
      Total := (order.ProductRequests.map (fun p => p.FinalPrice)).foldl (fun x y => x + y) 0 } := by
  unfold sumTotal
  rw [sumTotal_foldl]

theorem aggregate_ok {F : Type} [Zero F] [Add F] [Mul F] [IntCast F] [OfScientific F]
    (env : Env F) (order o : Order F) (h : aggregate env order = .ok o) :
    o = sumTotal { order with OrderID := randomOrderID env.rand } := by
  unfold aggregate at h
  simp only at h
  split at h
  · exact absurd h (by simp)
  · exact absurd h (by simp)
  · exact absurd h (by simp)
  · split at h
    · exact absurd h (by simp)
    · exact absurd h (by simp)
    · exact absurd h (by simp)
    · rename_i _ _ _ o2 hg
      have := gatherLoop_ok _ _ _ _ _ _ _ hg
      subst this
      simp only [Outcome.ok.injEq] at h
      exact h.symm

/-- C3: the order that `CreateOrder` hands to the Order Store (the value of `aggregate`, lines
76 to 178) has a total equal to the sum of the `FinalPrice` fields of its line items, added
up in line-item order from 0, whatever total the request payload carried. -/
theorem aggregate_total_is_sum {F : Type} [Zero F] [Add F] [Mul F] [IntCast F] [OfScientific F]
    (env : Env F) (order o : Order F) (h : aggregate env order = .ok o) :
    o.Total = (o.ProductRequests.map (fun p => p.FinalPrice)).foldl (fun x y => x + y) 0 := by
  rw [aggregate_ok env order o h, sumTotal_eq]

/-- Witness of C3: a payload with total 999 and line items priced 5 and 7. -/
theorem aggregate_total_is_sum_witness :
    aggregate swappedEnv twoItemOrder = .ok { twoItemOrder with OrderID := 1001, Total := 12 }
    ∧ ({ twoItemOrder with OrderID := 1001, Total := 12 } : Order ℚ).Total
        = (({ twoItemOrder with OrderID := 1001, Total := 12 } : Order ℚ).ProductRequests.map
            (fun p => p.FinalPrice)).foldl (fun x y => x + y) 0 :=
  ⟨by with_unfolding_all rfl,
   aggregate_total_is_sum swappedEnv twoItemOrder _ (by with_unfolding_all rfl)⟩

/-- C1: on the submission `{user_id: 7, line_items: [{product_id: 42, quantity: 2}]}` with key
`abc`, sufficient stock and the unit pricing `{0.1, 0.05, 100}`, `CreateOrder` succeeds and
the order it returns, and the row it stores, have total 0 where quantity times unit final
price is 200. -/
theorem createOrder_sample_total_zero :
    (freshService.CreateOrder (calmEnv false 0 1) sampleOrder).1
        = .ok { sampleOrder with ID := 1, OrderID := 1001 }
    ∧ ({ sampleOrder with ID := 1, OrderID := 1001 } : Order ℚ).Total = 0
    ∧ ((freshService.CreateOrder (calmEnv false 0 1) sampleOrder).2.orderRepo.dbShards.map
        (fun db => db.orders.map (fun row => row.total))) = [[], [], [0]]
    ∧ ((2 : Int) : ℚ) * 100 = 200 ∧ (0 : ℚ) ≠ 200 :=
  ⟨by with_unfolding_all rfl, rfl, by with_unfolding_all rfl, by norm_num, by norm_num⟩

/-- C2: with two line items (quantities 2 and 3, unit pricing `{0.1, 0.05, 100}` for both
products) and the second item's lookups completing first, the line items of the returned
order keep the payload's `FinalPrice`, `MarkUp` and `Discount` (5, 7 and zeros) where the
quantity-scaled values are 200 and 300, 0.2 and 0.3, 0.1 and 0.15. -/
theorem createOrder_line_items_unpriced :
    (freshService.CreateOrder swappedEnv twoItemOrder).1
        = .ok { twoItemOrder with ID := 1, OrderID := 1001, Total := 12 }
    ∧ ({ twoItemOrder with ID := 1, OrderID := 1001, Total := 12 } : Order ℚ).ProductRequests.map
        (fun p => (p.FinalPrice, p.MarkUp, p.Discount)) = [(5, 0, 0), (7, 0, 0)]
    ∧ (5 : ℚ) ≠ ((2 : Int) : ℚ) * 100 ∧ (0 : ℚ) ≠ ((2 : Int) : ℚ) * 0.1 :=
  ⟨by with_unfolding_all rfl, by with_unfolding_all rfl, by norm_num, by norm_num⟩

theorem aggregate_keeps_line_items {F : Type} [Zero F] [Add F] [Mul F] [IntCast F]
    [OfScientific F] (env : Env F) (order o : Order F) (h : aggregate env order = .ok o) :
    o.ProductRequests = order.ProductRequests := by
  rw [aggregate_ok env order o h, sumTotal_eq]

/-! ## Shard selection -/

/-- C6: with the three shards of `cmd/main.go`, `GetShard(-1)` returns the index -1, which is
not in `[0, 3)`, and `GetOrderByID(-1)` (reached from the route `DELETE /orders/:id` with the id -1) panics on the
slice access `r.dbShards[dbIndex]`. -/
theorem getShard_negative_key :
    emptyRepo.router.GetShard (-1) = .ok (-1)
    ∧ ¬ (0 ≤ (-1 : Int) ∧ (-1 : Int) < emptyRepo.router.ShardCount)
    ∧ emptyRepo.GetOrderByID noDbFaults (-1) = .panic "index out of range" :=
  ⟨by decide, by decide, by decide⟩

/-- C7: for the order with business key `order_id = 1001` stored under row id 1 on three
shards, `CreateOrder` and `UpdateOrder` select shard 2 (from `order_id`), while
`GetOrderByID`, `DeleteOrder` and `UpdateOrderStatus`, which address the row by its id,
select shard 1. -/
theorem operations_select_different_shards :
    emptyRepo.shardOfCreateOrder { sampleOrder with ID := 1, OrderID := 1001 } = .ok 2
    ∧ emptyRepo.shardOfUpdateOrder { sampleOrder with ID := 1, OrderID := 1001 } = .ok 2
    ∧ emptyRepo.shardOfGetOrderByID ({ sampleOrder with ID := 1, OrderID := 1001 } : Order ℚ).ID
        = .ok 1
    ∧ emptyRepo.shardOfDeleteOrder ({ sampleOrder with ID := 1, OrderID := 1001 } : Order ℚ).ID
        = .ok 1
    ∧ emptyRepo.shardOfUpdateOrderStatus
        ({ sampleOrder with ID := 1, OrderID := 1001 } : Order ℚ).ID = .ok 1 :=
  ⟨by decide, by decide, by decide, by decide, by decide⟩

/-- C8: on three empty shards, `Create` of the order with `order_id = 1001` and one line item
succeeds with the store-assigned id 1 (the row is on shard 2), and `Read(1)` then fails with
`sql: no rows in result set`, because it looks on shard 1. -/
theorem read_after_create_not_found :
    (emptyRepo.CreateOrder noDbFaults { sampleOrder with OrderID := 1001 }).1
        = .ok { sampleOrder with ID := 1, OrderID := 1001 }
    ∧ (emptyRepo.CreateOrder noDbFaults { sampleOrder with OrderID := 1001 }).2.GetOrderByID
        noDbFaults 1 = .error "sql: no rows in result set" :=
  ⟨by with_unfolding_all rfl, by with_unfolding_all rfl⟩

/-! ## The event key -/

theorem splitChars_no_sep (sep : Char) (cs : List Char) (h : sep ∉ cs) :
    splitChars sep cs = [cs] := by
  induction cs with
  | nil => rfl
  | cons c cs ih =>
    have hc : c ≠ sep := fun e => h (by simp [e])
    have hcs : sep ∉ cs := fun m => h (List.mem_cons_of_mem _ m)
    simp [splitChars, hc, ih hcs]

theorem eventType_no_dot (key : String) (h : '.' ∉ key.data) :
    eventType key = .panic "index out of range" := by
  simp [eventType, stringsSplit, splitChars_no_sep '.' key.data h, goIndex]

theorem digitChar_ne_dot (d : Nat) (h : d < 10) : Nat.digitChar d ≠ '.' := by
  interval_cases d <;> decide

theorem toDigitsCore_no_dot (fuel n : Nat) (acc : List Char) (h : '.' ∉ acc) :
    '.' ∉ Nat.toDigitsCore 10 fuel n acc := by
  induction fuel generalizing n acc with
  | zero => simpa [Nat.toDigitsCore] using h
  | succ fuel ih =>
    have hd : '.' ∉ Nat.digitChar (n % 10) :: acc := by
      intro m
      rcases List.mem_cons.1 m with e | m
      · exact digitChar_ne_dot (n % 10) (Nat.mod_lt _ (by decide)) e.symm
      · exact h m
    simp only [Nat.toDigitsCore]
    split
    · exact hd
    · exact ih _ _ hd

theorem formatInt_no_dot (i : Int) : '.' ∉ (formatInt i).data := by
  have hd : ∀ n, '.' ∉ Nat.toDigits 10 n := fun n =>
    toDigitsCore_no_dot _ _ [] (by simp)
  unfold formatInt
  split
  · simp only [String.data_append, List.asString, List.mem_append, not_or]
    exact ⟨by decide, hd _⟩
  · exact hd _

theorem eventKey_no_dot (tag : String) (id : Int) (h : '.' ∉ tag.data) :
    '.' ∉ (eventKey tag id).data := by
  have hf := formatInt_no_dot id
  simp only [eventKey, String.data_append, List.mem_append, not_or]
  exact ⟨⟨⟨by decide, h⟩, by decide⟩, hf⟩

/-- C9: for every order id and each of the tags created, updated and cancelled, the key that
`publishOrderEvent` builds contains no dot, so `strings.Split(key, ".")` has one element and
the consumer's `listKey[1]` panics with an index out of range: no tag is decoded. -/
theorem eventType_of_published_key_panics (id : Int) :
    eventType (eventKey "created" id) = .panic "index out of range"
    ∧ eventType (eventKey "updated" id) = .panic "index out of range"
    ∧ eventType (eventKey "cancelled" id) = .panic "index out of range" :=
  ⟨eventType_no_dot _ (eventKey_no_dot _ id (by decide)),
   eventType_no_dot _ (eventKey_no_dot _ id (by decide)),
   eventType_no_dot _ (eventKey_no_dot _ id (by decide))⟩

/-! ## The consumer -/

theorem reserveLoop_eq_foldl {σ : Type} (productSvc : ProductService σ)
    (items : List EventItem) (st : σ) :
    reserveLoop productSvc items st
      = items.foldl
          (fun st item => (productSvc.ReserveProductStock st item.ProductID item.Quantity).1)
          st := by
  induction items generalizing st with
  | nil => rfl
  | cons item items ih =>
    simp only [reserveLoop, List.foldl]
    split <;> rename_i h <;> rw [h] <;> exact ih _

theorem releaseLoop_eq_foldl {σ : Type} (productSvc : ProductService σ)
    (items : List EventItem) (st : σ) :
    releaseLoop productSvc items st
      = items.foldl
          (fun st item => (productSvc.ReleaseProductStock st item.ProductID item.Quantity).1)
          st := by
  induction items generalizing st with
  | nil => rfl
  | cons item items ih =>
    simp only [releaseLoop, List.foldl]
    split <;> rename_i h <;> rw [h] <;> exact ih _

theorem recorded_reserves (failing : List Int) (items : List EventItem)
    (calls : List StockCall) :
    items.foldl
        (fun st item =>
          ((recordingService failing).ReserveProductStock st item.ProductID item.Quantity).1)
        calls
      = calls ++ items.map (fun item => StockCall.reserve item.ProductID item.Quantity) := by
  induction items generalizing calls with
  | nil => simp
  | cons item items ih =>
    rw [List.foldl_cons, ih]
    simp [recordingService]

theorem recorded_releases (failing : List Int) (items : List EventItem)
    (calls : List StockCall) :
    items.foldl
        (fun st item =>
          ((recordingService failing).ReleaseProductStock st item.ProductID item.Quantity).1)
        calls
      = calls ++ items.map (fun item => StockCall.release item.ProductID item.Quantity) := by
  induction items generalizing calls with
  | nil => simp
  | cons item items ih =>
    rw [List.foldl_cons, ih]
    simp [recordingService]

/-- C10: for a message whose payload decodes to `orderEvent` and whose key decodes to `tag`:
with `tag = "created"`, `processMessage` returns after threading the ledger through one
`ReserveProductStock(item.ProductID, item.Quantity)` per line item, in line-item order,
whether or not a call returned an error (so a service that records its calls sees exactly
that list, failures included); with `tag = "cancelled"` likewise with `ReleaseProductStock`;
with any other tag the ledger is returned as it was. -/
theorem processMessage_dispatch {σ V : Type} (productSvc : ProductService σ)
    (unmarshal : V → Except String EventOrder) (st : σ) (msg : KafkaMessage V)
    (orderEvent : EventOrder) (tag : String)
    (hdec : unmarshal msg.Value = .ok orderEvent) (htag : eventType msg.Key = .ok tag) :
    (tag = "created" →
      processMessage productSvc unmarshal st msg
        = .ok (orderEvent.ProductRequests.foldl
            (fun st item =>
              (productSvc.ReserveProductStock st item.ProductID item.Quantity).1) st)
      ∧ ∀ (failing : List Int) (calls : List StockCall),
          processMessage (recordingService failing) unmarshal calls msg
            = .ok (calls ++ orderEvent.ProductRequests.map
                (fun item => StockCall.reserve item.ProductID item.Quantity)))
    ∧ (tag = "cancelled" →
      processMessage productSvc unmarshal st msg
        = .ok (orderEvent.ProductRequests.foldl
            (fun st item =>
              (productSvc.ReleaseProductStock st item.ProductID item.Quantity).1) st)
      ∧ ∀ (failing : List Int) (calls : List StockCall),
          processMessage (recordingService failing) unmarshal calls msg
            = .ok (calls ++ orderEvent.ProductRequests.map
                (fun item => StockCall.release item.ProductID item.Quantity)))
    ∧ (tag ≠ "created" → tag ≠ "cancelled" →
      processMessage productSvc unmarshal st msg = .ok st
      ∧ ∀ (failing : List Int) (calls : List StockCall),
          processMessage (recordingService failing) unmarshal calls msg = .ok calls) := by
  refine ⟨?_, ?_, ?_⟩
  · intro ht
    subst ht
    refine ⟨?_, fun failing calls => ?_⟩
    · simp [processMessage, hdec, htag, reserveLoop_eq_foldl]
    · simp [processMessage, hdec, htag, reserveLoop_eq_foldl, recorded_reserves]
  · intro ht
    subst ht
    refine ⟨?_, fun failing calls => ?_⟩
    · simp [processMessage, hdec, htag, releaseLoop_eq_foldl]
    · simp [processMessage, hdec, htag, releaseLoop_eq_foldl, recorded_releases]
  · intro h1 h2
    refine ⟨?_, fun failing calls => ?_⟩
    · simp [processMessage, hdec, htag, h1, h2]
    · simp [processMessage, hdec, htag, h1, h2]

/-- Witness of C10: the key `order.created.17` with line items (1, 3) and (2, 1), on a
service whose reservation of product 1 fails. -/
theorem processMessage_dispatch_witness :
    (Except.ok dottedEvent.Value : Except String EventOrder) = .ok dottedEvent.Value
    ∧ eventType dottedEvent.Key = .ok "created"
    ∧ processMessage (recordingService [1]) Except.ok [] dottedEvent
        = .ok [StockCall.reserve 1 3, StockCall.reserve 2 1] :=
  ⟨rfl, by decide,
   ((processMessage_dispatch (recordingService [1]) Except.ok [] dottedEvent dottedEvent.Value
      "created" rfl (by decide)).1 rfl).2 [1] []⟩

/-! ## The idempotency guard -/

theorem lookup_filter_ne (rdb : Redis) (k k' : String) (h : k' ≠ k) :
    (rdb.filter (fun kv => kv.1 != k)).lookup k' = rdb.lookup k' := by
  induction rdb with
  | nil => rfl
  | cons kv rest ih =>
    obtain ⟨a, e⟩ := kv
    by_cases ha : a = k
    · subst ha
      have hne : (k' == a) = false := by simpa using h
      simp [List.filter, List.lookup, hne, ih]
    · have hf : (a != k) = true := by simpa using ha
      simp only [List.filter, hf, List.lookup, ih]

theorem lookup_set_self (rdb : Redis) (now : Nat) (k v : String) (ttl : Nat) :
    (rdb.set now k v ttl).lookup k
      = some { value := v, expireAt := if ttl = 0 then none else some (now + ttl) } := by
  simp [Redis.set, List.lookup]

theorem lookup_set_other (rdb : Redis) (now : Nat) (k k' v : String) (ttl : Nat)
    (h : k' ≠ k) : (rdb.set now k v ttl).lookup k' = rdb.lookup k' := by
  have hne : (k' == k) = false := by simpa using h
  simp [Redis.set, List.lookup, hne, lookup_filter_ne rdb k k' h]

theorem markerHeld_get (rdb : Redis) (rk : String) (till now : Nat)
    (h : markerHeld rdb rk till = true) (hnow : now < till) :
    rdb.get now rk = some "exists" := by
  unfold markerHeld at h
  unfold Redis.get
  cases hl : rdb.lookup rk with
  | none => simp [hl] at h
  | some e =>
    simp only [hl, Bool.and_eq_true, beq_iff_eq] at h
    obtain ⟨hv, ht⟩ := h
    cases he : e.expireAt with
    | none => simp [RedisEntry.alive, he, hv]
    | some t =>
      simp only [he, decide_eq_true_eq] at ht
      have : now < t := lt_of_lt_of_le hnow ht
      simp [RedisEntry.alive, he, hv, this]

theorem markerHeld_set (rdb : Redis) (rk k : String) (till now : Nat)
    (h : markerHeld rdb rk till = true) (hget : (rdb.get now k).getD "" = "") :
    markerHeld (rdb.set now k "exists" idempotentKeyTTL) rk till = true := by
  by_cases hk : rk = k
  · subst hk
    unfold markerHeld
    rw [lookup_set_self]
    have hle : till ≤ now + idempotentKeyTTL := by
      by_contra hlt
      have hnow : now < till := by omega
      rw [markerHeld_get rdb rk till now h hnow] at hget
      simp at hget
    simp [idempotentKeyTTL] at hle ⊢
    exact hle
  · unfold markerHeld
    rw [lookup_set_other rdb now k rk "exists" idempotentKeyTTL hk]
    exact h

theorem validate_preserves_marker {F : Type} (env : Env F) (rdb : Redis) (key rk : String)
    (till : Nat) (h : markerHeld rdb rk till = true) :
    markerHeld (validateIdempotentKey env rdb key).2 rk till = true := by
  unfold validateIdempotentKey
  split
  · exact h
  · split
    · exact h
    · simp only
      split
      · exact h
      · rename_i hval
        split
        · exact h
        · exact markerHeld_set rdb rk _ till env.now h (by simpa using hval)

theorem createOrder_rdb {F : Type} [Zero F] [Add F] [Mul F] [IntCast F] [OfScientific F]
    (s : OrderService F) (env : Env F) (order : Order F) :
    (s.CreateOrder env order).2.rdb
      = (validateIdempotentKey env s.rdb order.IdempotentKey).2 := by
  unfold OrderService.CreateOrder
  dsimp only
  repeat' split
  all_goals rfl

theorem runCreates_preserves_marker {F : Type} [Zero F] [Add F] [Mul F] [IntCast F]
    [OfScientific F] (calls : List (Env F × Order F)) (s : OrderService F) (rk : String)
    (till : Nat) (h : markerHeld s.rdb rk till = true) :
    markerHeld (runCreates calls s).rdb rk till = true := by
  induction calls generalizing s with
  | nil => exact h
  | cons c rest ih =>
    obtain ⟨env, order⟩ := c
    simp only [runCreates]
    apply ih
    rw [createOrder_rdb]
    exact validate_preserves_marker env s.rdb order.IdempotentKey rk till h

theorem validate_fresh {F : Type} (env : Env F) (rdb : Redis) (key : String)
    (htest : env.test = false) (hget : env.redisGetErr = none) (hset : env.redisSetErr = none)
    (hfresh : rdb.get env.now ("idempotent-key:" ++ key) = none) :
    validateIdempotentKey env rdb key
      = ((true, none), rdb.set env.now ("idempotent-key:" ++ key) "exists" idempotentKeyTTL) := by
  simp [validateIdempotentKey, htest, hget, hset, hfresh]

theorem createOrder_rejects_held_key {F : Type} [Zero F] [Add F] [Mul F] [IntCast F]
    [OfScientific F] (s : OrderService F) (env : Env F) (order : Order F) (till : Nat)
    (htest : env.test = false) (hget : env.redisGetErr = none)
    (hheld : markerHeld s.rdb ("idempotent-key:" ++ order.IdempotentKey) till = true)
    (hnow : env.now < till) :
    s.CreateOrder env order = (.error "idempotent key already exists", s) := by
  have hg := markerHeld_get s.rdb _ till env.now hheld hnow
  simp [OrderService.CreateOrder, validateIdempotentKey, htest, hget, hg]

/-- C4, as stated, fails under `ENV=test`, where the guard returns `(true, nil)` without
consulting the marker store: two submissions with the key `abc`, five seconds apart, are both
admitted, and the second is persisted and returned. -/
theorem duplicate_key_admitted_in_test_env :
    (freshService.CreateOrder (calmEnv true 0 1) sampleOrder).1
        = .ok { sampleOrder with ID := 1, OrderID := 1001 }
    ∧ ((freshService.CreateOrder (calmEnv true 0 1) sampleOrder).2.CreateOrder
          (calmEnv true 5 2) sampleOrder).1
        = .ok { sampleOrder with ID := 1, OrderID := 1002 }
    ∧ ((freshService.CreateOrder (calmEnv true 0 1) sampleOrder).2.CreateOrder
          (calmEnv true 5 2) sampleOrder).1
        ≠ .error "idempotent key already exists" :=
  ⟨by with_unfolding_all rfl, by with_unfolding_all rfl, by
    rw [show ((freshService.CreateOrder (calmEnv true 0 1) sampleOrder).2.CreateOrder
          (calmEnv true 5 2) sampleOrder).1
        = .ok { sampleOrder with ID := 1, OrderID := 1002 } from by with_unfolding_all rfl]
    exact fun h => Outcome.noConfusion h⟩

/-- C4, amended: outside test mode and with a marker store that answers without error, the
first `CreateOrder` with a key for which the store holds no marker passes the guard; and
whatever that call's outcome and whatever `CreateOrder` calls follow, a `CreateOrder` with
the same key made less than 24 hours after the first returns the error
`idempotent key already exists` and leaves the service (shards, topic, lookups sent, marker
store) exactly as it found it. -/
theorem duplicate_key_rejected {F : Type} [Zero F] [Add F] [Mul F] [IntCast F]
    [OfScientific F] (s0 : OrderService F) (env1 : Env F) (order1 : Order F)
    (later : List (Env F × Order F)) (env2 : Env F) (order2 : Order F)
    (htest1 : env1.test = false) (hget1 : env1.redisGetErr = none)
    (hset1 : env1.redisSetErr = none)
    (hfresh : s0.rdb.get env1.now ("idempotent-key:" ++ order1.IdempotentKey) = none)
    (htest2 : env2.test = false) (hget2 : env2.redisGetErr = none)
    (hkey : order2.IdempotentKey = order1.IdempotentKey)
    (hlife : env2.now < env1.now + idempotentKeyTTL) :
    (validateIdempotentKey env1 s0.rdb order1.IdempotentKey).1 = (true, none)
    ∧ (runCreates later (s0.CreateOrder env1 order1).2).CreateOrder env2 order2
        = (.error "idempotent key already exists",
            runCreates later (s0.CreateOrder env1 order1).2) := by
  have hv := validate_fresh env1 s0.rdb order1.IdempotentKey htest1 hget1 hset1 hfresh
  refine ⟨by rw [hv], ?_⟩
  have h1 : markerHeld (s0.CreateOrder env1 order1).2.rdb
      ("idempotent-key:" ++ order1.IdempotentKey) (env1.now + idempotentKeyTTL) = true := by
    rw [createOrder_rdb, hv]
    simp [markerHeld, lookup_set_self, idempotentKeyTTL]
  have h2 := runCreates_preserves_marker later _ _ _ h1
  apply createOrder_rejects_held_key _ env2 order2 (env1.now + idempotentKeyTTL) htest2 hget2
  · rw [hkey]
    exact h2
  · exact hlife

/-- Witness of C4: the key `abc` at time 0, another order ten seconds later, and `abc` again
one second before the marker expires. -/
theorem duplicate_key_rejected_witness :
    (calmEnv false 0 1).test = false ∧ (calmEnv false 0 1).redisGetErr = none
    ∧ (calmEnv false 0 1).redisSetErr = none
    ∧ freshService.rdb.get (calmEnv false 0 1).now ("idempotent-key:" ++ sampleOrder.IdempotentKey)
        = none
    ∧ (calmEnv false 86399 2).now < (calmEnv false 0 1).now + idempotentKeyTTL
    ∧ (validateIdempotentKey (calmEnv false 0 1) freshService.rdb sampleOrder.IdempotentKey).1
        = (true, none)
    ∧ (runCreates [(calmEnv false 10 5, twoItemOrder)]
          (freshService.CreateOrder (calmEnv false 0 1) sampleOrder).2).CreateOrder
          (calmEnv false 86399 2) sampleOrder
        = (.error "idempotent key already exists",
            runCreates [(calmEnv false 10 5, twoItemOrder)]
              (freshService.CreateOrder (calmEnv false 0 1) sampleOrder).2) :=
  ⟨rfl, rfl, rfl, rfl, by decide,
   duplicate_key_rejected freshService (calmEnv false 0 1) sampleOrder
     [(calmEnv false 10 5, twoItemOrder)] (calmEnv false 86399 2) sampleOrder
     rfl rfl rfl rfl rfl rfl rfl (by decide)⟩

theorem guardStep_twice {F : Type} (env : Env F) (key : String) (rdb : Redis) :
    guardStep env key (guardStep env key .entry rdb).1 (guardStep env key .entry rdb).2
      = (.returned (validateIdempotentKey env rdb key).1.1
            (validateIdempotentKey env rdb key).1.2,
          (validateIdempotentKey env rdb key).2) := by
  unfold validateIdempotentKey guardStep
  by_cases ht : env.test = true
  · simp [ht]
  · cases hg : env.redisGetErr with
    | some e => simp [ht, hg]
    | none =>
      by_cases hv : (rdb.get env.now ("idempotent-key:" ++ key)).getD "" = ""
      · cases hs : env.redisSetErr <;> simp [ht, hg, hv, hs]
      · simp [ht, hg, hv]

theorem schedules_of_two_calls (sched : List Bool)
    (h : sched.Perm [false, false, true, true]) :
    sched = [false, false, true, true] ∨ sched = [true, true, false, false]
    ∨ sched = [false, true, false, true] ∨ sched = [false, true, true, false]
    ∨ sched = [true, false, false, true] ∨ sched = [true, false, true, false] := by
  have hlen : sched.length = 4 := by simpa using h.length_eq
  match sched, hlen with
  | [a, b, c, d], _ =>
    revert h
    cases a <;> cases b <;> cases c <;> cases d <;> decide

/-- C5, as stated, fails: with both `GET`s answered before either `SET` is sent, two calls
with the key `abc` on an empty marker store are both admitted. -/
theorem both_calls_admitted_when_gets_precede_sets :
    (runGuards (calmEnv false 0 1) (calmEnv false 0 2) "abc" [false, true, false, true]
        { first := .entry, second := .entry, rdb := [] }).first.admitted = true
    ∧ (runGuards (calmEnv false 0 1) (calmEnv false 0 2) "abc" [false, true, false, true]
        { first := .entry, second := .entry, rdb := [] }).second.admitted = true :=
  ⟨by with_unfolding_all rfl, by with_unfolding_all rfl⟩

/-- C5, amended: the guard is a `GET` followed by a separate `SET` (run back to back, the two
steps are `validateIdempotentKey`).  For two calls with the same key outside test mode, a
marker store without errors that holds no marker for the key, and every interleaving of
their four commands: at least one call is admitted; when one call's two commands both come
before the other's, that call is admitted and the other one is rejected as a duplicate; in
the remaining interleavings both calls are admitted. -/
theorem guard_interleavings {F : Type} (envA envB : Env F) (key : String) (rdb : Redis)
    (sched : List Bool)
    (hA : envA.test = false) (hAg : envA.redisGetErr = none) (hAs : envA.redisSetErr = none)
    (hB : envB.test = false) (hBg : envB.redisGetErr = none) (hBs : envB.redisSetErr = none)
    (hfreshA : rdb.get envA.now ("idempotent-key:" ++ key) = none)
    (hfreshB : rdb.get envB.now ("idempotent-key:" ++ key) = none)
    (hAB : envB.now < envA.now + idempotentKeyTTL)
    (hBA : envA.now < envB.now + idempotentKeyTTL)
    (hsched : sched.Perm [false, false, true, true]) :
    ((runGuards envA envB key sched ⟨.entry, .entry, rdb⟩).first.admitted = true
      ∨ (runGuards envA envB key sched ⟨.entry, .entry, rdb⟩).second.admitted = true)
    ∧ (sched = [false, false, true, true] →
        (runGuards envA envB key sched ⟨.entry, .entry, rdb⟩).first.admitted = true
        ∧ (runGuards envA envB key sched ⟨.entry, .entry, rdb⟩).second.rejected = true)
    ∧ (sched = [true, true, false, false] →
        (runGuards envA envB key sched ⟨.entry, .entry, rdb⟩).second.admitted = true
        ∧ (runGuards envA envB key sched ⟨.entry, .entry, rdb⟩).first.rejected = true)
    ∧ (sched ≠ [false, false, true, true] → sched ≠ [true, true, false, false] →
        (runGuards envA envB key sched ⟨.entry, .entry, rdb⟩).first.admitted = true
        ∧ (runGuards envA envB key sched ⟨.entry, .entry, rdb⟩).second.admitted = true)
    ∧ guardStep envA key (guardStep envA key .entry rdb).1 (guardStep envA key .entry rdb).2
        = (.returned (validateIdempotentKey envA rdb key).1.1
              (validateIdempotentKey envA rdb key).1.2,
            (validateIdempotentKey envA rdb key).2) := by
  have hgetA : ∀ r : Redis,
      (r.set envB.now ("idempotent-key:" ++ key) "exists" idempotentKeyTTL).get envA.now
        ("idempotent-key:" ++ key) = some "exists" := by
    intro r
    simp [Redis.get, lookup_set_self, RedisEntry.alive, idempotentKeyTTL] at hBA ⊢
    exact hBA
  have hgetB : ∀ r : Redis,
      (r.set envA.now ("idempotent-key:" ++ key) "exists" idempotentKeyTTL).get envB.now
        ("idempotent-key:" ++ key) = some "exists" := by
    intro r
    simp [Redis.get, lookup_set_self, RedisEntry.alive, idempotentKeyTTL] at hAB ⊢
    exact hAB
  refine ⟨?_, ?_, ?_, ?_, guardStep_twice envA key rdb⟩
  · rcases schedules_of_two_calls sched hsched with h | h | h | h | h | h <;> subst h <;>
      simp [runGuards, guardStep, hA, hAg, hAs, hB, hBg, hBs, hfreshA, hfreshB, hgetA, hgetB,
        GuardPc.admitted]
  · intro h
    subst h
    simp [runGuards, guardStep, hA, hAg, hAs, hB, hBg, hBs, hfreshA, hfreshB, hgetA, hgetB,
      GuardPc.admitted, GuardPc.rejected]
  · intro h
    subst h
    simp [runGuards, guardStep, hA, hAg, hAs, hB, hBg, hBs, hfreshA, hfreshB, hgetA, hgetB,
      GuardPc.admitted, GuardPc.rejected]
  · intro h1 h2
    rcases schedules_of_two_calls sched hsched with h | h | h | h | h | h
    · exact absurd h h1
    · exact absurd h h2
    all_goals
      subst h
      simp [runGuards, guardStep, hA, hAg, hAs, hB, hBg, hBs, hfreshA, hfreshB, hgetA, hgetB,
        GuardPc.admitted]

/-- Witness of C5: two calls with the key `abc`, three seconds apart, on an empty marker
store, the first call's commands both ahead of the second's. -/
theorem guard_interleavings_witness :
    (calmEnv false 0 1).test = false ∧ (calmEnv false 3 2).test = false
    ∧ Redis.get [] (calmEnv false 0 1).now ("idempotent-key:" ++ "abc") = none
    ∧ Redis.get [] (calmEnv false 3 2).now ("idempotent-key:" ++ "abc") = none
    ∧ (calmEnv false 3 2).now < (calmEnv false 0 1).now + idempotentKeyTTL
    ∧ (calmEnv false 0 1).now < (calmEnv false 3 2).now + idempotentKeyTTL
    ∧ [false, false, true, true].Perm [false, false, true, true]
    ∧ (runGuards (calmEnv false 0 1) (calmEnv false 3 2) "abc" [false, false, true, true]
          ⟨.entry, .entry, []⟩).first.admitted = true
    ∧ (runGuards (calmEnv false 0 1) (calmEnv false 3 2) "abc" [false, false, true, true]
          ⟨.entry, .entry, []⟩).second.rejected = true :=
  ⟨rfl, rfl, rfl, rfl, by decide, by decide, List.Perm.refl _,
   ((guard_interleavings (calmEnv false 0 1) (calmEnv false 3 2) "abc" []
      [false, false, true, true] rfl rfl rfl rfl rfl rfl rfl rfl (by decide) (by decide)
      (List.Perm.refl _)).2.1 rfl).1,
   ((guard_interleavings (calmEnv false 0 1) (calmEnv false 3 2) "abc" []
      [false, false, true, true] rfl rfl rfl rfl rfl rfl rfl rfl (by decide) (by decide)
      (List.Perm.refl _)).2.1 rfl).2⟩

/-! ## The stock ledger -/

/-- C12: product 1 is in the durable table with stock 10 and has no cache entry; both
`ReserveProductStock(1, 3)` and `ReleaseProductStock(1, 3)` return the error of
`json.Unmarshal` on the empty string and leave the durable table and the cache as they were:
the durable record is neither read nor written. -/
theorem reserve_and_release_fail_on_cache_miss :
    cacheGet coldLedger.cache quietLedgerEnv.now (productKey 1) = none
    ∧ coldLedger.ReserveProductStock quietLedgerEnv 1 3
        = (.error "unexpected end of JSON input", coldLedger)
    ∧ coldLedger.ReleaseProductStock quietLedgerEnv 1 3
        = (.error "unexpected end of JSON input", coldLedger) :=
  ⟨rfl, rfl, rfl⟩

theorem all_updateProduct {F : Type} (env : LedgerEnv) (products : List (Product F))
    (product : Product F) (productID : Int) (hp : 0 ≤ product.Stock)
    (h : products.all (fun row => row.ID != productID || decide (0 ≤ row.Stock)) = true) :
    (UpdateProduct env products product).2.all
      (fun row => row.ID != productID || decide (0 ≤ row.Stock)) = true := by
  unfold UpdateProduct
  split
  · exact h
  · simp only [List.all_eq_true, List.mem_map] at h ⊢
    rintro row ⟨r, hr, rfl⟩
    split
    · simp [hp]
    · exact h r hr

theorem recordNonneg_write {F : Type} (env : LedgerEnv) (l : StockLedger F)
    (productID : Int) (product : Product F) (hp : 0 ≤ product.Stock)
    (h : l.recordNonneg productID = true) :
    ({ products := (UpdateProduct env l.products product).2,
       cache := writeCache l.cache (productKey productID) product } :
        StockLedger F).recordNonneg productID = true := by
  unfold StockLedger.recordNonneg at h ⊢
  simp only [Bool.and_eq_true] at h ⊢
  refine ⟨all_updateProduct env l.products product productID hp h.1, ?_⟩
  simpa [writeCache] using h.2

theorem cacheGet_lookup {F : Type} (cache : ProductCache F) (now : Nat) (key : String)
    (p : Product F) (h : jsonUnmarshal (cacheGet cache now key) = .ok p) :
    ∃ e, cache.lookup key = some e ∧ e.value = .product p := by
  unfold cacheGet at h
  cases hl : cache.lookup key with
  | none => simp [hl, jsonUnmarshal] at h
  | some e =>
    refine ⟨e, rfl, ?_⟩
    simp only [hl] at h
    have hv : jsonUnmarshal (some e.value) = .ok p := by
      cases he : e.expireAt with
      | none => simpa [he] using h
      | some t =>
        simp only [he] at h
        split at h
        · exact h
        · simp [jsonUnmarshal] at h
    cases hval : e.value with
    | malformed err => simp [hval, jsonUnmarshal] at hv
    | product q =>
      simp only [hval, jsonUnmarshal, Except.ok.injEq] at hv
      rw [hv]

/-- C13: when the record of a product has stock at least zero, in the durable rows with its
id and in its cache entry, and the quantity is positive, then after `ReserveProductStock`
and after `ReleaseProductStock` on that product, whatever the outcome of the call (success,
error or panic), the record still has stock at least zero in both places. -/
theorem stock_stays_nonneg {F : Type} (env : LedgerEnv) (l : StockLedger F)
    (productID quantity : Int) (hq : 0 < quantity)
    (h : l.recordNonneg productID = true) :
    (l.ReserveProductStock env productID quantity).2.recordNonneg productID = true
    ∧ (l.ReleaseProductStock env productID quantity).2.recordNonneg productID = true := by
  have hcached : ∀ p, jsonUnmarshal (cacheGet l.cache env.now (productKey productID)) = .ok p →
      0 ≤ p.Stock := by
    intro p hp
    obtain ⟨e, he, hv⟩ := cacheGet_lookup _ _ _ _ hp
    unfold StockLedger.recordNonneg at h
    simp only [Bool.and_eq_true, he, hv, decide_eq_true_eq] at h
    exact h.2
  constructor
  · unfold StockLedger.ReserveProductStock
    simp only
    split
    · exact h
    · split
      · exact h
      · rename_i p hp
        have hp0 := hcached p hp
        by_cases hid : p.ID = 0
        · simp only [hid, if_true, GetProductByID]
          exact h
        · simp only [hid, if_false]
          split
          · exact h
          · rename_i hlt
            have hge : 0 ≤ p.Stock - quantity := by omega
            cases hu : env.updateErr with
            | some e => simp only [UpdateProduct, hu]; exact h
            | none =>
              have := recordNonneg_write env l productID
                { p with Stock := p.Stock - quantity } hge h
              simpa [UpdateProduct, hu] using this
  · unfold StockLedger.ReleaseProductStock
    simp only
    split
    · exact h
    · split
      · exact h
      · rename_i p hp
        have hp0 := hcached p hp
        by_cases hid : p.ID = 0
        · simp only [hid, if_true, GetProductByID]
          exact h
        · simp only [hid, if_false]
          have hge : 0 ≤ p.Stock + quantity := by omega
          cases hu : env.updateErr with
          | some e => simp only [UpdateProduct, hu]; exact h
          | none =>
            have := recordNonneg_write env l productID
              { p with Stock := p.Stock + quantity } hge h
            simpa [UpdateProduct, hu] using this

/-- Witness of C13: product 1 with stock 5 in both stores, quantity 3. -/
theorem stock_stays_nonneg_witness :
    (0 : Int) < 3 ∧ (warmLedger 5).recordNonneg 1 = true
    ∧ ((warmLedger 5).ReserveProductStock quietLedgerEnv 1 3).2.recordNonneg 1 = true
    ∧ ((warmLedger 5).ReleaseProductStock quietLedgerEnv 1 3).2.recordNonneg 1 = true :=
  ⟨by decide, by with_unfolding_all rfl,
   stock_stays_nonneg quietLedgerEnv (warmLedger 5) 1 3 (by decide) (by with_unfolding_all rfl)⟩

/-! ## The Order Store -/

theorem goIndex_ok {α : Type} (xs : List α) (i : Int) (x : α) (h : goIndex xs i = .ok x) :
    0 ≤ i ∧ xs[i.toNat]? = some x := by
  unfold goIndex at h
  split at h
  · exact absurd h (by simp)
  · rename_i hi
    split at h
    · rename_i y hy
      simp only [Outcome.ok.injEq] at h
      subst h
      exact ⟨by omega, by simpa [List.get?_eq_getElem?] using hy⟩
    · exact absurd h (by simp)

theorem set_self_of_goIndex {α : Type} (xs : List α) (i : Int) (x : α)
    (h : goIndex xs i = .ok x) : xs.set i.toNat x = xs := by
  obtain ⟨_, hx⟩ := goIndex_ok xs i x h
  apply List.ext_getElem?
  intro j
  rw [List.getElem?_set]
  split
  · rename_i hij
    subst hij
    obtain ⟨hlt, _⟩ := List.getElem?_eq_some.1 hx
    simp [hlt, hx]
  · rfl

theorem goIndex_set {α : Type} (xs : List α) (i : Int) (x y : α)
    (h : goIndex xs i = .ok x) : goIndex (xs.set i.toNat y) i = .ok y := by
  obtain ⟨hi, hx⟩ := goIndex_ok xs i x h
  obtain ⟨hlt, _⟩ := List.getElem?_eq_some.1 hx
  have hneg : ¬ i < 0 := by omega
  simp [goIndex, hneg, List.get?_eq_getElem?, List.getElem?_set, hlt]

theorem insertOrder_cases {F : Type} (db : Shard F) (o : Order F) :
    (∃ e, db.insertOrder o = .error e)
    ∨ db.insertOrder o = .ok (db.ordersAutoInc,
        { db with
          orders := db.orders ++
            [{ id := db.ordersAutoInc, user_id := o.UserID, order_id := o.OrderID,
               quantity := o.Quantity, total := o.Total, total_mark_up := o.TotalMarkUp,
               total_discount := o.TotalDiscount, status := o.Status,
               idempotent_key := o.IdempotentKey }],
          ordersAutoInc := db.ordersAutoInc + 1 }) := by
  unfold Shard.insertOrder
  split
  · exact Or.inl ⟨_, rfl⟩
  · split
    · exact Or.inl ⟨_, rfl⟩
    · split
      · exact Or.inl ⟨_, rfl⟩
      · exact Or.inr rfl

theorem insertProductRequests_cases {F : Type} (db : Shard F) (orderID : Int)
    (ps : List (ProductRequest F)) :
    (∃ e, db.insertProductRequests orderID ps = .error e)
    ∨ db.insertProductRequests orderID ps = .ok { db with
        product_requests :=
          db.product_requests ++ productRequestRows orderID db.productRequestsAutoInc ps,
        productRequestsAutoInc := db.productRequestsAutoInc + ps.length } := by
  unfold Shard.insertProductRequests
  split
  · exact Or.inl ⟨_, rfl⟩
  · split
    · exact Or.inl ⟨_, rfl⟩
    · exact Or.inr rfl

theorem createOrderTx_cases {F : Type} (flt : DbFaults) (db : Shard F) (order : Order F) :
    (∃ e, createOrderTx flt db order = (.error e, db))
    ∨ (flt .begin = none ∧ flt .insertOrder = none ∧ flt .lastInsertId = none
        ∧ flt .insertProductRequests = none ∧ flt .commit = none
        ∧ ∃ tx, createOrderTx flt db order = (.ok { order with ID := db.ordersAutoInc }, tx)) := by
  cases h1 : flt .begin with
  | some e => exact Or.inl ⟨e, by simp [createOrderTx, h1]⟩
  | none =>
    cases h2 : flt .insertOrder with
    | some e => exact Or.inl ⟨e, by simp [createOrderTx, h1, h2]⟩
    | none =>
      rcases insertOrder_cases db order with ⟨e, he⟩ | he
      · exact Or.inl ⟨e, by simp [createOrderTx, h1, h2, he]⟩
      · obtain ⟨tx0, htx0⟩ : ∃ tx0, db.insertOrder order = .ok (db.ordersAutoInc, tx0) :=
          ⟨_, he⟩
        cases h3 : flt .lastInsertId with
        | some e => exact Or.inl ⟨e, by simp [createOrderTx, h1, h2, htx0, h3]⟩
        | none =>
          cases h4 : flt .insertProductRequests with
          | some e => exact Or.inl ⟨e, by simp [createOrderTx, h1, h2, htx0, h3, h4]⟩
          | none =>
            rcases insertProductRequests_cases tx0 db.ordersAutoInc order.ProductRequests
              with ⟨e, he2⟩ | he2
            · exact Or.inl ⟨e, by simp [createOrderTx, h1, h2, htx0, h3, h4, he2]⟩
            · cases h5 : flt .commit with
              | some e =>
                exact Or.inl ⟨e, by simp [createOrderTx, h1, h2, htx0, h3, h4, he2, h5]⟩
              | none =>
                exact Or.inr ⟨rfl, rfl, rfl, rfl, rfl, _,
                  by simp only [createOrderTx, h1, h2, htx0, h3, h4, he2, h5]; rfl⟩

theorem repo_createOrder_error_unchanged {F : Type} (r : OrderRepository F) (flt : DbFaults)
    (order : Order F) (h : ∀ o, (r.CreateOrder flt order).1 ≠ .ok o) :
    (r.CreateOrder flt order).2 = r := by
  unfold OrderRepository.CreateOrder at h ⊢
  split
  · rfl
  · rfl
  · rfl
  · rename_i idx hidx
    simp only [hidx] at h
    split
    · rfl
    · rfl
    · rfl
    · rename_i db hdb
      simp only [hdb] at h
      rcases createOrderTx_cases flt db order with ⟨e, he⟩ | ⟨_, _, _, _, _, tx, htx⟩
      · simp only [he]
        rw [set_self_of_goIndex _ _ _ hdb]
      · simp only [htx] at h
        exact absurd rfl (h _)

/-- C14: for every order: when a step of the Create transaction is made to fail (begin,
order-row insert, reading the assigned id, line-item batch insert, commit) on the shard the
order is routed to, `Create` returns an error; and whenever `Create` returns an error, for
whatever reason, every shard holds the same order rows and line-item rows as before. -/
theorem create_failure_leaves_store {F : Type} (r : OrderRepository F) (flt : DbFaults)
    (order : Order F) :
    (∀ (step : DbStep) (e : String) (idx : Int) (db : Shard F),
        step ∈ [DbStep.begin, DbStep.insertOrder, DbStep.lastInsertId,
                DbStep.insertProductRequests, DbStep.commit] →
        flt step = some e → r.shardOfCreateOrder order = .ok idx →
        goIndex r.dbShards idx = .ok db →
        ∃ e', (r.CreateOrder flt order).1 = .error e')
    ∧ (∀ e, (r.CreateOrder flt order).1 = .error e →
        (r.CreateOrder flt order).2.dbShards.map (fun db => (db.orders, db.product_requests))
          = r.dbShards.map (fun db => (db.orders, db.product_requests))) := by
  constructor
  · intro step e idx db hstep hflt hidx hdb
    rcases createOrderTx_cases flt db order with ⟨e', he'⟩ | ⟨h1, h2, h3, h4, h5, _⟩
    · exact ⟨e', by simp [OrderRepository.CreateOrder, hidx, hdb, he']⟩
    · simp only [List.mem_cons, List.mem_singleton, List.not_mem_nil, or_false] at hstep
      rcases hstep with rfl | rfl | rfl | rfl | rfl <;> simp_all
  · intro e he
    rw [repo_createOrder_error_unchanged r flt order (by simp [he])]

/-- Witness of C14: the sample order on three empty shards with a failing commit. -/
theorem create_failure_leaves_store_witness :
    (emptyRepo.CreateOrder commitFails { sampleOrder with OrderID := 1001 }).1
        = .error "driver: bad connection"
    ∧ (emptyRepo.CreateOrder commitFails { sampleOrder with OrderID := 1001 }).2.dbShards.map
          (fun db => (db.orders, db.product_requests))
        = emptyRepo.dbShards.map (fun db => (db.orders, db.product_requests)) :=
  ⟨by with_unfolding_all rfl,
   (create_failure_leaves_store emptyRepo commitFails { sampleOrder with OrderID := 1001 }).2
     "driver: bad connection" (by with_unfolding_all rfl)⟩

/-- C15: with an empty line-item set, `CreateOrder` of the repository still builds the batch
statement: the text ends in `VALUES` with no value row (the cut meant for the trailing comma
removes the blank), the database rejects it, the transaction is rolled back and `Create`
returns the error; no order row is committed. -/
theorem create_with_no_line_items_fails :
    buildProductQuery ([] : List (ProductRequest ℚ))
      = "\n\t\tINSERT INTO product_requests (order_id, product_id, quantity, mark_up, discount, final_price)\n\t\tVALUES"
    ∧ emptyRepo.CreateOrder noDbFaults { sampleOrder with OrderID := 1001, ProductRequests := [] }
      = (.error "You have an error in your SQL syntax", emptyRepo) :=
  ⟨by decide, by with_unfolding_all rfl⟩

theorem insertLoop_ok {F : Type} (flt : DbFaults) (id : Int) (ps : List (ProductRequest F))
    (i : Nat) (tx tx' : Shard F) (h : insertLoop flt id i ps tx = .ok tx') :
    tx'.orders = tx.orders
    ∧ tx'.selectProductRequests id = tx.selectProductRequests id ++ ps := by
  induction ps generalizing i tx with
  | nil =>
    simp only [insertLoop, Outcome.ok.injEq] at h
    subst h
    simp
  | cons p ps ih =>
    simp only [insertLoop] at h
    split at h
    · exact absurd h (by simp)
    · split at h
      · rename_i tx1 h1
        obtain ⟨ho, hs⟩ := ih _ _ h
        unfold Shard.insertProductRequest at h1
        split at h1
        · exact absurd h1 (by simp)
        · simp only [Outcome.ok.injEq] at h1
          subst h1
          refine ⟨ho, ?_⟩
          rw [hs]
          simp [Shard.selectProductRequests, List.filter_append, productRequestRows]
      · exact absurd h (by simp)
      · exact absurd h (by simp)
      · exact absurd h (by simp)

theorem select_after_delete {F : Type} (db : Shard F) (id : Int) :
    (db.deleteProductRequests id).selectProductRequests id = [] := by
  simp [Shard.selectProductRequests, Shard.deleteProductRequests, List.filter_filter]

theorem updateOrderTx_ok {F : Type} (flt : DbFaults) (db : Shard F) (order o : Order F)
    (tx : Shard F) (h : updateOrderTx flt db order = (.ok o, tx)) :
    o = order ∧ tx.orders = (db.updateOrder order).orders
    ∧ tx.selectProductRequests order.ID = order.ProductRequests := by
  unfold updateOrderTx at h
  split at h
  · exact absurd h (by simp)
  · split at h
    · exact absurd h (by simp)
    · split at h
      · exact absurd h (by simp)
      · split at h
        · exact absurd h (by simp)
        · exact absurd h (by simp)
        · exact absurd h (by simp)
        · rename_i tx1 h1
          split at h
          · exact absurd h (by simp)
          · simp only [Prod.mk.injEq, Outcome.ok.injEq] at h
            obtain ⟨ho, hs⟩ := insertLoop_ok _ _ _ _ _ _ h1
            obtain ⟨h2, h3⟩ := h
            subst h3
            refine ⟨h2.symm, ?_, ?_⟩
            · rw [ho]
              rfl
            · rw [hs, select_after_delete]
              rfl

theorem updateOrder_row_fields {F : Type} (db : Shard F) (order : Order F) :
    ∀ row ∈ (db.updateOrder order).orders, row.id = order.ID →
      row.user_id = order.UserID ∧ row.total = order.Total
      ∧ row.total_mark_up = order.TotalMarkUp ∧ row.total_discount = order.TotalDiscount
      ∧ row.status = order.Status := by
  intro row hrow hid
  simp only [Shard.updateOrder, List.mem_map] at hrow
  obtain ⟨old, _, hnew⟩ := hrow
  split at hnew
  · subst hnew
    exact ⟨rfl, rfl, rfl, rfl, rfl⟩
  · rename_i hne
    subst hnew
    exact absurd hid hne

theorem updateOrder_row_exists {F : Type} (db : Shard F) (order : Order F)
    (h : ∃ row ∈ db.orders, row.id = order.ID) :
    ∃ row ∈ (db.updateOrder order).orders, row.id = order.ID := by
  obtain ⟨row, hrow, hid⟩ := h
  refine ⟨_, List.mem_map.2 ⟨row, hrow, rfl⟩, ?_⟩
  simp [hid]

theorem repo_updateOrder_ok {F : Type} (r r' : OrderRepository F) (flt : DbFaults)
    (order o : Order F) (h : r.UpdateOrder flt order = (.ok o, r')) :
    o = order ∧ ∃ idx db db', r.shardOfUpdateOrder order = .ok idx
      ∧ goIndex r.dbShards idx = .ok db ∧ goIndex r'.dbShards idx = .ok db'
      ∧ db'.orders = (db.updateOrder order).orders
      ∧ db'.selectProductRequests order.ID = order.ProductRequests := by
  unfold OrderRepository.UpdateOrder at h
  split at h
  · exact absurd h (by simp)
  · exact absurd h (by simp)
  · exact absurd h (by simp)
  · rename_i idx hidx
    split at h
    · exact absurd h (by simp)
    · exact absurd h (by simp)
    · exact absurd h (by simp)
    · rename_i db hdb
      simp only [Prod.mk.injEq] at h
      obtain ⟨h1, h2⟩ := h
      obtain ⟨ho, horders, hsel⟩ :=
        updateOrderTx_ok flt db order o (updateOrderTx flt db order).2 (by rw [← h1])
      subst h2
      exact ⟨ho, idx, db, _, hidx, hdb, goIndex_set _ _ _ _ hdb, horders, hsel⟩

/-- C16: after a successful `UpdateOrder` of the repository (Replace) with an order whose
row is on the shard its business key routes to, the line items stored for the order's row id
on that shard are exactly the given list, in order (none of the earlier ones is left), the
row is still there, and its `user_id`, `total`, `total_mark_up`, `total_discount` and
`status` are those of the given order. -/
theorem replace_stores_given_order {F : Type} (r r' : OrderRepository F) (flt : DbFaults)
    (order o : Order F) (idx : Int) (db : Shard F)
    (hidx : r.shardOfUpdateOrder order = .ok idx) (hdb : goIndex r.dbShards idx = .ok db)
    (hstored : ∃ row ∈ db.orders, row.id = order.ID)
    (h : r.UpdateOrder flt order = (.ok o, r')) :
    ∃ db', goIndex r'.dbShards idx = .ok db'
      ∧ db'.selectProductRequests order.ID = order.ProductRequests
      ∧ (∃ row ∈ db'.orders, row.id = order.ID)
      ∧ ∀ row ∈ db'.orders, row.id = order.ID →
          row.user_id = order.UserID ∧ row.total = order.Total
          ∧ row.total_mark_up = order.TotalMarkUp ∧ row.total_discount = order.TotalDiscount
          ∧ row.status = order.Status := by
  obtain ⟨_, idx2, db2, db', hidx2, hdb2, hdb', horders, hsel⟩ :=
    repo_updateOrder_ok r r' flt order o h
  rw [hidx] at hidx2
  simp only [Outcome.ok.injEq] at hidx2
  subst hidx2
  rw [hdb] at hdb2
  simp only [Outcome.ok.injEq] at hdb2
  subst hdb2
  refine ⟨db', hdb', hsel, ?_, ?_⟩
  · rw [horders]
    exact updateOrder_row_exists db order hstored
  · rw [horders]
    exact updateOrder_row_fields db order

/-- Witness of C16: the stored order 1 (business key 1001) replaced by an order with two
other line items and status `paid`. -/
theorem replace_stores_given_order_witness :
    cancelledRepo.shardOfUpdateOrder
        { twoItemOrder with ID := 1, OrderID := 1001, Status := "paid" } = .ok 2
    ∧ goIndex cancelledRepo.dbShards 2 = .ok cancelledShard
    ∧ (∃ row ∈ cancelledShard.orders, row.id = 1)
    ∧ ∃ db', goIndex
          (cancelledRepo.UpdateOrder noDbFaults
            { twoItemOrder with ID := 1, OrderID := 1001, Status := "paid" }).2.dbShards 2
          = .ok db'
        ∧ db'.selectProductRequests 1 = twoItemOrder.ProductRequests :=
  ⟨by decide, by with_unfolding_all rfl, ⟨_, List.mem_singleton.2 rfl, rfl⟩,
   (replace_stores_given_order cancelledRepo _ noDbFaults
      { twoItemOrder with ID := 1, OrderID := 1001, Status := "paid" }
      { twoItemOrder with ID := 1, OrderID := 1001, Status := "paid" } 2 cancelledShard
      (by decide) (by with_unfolding_all rfl) ⟨_, List.mem_singleton.2 rfl, rfl⟩
      (by with_unfolding_all rfl)).imp fun _ h => ⟨h.1, h.2.1⟩⟩

/-- C17: when the shard that `GetOrderByID(id)` addresses holds no order row with that id,
the call returns an error and no order; without a driver fault the error is
`sql: no rows in result set`. -/
theorem read_missing_is_error {F : Type} (r : OrderRepository F) (flt : DbFaults) (id idx : Int)
    (db : Shard F) (hidx : r.shardOfGetOrderByID id = .ok idx)
    (hdb : goIndex r.dbShards idx = .ok db) (hmiss : ∀ row ∈ db.orders, row.id ≠ id) :
    (∃ e, r.GetOrderByID flt id = .error e)
    ∧ (flt .selectOrder = none → r.GetOrderByID flt id = .error "sql: no rows in result set")
    ∧ ∀ order, r.GetOrderByID flt id ≠ .ok order := by
  have hfind : db.orders.find? (fun row => row.id == id) = none := by
    simp only [List.find?_eq_none, beq_iff_eq]
    exact fun row hrow => hmiss row hrow
  cases hf : flt .selectOrder with
  | some e =>
    have : r.GetOrderByID flt id = .error e := by
      simp [OrderRepository.GetOrderByID, hidx, hdb, hf]
    exact ⟨⟨e, this⟩, by simp, by simp [this]⟩
  | none =>
    have : r.GetOrderByID flt id = .error "sql: no rows in result set" := by
      simp [OrderRepository.GetOrderByID, hidx, hdb, hf, hfind]
    exact ⟨⟨_, this⟩, fun _ => this, by simp [this]⟩

/-- Witness of C17: id 7 on three empty shards. -/
theorem read_missing_is_error_witness :
    emptyRepo.shardOfGetOrderByID 7 = .ok 1 ∧ goIndex emptyRepo.dbShards 1 = .ok emptyShard
    ∧ (∀ row ∈ emptyShard.orders, row.id ≠ 7)
    ∧ emptyRepo.GetOrderByID noDbFaults 7 = .error "sql: no rows in result set" :=
  ⟨by decide, by with_unfolding_all rfl, by simp [emptyShard],
   (read_missing_is_error emptyRepo noDbFaults 7 1 emptyShard (by decide)
      (by with_unfolding_all rfl) (by simp [emptyShard])).2.1 rfl⟩

theorem createOrderTx_ok {F : Type} (flt : DbFaults) (db : Shard F) (order o : Order F)
    (tx : Shard F) (h : createOrderTx flt db order = (.ok o, tx)) :
    o = { order with ID := db.ordersAutoInc }
    ∧ tx.orders = db.orders ++
        [{ id := db.ordersAutoInc, user_id := order.UserID, order_id := order.OrderID,
           quantity := order.Quantity, total := order.Total,
           total_mark_up := order.TotalMarkUp, total_discount := order.TotalDiscount,
           status := order.Status, idempotent_key := order.IdempotentKey }] := by
  unfold createOrderTx at h
  split at h
  · exact absurd h (by simp)
  · split at h
    · exact absurd h (by simp)
    · rcases insertOrder_cases db order with ⟨e, he⟩ | he
      · rw [he] at h
        exact absurd h (by simp)
      · rw [he] at h
        simp only at h
        split at h
        · exact absurd h (by simp)
        · split at h
          · exact absurd h (by simp)
          · rcases insertProductRequests_cases
              ({ db with
                  orders := db.orders ++
                    [{ id := db.ordersAutoInc, user_id := order.UserID,
                       order_id := order.OrderID, quantity := order.Quantity,
                       total := order.Total, total_mark_up := order.TotalMarkUp,
                       total_discount := order.TotalDiscount, status := order.Status,
                       idempotent_key := order.IdempotentKey }],
                  ordersAutoInc := db.ordersAutoInc + 1 } : Shard F)
              db.ordersAutoInc order.ProductRequests with ⟨e, he2⟩ | he2
            · rw [he2] at h
              exact absurd h (by simp)
            · rw [he2] at h
              simp only at h
              split at h
              · exact absurd h (by simp)
              · simp only [Prod.mk.injEq, Outcome.ok.injEq] at h
                obtain ⟨h1, h2⟩ := h
                subst h1 h2
                exact ⟨rfl, rfl⟩

theorem repo_createOrder_ok {F : Type} (r r' : OrderRepository F) (flt : DbFaults)
    (order o : Order F) (h : r.CreateOrder flt order = (.ok o, r')) :
    ∃ idx db db', r.shardOfCreateOrder order = .ok idx
      ∧ goIndex r.dbShards idx = .ok db ∧ goIndex r'.dbShards idx = .ok db'
      ∧ o = { order with ID := db.ordersAutoInc }
      ∧ db'.orders = db.orders ++
          [{ id := db.ordersAutoInc, user_id := order.UserID, order_id := order.OrderID,
             quantity := order.Quantity, total := order.Total,
             total_mark_up := order.TotalMarkUp, total_discount := order.TotalDiscount,
             status := order.Status, idempotent_key := order.IdempotentKey }] := by
  unfold OrderRepository.CreateOrder at h
  split at h
  · exact absurd h (by simp)
  · exact absurd h (by simp)
  · exact absurd h (by simp)
  · rename_i idx hidx
    split at h
    · exact absurd h (by simp)
    · exact absurd h (by simp)
    · exact absurd h (by simp)
    · rename_i db hdb
      simp only [Prod.mk.injEq] at h
      obtain ⟨h1, h2⟩ := h
      obtain ⟨ho, horders⟩ :=
        createOrderTx_ok flt db order o (createOrderTx flt db order).2 (by rw [← h1])
      subst h2
      exact ⟨idx, db, _, hidx, hdb, goIndex_set _ _ _ _ hdb, ho, horders⟩

theorem createOrder_ok_inv {F : Type} [Zero F] [Add F] [Mul F] [IntCast F] [OfScientific F]
    (s s' : OrderService F) (env : Env F) (order o : Order F)
    (h : s.CreateOrder env order = (.ok o, s')) :
    ∃ o1, aggregate env order = .ok o1
      ∧ s.orderRepo.CreateOrder env.db o1 = (.ok o, s'.orderRepo)
      ∧ s'.kafka = if env.test then s.kafka
          else s.kafka ++ [{ Key := eventKey "created" o.ID, Value := o }] := by
  unfold OrderService.CreateOrder at h
  simp only at h
  split at h
  · exact absurd h (by simp)
  · split at h
    · exact absurd h (by simp)
    · split at h
      · exact absurd h (by simp)
      · exact absurd h (by simp)
      · exact absurd h (by simp)
      · rename_i o1 ho1
        refine ⟨o1, ho1, ?_⟩
        split at h
        · exact absurd h (by simp)
        · exact absurd h (by simp)
        · exact absurd h (by simp)
        · rename_i created hcreated
          split at h
          · rename_i htest
            simp only [Prod.mk.injEq, Outcome.ok.injEq] at h
            obtain ⟨h1, h2⟩ := h
            subst h1 h2
            exact ⟨Prod.ext hcreated rfl, by simp [htest]⟩
          · rename_i htest
            split at h
            · exact absurd h (by simp)
            · rename_i topic hpub
              simp only [Prod.mk.injEq, Outcome.ok.injEq] at h
              obtain ⟨h1, h2⟩ := h
              subst h1 h2
              refine ⟨Prod.ext hcreated rfl, ?_⟩
              unfold publishOrderEvent at hpub
              split at hpub
              · exact absurd hpub (by simp)
              · split at hpub
                · exact absurd hpub (by simp)
                · simp only [Prod.mk.injEq, true_and] at hpub
                  simp [htest, ← hpub]

/-- C19, as stated, fails: for the sample submission, whose payload carries no status,
`CreateOrder` succeeds and the order it returns and the row it stores have the empty status,
not `created`. -/
theorem createOrder_keeps_empty_status :
    (freshService.CreateOrder (calmEnv false 0 1) sampleOrder).1
        = .ok { sampleOrder with ID := 1, OrderID := 1001 }
    ∧ ({ sampleOrder with ID := 1, OrderID := 1001 } : Order ℚ).Status = ""
    ∧ (freshService.CreateOrder (calmEnv false 0 1) sampleOrder).2.orderRepo.dbShards.map
        (fun db => db.orders.map (fun row => row.status)) = [[], [], [""]]
    ∧ ("" : String) ≠ "created" :=
  ⟨by with_unfolding_all rfl, rfl, by with_unfolding_all rfl, by decide⟩

/-- C19, amended: for every order submission accepted by `CreateOrder`, the order that is
returned, and the row persisted for it on the shard its business key routes to, have the
status value that the request payload carries (the empty string when it carries none). -/
theorem createOrder_status_is_payload_status {F : Type} [Zero F] [Add F] [Mul F]
    [IntCast F] [OfScientific F] (s s' : OrderService F) (env : Env F) (order o : Order F)
    (h : s.CreateOrder env order = (.ok o, s')) :
    o.Status = order.Status
    ∧ ∃ idx db', s'.orderRepo.shardOfCreateOrder o = .ok idx
        ∧ goIndex s'.orderRepo.dbShards idx = .ok db'
        ∧ ∃ row ∈ db'.orders, row.id = o.ID ∧ row.order_id = o.OrderID
            ∧ row.status = order.Status := by
  obtain ⟨o1, hagg, hrepo, _⟩ := createOrder_ok_inv s s' env order o h
  have ho1 := aggregate_ok env order o1 hagg
  have hst : o1.Status = order.Status := by rw [ho1, sumTotal_eq]
  obtain ⟨idx, db, db', hidx, _, hdb', ho, horders⟩ :=
    repo_createOrder_ok s.orderRepo s'.orderRepo env.db o1 o hrepo
  have hrouter : s'.orderRepo.router = s.orderRepo.router := by
    have := congrArg Prod.snd hrepo
    simp only at this
    rw [← this]
    unfold OrderRepository.CreateOrder
    repeat' split
    all_goals rfl
  refine ⟨by rw [ho]; exact hst, idx, db', ?_, hdb', ?_⟩
  · rw [ho]
    simpa [OrderRepository.shardOfCreateOrder, hrouter] using hidx
  · refine ⟨_, by rw [horders]; exact List.mem_append_right _ (List.mem_singleton.2 rfl), ?_⟩
    rw [ho]
    exact ⟨rfl, rfl, hst⟩

/-- Witness of C19: the payload status `paid` is what is returned. -/
theorem createOrder_status_is_payload_status_witness :
    freshService.CreateOrder (calmEnv false 0 1) { sampleOrder with Status := "paid" }
        = (.ok { sampleOrder with ID := 1, OrderID := 1001, Status := "paid" },
            (freshService.CreateOrder (calmEnv false 0 1)
              { sampleOrder with Status := "paid" }).2)
    ∧ ({ sampleOrder with ID := 1, OrderID := 1001, Status := "paid" } : Order ℚ).Status
        = ({ sampleOrder with Status := "paid" } : Order ℚ).Status :=
  ⟨by with_unfolding_all rfl,
   (createOrder_status_is_payload_status freshService _ (calmEnv false 0 1)
      { sampleOrder with Status := "paid" }
      { sampleOrder with ID := 1, OrderID := 1001, Status := "paid" }
      (by with_unfolding_all rfl)).1⟩

theorem publish_ok {F : Type} (env : Env F) (topic topic' : List (KafkaMessage (Order F)))
    (order : Order F) (key : String)
    (h : publishOrderEvent env topic order key = (none, topic')) :
    topic' = topic ++ [{ Key := eventKey key order.ID, Value := order }] := by
  unfold publishOrderEvent at h
  split at h
  · exact absurd h (by simp)
  · split at h
    · exact absurd h (by simp)
    · simp only [Prod.mk.injEq, true_and] at h
      exact h.symm

theorem updateOrder_ok_inv {F : Type} (s s' : OrderService F) (env : Env F)
    (order o : Order F) (h : s.UpdateOrder env order = (.ok o, s')) :
    s.orderRepo.UpdateOrder env.db order = (.ok o, s'.orderRepo)
    ∧ s'.kafka = s.kafka ++ [{ Key := eventKey "updated" o.ID, Value := o }] := by
  unfold OrderService.UpdateOrder at h
  simp only at h
  split at h
  · exact absurd h (by simp)
  · split at h
    · exact absurd h (by simp)
    · exact absurd h (by simp)
    · exact absurd h (by simp)
    · rename_i updated hupdated
      split at h
      · exact absurd h (by simp)
      · rename_i topic hpub
        simp only [Prod.mk.injEq, Outcome.ok.injEq] at h
        obtain ⟨h1, h2⟩ := h
        subst h1 h2
        exact ⟨Prod.ext hupdated rfl, publish_ok _ _ _ _ _ hpub⟩

theorem cancelOrder_ok_inv {F : Type} (s s' : OrderService F) (env : Env F) (id : Int)
    (o : Order F) (h : s.CancelOrder env id = (.ok o, s')) :
    ∃ order, s.orderRepo.GetOrderByID env.db id = .ok order
      ∧ s.orderRepo.UpdateOrder env.db { order with Status := "cancelled" }
          = (.ok o, s'.orderRepo)
      ∧ s'.kafka = s.kafka ++ [{ Key := eventKey "cancelled" o.ID, Value := o }] := by
  unfold OrderService.CancelOrder at h
  split at h
  · exact absurd h (by simp)
  · exact absurd h (by simp)
  · exact absurd h (by simp)
  · rename_i order horder
    refine ⟨order, horder, ?_⟩
    simp only at h
    split at h
    · exact absurd h (by simp)
    · exact absurd h (by simp)
    · exact absurd h (by simp)
    · rename_i updated hupdated
      split at h
      · exact absurd h (by simp)
      · rename_i topic hpub
        simp only [Prod.mk.injEq, Outcome.ok.injEq] at h
        obtain ⟨h1, h2⟩ := h
        subst h1 h2
        exact ⟨Prod.ext hupdated rfl, publish_ok _ _ _ _ _ hpub⟩

/-- C20, as stated, fails: the event published for the sample order, whose business key
`order_id` is 1001 and whose store-assigned row id is 1, has the key `order-created-1`. -/
theorem event_key_of_sample_order :
    (freshService.CreateOrder (calmEnv false 0 1) sampleOrder).2.kafka.map
        (fun m => (m.Key, m.Value.ID, m.Value.OrderID)) = [("order-created-1", 1, 1001)]
    ∧ "order-created-1" ≠ "order-" ++ "created" ++ "-" ++ formatInt 1001 :=
  ⟨by with_unfolding_all rfl, by decide⟩

/-- C20, amended: the key of a published event is `"order-" + t + "-"` followed by the
decimal rendering of the order's store-assigned row id (`order.ID`), and the value is the
full order; `CreateOrder` (outside test mode), `UpdateOrder` and `CancelOrder`, when they
succeed, append exactly one such event for the order they return, with the tag `created`,
`updated` and `cancelled` respectively. -/
theorem event_key_uses_row_id {F : Type} [Zero F] [Add F] [Mul F] [IntCast F]
    [OfScientific F] (s s' : OrderService F) (env : Env F) :
    (∀ (topic : List (KafkaMessage (Order F))) (order : Order F) (t : String),
        env.marshalErr = none → env.kafkaErr = none →
        publishOrderEvent env topic order t
          = (none, topic ++ [{ Key := "order-" ++ t ++ "-" ++ formatInt order.ID,
                               Value := order }]))
    ∧ (∀ order o, s.CreateOrder env order = (.ok o, s') → env.test = false →
        s'.kafka = s.kafka ++
          [{ Key := "order-" ++ "created" ++ "-" ++ formatInt o.ID, Value := o }])
    ∧ (∀ order o, s.UpdateOrder env order = (.ok o, s') →
        s'.kafka = s.kafka ++
          [{ Key := "order-" ++ "updated" ++ "-" ++ formatInt o.ID, Value := o }])
    ∧ (∀ id o, s.CancelOrder env id = (.ok o, s') →
        s'.kafka = s.kafka ++
          [{ Key := "order-" ++ "cancelled" ++ "-" ++ formatInt o.ID, Value := o }]) := by
  refine ⟨?_, ?_, ?_, ?_⟩
  · intro topic order t h1 h2
    simp [publishOrderEvent, h1, h2, eventKey]
  · intro order o h htest
    obtain ⟨_, _, _, hk⟩ := createOrder_ok_inv s s' env order o h
    simpa [htest, eventKey] using hk
  · intro order o h
    simpa [eventKey] using (updateOrder_ok_inv s s' env order o h).2
  · intro id o h
    obtain ⟨_, _, _, hk⟩ := cancelOrder_ok_inv s s' env id o h
    simpa [eventKey] using hk

theorem updateOrderTx_snd {F : Type} (flt : DbFaults) (db : Shard F) (order : Order F) :
    (updateOrderTx flt db order).2 = db ∨ ∃ o, (updateOrderTx flt db order).1 = .ok o := by
  unfold updateOrderTx
  repeat' split
  all_goals first | exact Or.inl rfl | exact Or.inr ⟨_, rfl⟩

theorem statuses_after_updateOrder {F : Type} (db : Shard F) (order : Order F) :
    List.Forall₂ (fun old new : OrderRow F =>
        new.status = old.status ∨ new.status = order.Status)
      db.orders (db.updateOrder order).orders := by
  simp only [Shard.updateOrder]
  rw [List.forall₂_map_right_iff, List.forall₂_same]
  intro row _
  split
  · exact Or.inr rfl
  · exact Or.inl rfl

theorem statuses_refl {F : Type} (st : String) (rows : List (OrderRow F)) :
    List.Forall₂ (fun old new : OrderRow F => new.status = old.status ∨ new.status = st)
      rows rows :=
  List.forall₂_same.2 fun _ _ => Or.inl rfl

theorem repo_updateOrder_statuses {F : Type} (r : OrderRepository F) (flt : DbFaults)
    (order : Order F) (i : Nat) (db' : Shard F)
    (h : (r.UpdateOrder flt order).2.dbShards[i]? = some db') :
    ∃ db, r.dbShards[i]? = some db
      ∧ List.Forall₂ (fun old new : OrderRow F =>
          new.status = old.status ∨ new.status = order.Status) db.orders db'.orders := by
  unfold OrderRepository.UpdateOrder at h
  split at h
  · exact ⟨db', h, statuses_refl _ _⟩
  · exact ⟨db', h, statuses_refl _ _⟩
  · exact ⟨db', h, statuses_refl _ _⟩
  · rename_i idx hidx
    split at h
    · exact ⟨db', h, statuses_refl _ _⟩
    · exact ⟨db', h, statuses_refl _ _⟩
    · exact ⟨db', h, statuses_refl _ _⟩
    · rename_i db hdb
      obtain ⟨_, hx⟩ := goIndex_ok _ _ _ hdb
      simp only [List.getElem?_set] at h
      split at h
      · rename_i hi
        subst hi
        split at h
        · simp only [Option.some.injEq] at h
          subst h
          refine ⟨db, hx, ?_⟩
          rcases updateOrderTx_snd flt db order with hsame | ⟨o, hok⟩
          · rw [hsame]
            exact statuses_refl _ _
          · obtain ⟨_, horders, _⟩ :=
              updateOrderTx_ok flt db order o (updateOrderTx flt db order).2 (by rw [← hok])
            rw [horders]
            exact statuses_after_updateOrder db order
        · exact absurd h (by simp)
      · exact ⟨db', h, statuses_refl _ _⟩

theorem cancelOrder_repo {F : Type} (s : OrderService F) (env : Env F) (id : Int) :
    (s.CancelOrder env id).2.orderRepo = s.orderRepo
    ∨ ∃ order : Order F, order.Status = "cancelled"
        ∧ (s.CancelOrder env id).2.orderRepo = (s.orderRepo.UpdateOrder env.db order).2 := by
  unfold OrderService.CancelOrder
  split
  · exact Or.inl rfl
  · exact Or.inl rfl
  · exact Or.inl rfl
  · rename_i order _
    refine Or.inr ⟨{ order with Status := "cancelled" }, rfl, ?_⟩
    simp only
    repeat' split
    all_goals rfl

/-- C18, as stated, fails: the stored order 1 has status `cancelled`; `UpdateOrder` with the
same order and the incoming status `paid` succeeds, and the stored status is then `paid`. -/
theorem update_overwrites_cancelled_status :
    cancelledService.orderRepo.dbShards.map
        (fun db => db.orders.map (fun row => (row.id, row.status)))
      = [[], [], [(1, "cancelled")]]
    ∧ (cancelledService.UpdateOrder (calmEnv false 0 1)
          { sampleOrder with ID := 1, OrderID := 1001, Status := "paid" }).1
        = .ok { sampleOrder with ID := 1, OrderID := 1001, Status := "paid" }
    ∧ (cancelledService.UpdateOrder (calmEnv false 0 1)
          { sampleOrder with ID := 1, OrderID := 1001, Status := "paid" }).2.orderRepo.dbShards.map
        (fun db => db.orders.map (fun row => (row.id, row.status)))
      = [[], [], [(1, "paid")]] :=
  ⟨by with_unfolding_all rfl, by with_unfolding_all rfl, by with_unfolding_all rfl⟩

/-- C18, amended: `CancelOrder`, whatever its outcome, leaves the status of every stored
order row either as it was or `cancelled`, so a cancelled order stays cancelled under it.
`UpdateOrder` and `UpdateOrderStatus` have no such guard: when they succeed, the rows with
the given id on the shard they address carry the incoming status, whatever the stored status
was; a cancelled order keeps its status under them only when the incoming status is
`cancelled`. -/
theorem status_is_overwritten_without_guard {F : Type} (s : OrderService F) (env : Env F) :
    (∀ (id : Int) (i : Nat) (db' : Shard F),
        (s.CancelOrder env id).2.orderRepo.dbShards[i]? = some db' →
        ∃ db, s.orderRepo.dbShards[i]? = some db
          ∧ List.Forall₂ (fun old new : OrderRow F =>
              new.status = old.status ∨ new.status = "cancelled") db.orders db'.orders)
    ∧ (∀ (order o : Order F) (s' : OrderService F), s.UpdateOrder env order = (.ok o, s') →
        ∃ idx db', s.orderRepo.shardOfUpdateOrder order = .ok idx
          ∧ goIndex s'.orderRepo.dbShards idx = .ok db'
          ∧ ∀ row ∈ db'.orders, row.id = order.ID → row.status = order.Status)
    ∧ (∀ (id : Int) (status : String) (r' : OrderRepository F),
        s.orderRepo.UpdateOrderStatus env.db id status = (.ok (), r') →
        ∃ idx db', s.orderRepo.shardOfUpdateOrderStatus id = .ok idx
          ∧ goIndex r'.dbShards idx = .ok db'
          ∧ ∀ row ∈ db'.orders, row.id = id → row.status = status) := by
  refine ⟨?_, ?_, ?_⟩
  · intro id i db' h
    rcases cancelOrder_repo s env id with hsame | ⟨order, hst, hrepo⟩
    · rw [hsame] at h
      exact ⟨db', h, statuses_refl _ _⟩
    · rw [hrepo] at h
      have := repo_updateOrder_statuses s.orderRepo env.db order i db' h
      rwa [hst] at this
  · intro order o s' h
    obtain ⟨hrepo, _⟩ := updateOrder_ok_inv s s' env order o h
    obtain ⟨_, idx, db, db', hidx, _, hdb', horders, _⟩ :=
      repo_updateOrder_ok s.orderRepo s'.orderRepo env.db order o hrepo
    refine ⟨idx, db', hidx, hdb', fun row hrow hid => ?_⟩
    rw [horders] at hrow
    exact (updateOrder_row_fields db order row hrow hid).2.2.2.2
  · intro id status r' h
    unfold OrderRepository.UpdateOrderStatus at h
    split at h
    · exact absurd h (by simp)
    · exact absurd h (by simp)
    · exact absurd h (by simp)
    · rename_i idx hidx
      split at h
      · exact absurd h (by simp)
      · exact absurd h (by simp)
      · exact absurd h (by simp)
      · rename_i db hdb
        split at h
        · exact absurd h (by simp)
        · simp only [Prod.mk.injEq, true_and] at h
          subst h
          refine ⟨idx, _, hidx, goIndex_set _ _ _ _ hdb, fun row hrow hid => ?_⟩
          simp only [Shard.updateStatus, List.mem_map] at hrow
          obtain ⟨old, _, hnew⟩ := hrow
          split at hnew
          · subst hnew
            rfl
          · rename_i hne
            subst hnew
            exact absurd hid hne

/-! ## A created event followed by its cancelled event -/

theorem reserve_with_cached_copy {F : Type} (env : LedgerEnv) (l : StockLedger F)
    (id q : Int) (p : Product F) (hg : env.redisGetErr = none)
    (hc : cacheGet l.cache env.now (productKey id) = some (.product p)) (hid : p.ID ≠ 0)
    (hge : ¬ p.Stock < q) (hu : env.updateErr = none) :
    l.ReserveProductStock env id q
      = (.ok (),
         { products := l.products.map
             (fun row => if row.ID = p.ID then { p with Stock := p.Stock - q } else row),
           cache := l.cache }) := by
  simp [StockLedger.ReserveProductStock, hg, hc, jsonUnmarshal, hid, hge, UpdateProduct, hu,
    writeCache]

theorem release_with_cached_copy {F : Type} (env : LedgerEnv) (l : StockLedger F)
    (id q : Int) (p : Product F) (hg : env.redisGetErr = none)
    (hc : cacheGet l.cache env.now (productKey id) = some (.product p)) (hid : p.ID ≠ 0)
    (hu : env.updateErr = none) :
    l.ReleaseProductStock env id q
      = (.ok (),
         { products := l.products.map
             (fun row => if row.ID = p.ID then { p with Stock := p.Stock + q } else row),
           cache := l.cache }) := by
  simp [StockLedger.ReleaseProductStock, hg, hc, jsonUnmarshal, hid, UpdateProduct, hu,
    writeCache]

/-- A reservation that succeeds followed by the release of the same quantity: both work on
the cached copy, which neither of them refreshes, so the durable rows of the product end
with the cached stock plus the quantity, whatever they held before. -/
theorem release_after_reserve {F : Type} (env : LedgerEnv) (l : StockLedger F)
    (id q : Int) (p : Product F) (hg : env.redisGetErr = none)
    (hc : cacheGet l.cache env.now (productKey id) = some (.product p)) (hid : p.ID ≠ 0)
    (hge : ¬ p.Stock < q) (hu : env.updateErr = none) :
    (l.ReserveProductStock env id q).2.ReleaseProductStock env id q
      = (.ok (),
         { products := l.products.map
             (fun row => if row.ID = p.ID then { p with Stock := p.Stock + q } else row),
           cache := l.cache }) := by
  rw [reserve_with_cached_copy env l id q p hg hc hid hge hu]
  rw [release_with_cached_copy env
    { products := l.products.map
        (fun row => if row.ID = p.ID then { p with Stock := p.Stock - q } else row),
      cache := l.cache } id q p hg hc hid hu]
  simp only [List.map_map, Prod.mk.injEq, true_and, StockLedger.mk.injEq, and_true]
  apply List.map_congr_left
  intro row _
  simp only [Function.comp]
  split <;> simp_all

/-- C11: product 1 has stock 5 in the durable table and in the cache.  The `created` event
with the line item (product 1, quantity 3) sets the durable stock to 2 and leaves the cached
copy at 5, the closing cache write being refused; the `cancelled` event of the same order
then adds 3 to the cached 5 and sets the durable stock to 8.  The durable stock ends at 8
where it was 5 before the `created` event. -/
theorem created_then_cancelled_does_not_restore :
    processMessage (ledgerService quietLedgerEnv) Except.ok (some (warmLedger 5)) createdEvent
        = .ok (some { products := [gadget 2], cache := (warmLedger 5).cache })
    ∧ processMessage (ledgerService quietLedgerEnv) Except.ok
          (some { products := [gadget 2], cache := (warmLedger 5).cache }) cancelledEvent
        = .ok (some { products := [gadget 8], cache := (warmLedger 5).cache })
    ∧ (warmLedger 5).durableStocks = [(1, 5)]
    ∧ ({ products := [gadget 8], cache := (warmLedger 5).cache } :
        StockLedger ℚ).durableStocks = [(1, 8)]
    ∧ ({ products := [gadget 8], cache := (warmLedger 5).cache } :
        StockLedger ℚ).cachedStock (productKey 1) = some 5 :=
  ⟨by with_unfolding_all rfl, by with_unfolding_all rfl, by with_unfolding_all rfl,
   by with_unfolding_all rfl, by with_unfolding_all rfl⟩

/-! ## Failures of the guard and of the publisher -/

/-- C26: when the existence check of the guard is made (the process is not in test mode) and
the `GET` fails with an error other than `redis.Nil`, `validateIdempotentKey` returns
`(false, err)` with that error and writes nothing, and `CreateOrder` returns the same error
and leaves the service as it was: no lookup is sent, the Order Store and the topic are not
touched. -/
theorem guard_storage_error_aborts {F : Type} [Zero F] [Add F] [Mul F] [IntCast F]
    [OfScientific F] (s : OrderService F) (env : Env F) (order : Order F) (e : String)
    (htest : env.test = false) (hget : env.redisGetErr = some e) :
    validateIdempotentKey env s.rdb order.IdempotentKey = ((false, some e), s.rdb)
    ∧ s.CreateOrder env order = (.error e, s) := by
  have hv : validateIdempotentKey env s.rdb order.IdempotentKey = ((false, some e), s.rdb) := by
    simp [validateIdempotentKey, htest, hget]
  refine ⟨hv, ?_⟩
  simp [OrderService.CreateOrder, hv]

/-- Witness of C26: the sample submission while Redis refuses connections. -/
theorem guard_storage_error_aborts_witness :
    redisDownEnv.test = false
    ∧ redisDownEnv.redisGetErr = some "dial tcp: connection refused"
    ∧ freshService.CreateOrder redisDownEnv sampleOrder
        = (.error "dial tcp: connection refused", freshService) :=
  ⟨rfl, rfl,
   (guard_storage_error_aborts freshService redisDownEnv sampleOrder
      "dial tcp: connection refused" rfl rfl).2⟩

/-- C25, as stated, fails under `ENV=test`: the guard admits the key `abc` and the marker
store, empty before, is still empty. -/
theorem guard_admits_without_marker_in_test_env :
    validateIdempotentKey (calmEnv true 0 1) [] "abc" = ((true, none), [])
    ∧ Redis.get [] (calmEnv true 0 1).now ("idempotent-key:" ++ "abc") = none :=
  ⟨rfl, rfl⟩

/-- C25, amended: outside test mode, whenever the guard admits a key and the write to the
marker store succeeds, the store afterwards holds under the key's name the marker `exists`
expiring 24 hours after the call; and in every mode, whenever the guard does not admit the
key (duplicate, or failed existence check), the marker store is exactly as before. -/
theorem guard_marker_frame {F : Type} (env : Env F) (rdb : Redis) (key : String) :
    ((validateIdempotentKey env rdb key).1.1 = true → env.test = false →
        env.redisSetErr = none →
        (validateIdempotentKey env rdb key).2.lookup ("idempotent-key:" ++ key)
          = some { value := "exists", expireAt := some (env.now + idempotentKeyTTL) })
    ∧ ((validateIdempotentKey env rdb key).1.1 = false →
        (validateIdempotentKey env rdb key).2 = rdb) := by
  constructor
  · intro hadm htest hset
    unfold validateIdempotentKey at hadm ⊢
    simp only [htest, Bool.false_eq_true, if_false] at hadm ⊢
    cases hg : env.redisGetErr with
    | some e => simp [hg] at hadm
    | none =>
      simp only [hg] at hadm ⊢
      split
      · rename_i hval
        simp [hval] at hadm
      · simp [hset, lookup_set_self, idempotentKeyTTL]
  · intro hrej
    unfold validateIdempotentKey at hrej ⊢
    split
    · rfl
    · split
      · rfl
      · simp only
        split
        · rfl
        · rename_i hval
          split <;> simp_all

/-- Witness of C25: the key `abc` on an empty store at time 0, outside test mode. -/
theorem guard_marker_frame_witness :
    (validateIdempotentKey (calmEnv false 0 1) [] "abc").1.1 = true
    ∧ (validateIdempotentKey (calmEnv false 0 1) [] "abc").2.lookup
          ("idempotent-key:" ++ "abc")
        = some { value := "exists", expireAt := some (0 + idempotentKeyTTL) } :=
  ⟨rfl, (guard_marker_frame (calmEnv false 0 1) [] "abc").1 rfl rfl rfl⟩

/-- C24: whenever the Order Store transaction of a request commits and the publication of
its event fails (the encoding of the order fails, or the write to the topic fails), the
orchestrator returns the publication error and no order, and the service keeps the
repository as the committed transaction left it (nothing is compensated); the topic is
unchanged.  This holds for `CreateOrder` (outside test mode, where an event is published),
for `UpdateOrder` and for `CancelOrder`. -/
theorem publish_failure_keeps_commit {F : Type} [Zero F] [Add F] [Mul F] [IntCast F]
    [OfScientific F] (s : OrderService F) (env : Env F) (e : String)
    (hfail : env.marshalErr = some e ∨ (env.marshalErr = none ∧ env.kafkaErr = some e)) :
    (∀ (order o1 created : Order F) (rdb' : Redis) (repo' : OrderRepository F),
        env.test = false →
        validateIdempotentKey env s.rdb order.IdempotentKey = ((true, none), rdb') →
        aggregate env order = .ok o1 →
        s.orderRepo.CreateOrder env.db o1 = (.ok created, repo') →
        s.CreateOrder env order
          = (.error e, { orderRepo := repo', rdb := rdb', kafka := s.kafka,
                         lookups := s.lookups ++ createLookups env order }))
    ∧ (∀ (order updated : Order F) (repo' : OrderRepository F) (sent : List Lookup),
        (if order.Status = "paid" then stockCheckLoop env order.ProductRequests
          else ([], none)) = (sent, none) →
        s.orderRepo.UpdateOrder env.db order = (.ok updated, repo') →
        s.UpdateOrder env order
          = (.error e, { orderRepo := repo', rdb := s.rdb, kafka := s.kafka,
                         lookups := s.lookups ++ sent }))
    ∧ (∀ (id : Int) (order updated : Order F) (repo' : OrderRepository F),
        s.orderRepo.GetOrderByID env.db id = .ok order →
        s.orderRepo.UpdateOrder env.db { order with Status := "cancelled" }
          = (.ok updated, repo') →
        s.CancelOrder env id = (.error e, { s with orderRepo := repo' })) := by
  have hpub : ∀ (topic : List (KafkaMessage (Order F))) (o : Order F) (tag : String),
      publishOrderEvent env topic o tag = (some e, topic) := by
    intro topic o tag
    rcases hfail with h | ⟨h1, h2⟩
    · simp [publishOrderEvent, h]
    · simp [publishOrderEvent, h1, h2]
  refine ⟨?_, ?_, ?_⟩
  · intro order o1 created rdb' repo' htest hv hagg hrepo
    simp [OrderService.CreateOrder, hv, hagg, hrepo, htest, hpub]
  · intro order updated repo' sent hloop hrepo
    simp only [OrderService.UpdateOrder, hloop, hrepo, hpub]
  · intro id order updated repo' hread hrepo
    simp [OrderService.CancelOrder, hread, hrepo, hpub]

/-- Witness of C24: the sample submission while the broker refuses the write: the order row
is committed on its shard, the call returns the broker's error, and the topic is empty. -/
theorem publish_failure_keeps_commit_witness :
    (kafkaDownEnv.marshalErr = some "kafka: leader not available"
      ∨ (kafkaDownEnv.marshalErr = none ∧ kafkaDownEnv.kafkaErr = some "kafka: leader not available"))
    ∧ (freshService.CreateOrder kafkaDownEnv sampleOrder).1 = .error "kafka: leader not available"
    ∧ (freshService.CreateOrder kafkaDownEnv sampleOrder).2.kafka = []
    ∧ (freshService.CreateOrder kafkaDownEnv sampleOrder).2.orderRepo
        = (freshService.orderRepo.CreateOrder kafkaDownEnv.db
            (sumTotal { sampleOrder with OrderID := randomOrderID kafkaDownEnv.rand })).2 :=
  ⟨Or.inr ⟨rfl, rfl⟩,
   by rw [(publish_failure_keeps_commit freshService kafkaDownEnv "kafka: leader not available"
        (Or.inr ⟨rfl, rfl⟩)).1 sampleOrder _ _ _ _ rfl (by with_unfolding_all rfl)
        (by with_unfolding_all rfl) (by with_unfolding_all rfl)],
   by with_unfolding_all rfl, by with_unfolding_all rfl⟩

/-! ## The batch statement of `Create` -/

theorem foldl_append_data {α : Type} (g : String) (ps : List α) (acc : String) :
    (ps.foldl (fun productQuery _ => productQuery ++ g) acc).data
      = acc.data ++ (List.replicate ps.length g.data).flatten := by
  induction ps generalizing acc with
  | nil => simp
  | cons p ps ih =>
    simp only [List.foldl, ih, String.data_append, List.length_cons, List.replicate_succ,
      List.flatten_cons, List.append_assoc]

theorem join_replicate_shift {α : Type} (a : List α) (c : α) (m : Nat) :
    (List.replicate (m + 1) (a ++ [c])).flatten
      = a ++ (List.replicate m (c :: a)).flatten ++ [c] := by
  induction m with
  | zero => simp
  | succ m ih =>
    rw [List.replicate_succ, List.flatten_cons, ih]
    simp [List.replicate_succ]

theorem intercalate_go_data (sep a : String) (m : Nat) (acc : String) :
    (String.intercalate.go acc sep (List.replicate m a)).data
      = acc.data ++ (List.replicate m (sep.data ++ a.data)).flatten := by
  induction m generalizing acc with
  | zero => simp [String.intercalate.go]
  | succ m ih =>
    simp only [List.replicate_succ, String.intercalate.go, ih, String.data_append,
      List.flatten_cons, List.append_assoc]

theorem buildProductValues_foldl {F : Type} (orderID : Int) (ps : List (ProductRequest F))
    (acc : List (SqlValue F)) :
    ps.foldl
        (fun values product =>
          values ++ [.int orderID, .int product.ProductID, .int product.Quantity,
                     .float product.MarkUp, .float product.Discount,
                     .float product.FinalPrice])
        acc
      = acc ++ (ps.map (fun product =>
          [SqlValue.int orderID, .int product.ProductID, .int product.Quantity,
           .float product.MarkUp, .float product.Discount,
           .float product.FinalPrice])).flatten := by
  induction ps generalizing acc with
  | nil => simp
  | cons p ps ih => simp only [List.foldl, ih, List.map, List.flatten_cons, List.append_assoc]

theorem drop_take_join_six {α β : Type} (f : β → List α) (hf : ∀ b, (f b).length = 6)
    (ps : List β) (i : Nat) (h : i < ps.length) :
    (((ps.map f).flatten).drop (6 * i)).take 6 = f (ps.get ⟨i, h⟩) := by
  induction ps generalizing i with
  | nil => exact absurd h (by simp)
  | cons p ps ih =>
    cases i with
    | zero =>
      simp only [List.map, List.flatten_cons, Nat.mul_zero, List.drop_zero, List.get]
      rw [List.take_append_of_le_length (by rw [hf])]
      rw [List.take_of_length_le (by rw [hf])]
    | succ i =>
      have hi : i < ps.length := by simpa using h
      simp only [List.map, List.flatten_cons, List.get]
      have h6 : 6 * (i + 1) = (f p).length + 6 * i := by rw [hf]; ring
      rw [h6, List.drop_append]
      exact ih i hi

/-- C29: for every non-empty list of `n` line items and every order id returned by
`LastInsertId`, the statement text that `Create` builds is the `INSERT ... VALUES ` prefix
followed by `n` groups `(?, ?, ?, ?, ?, ?)` joined by single commas (so it ends in a group,
not in a comma), and the argument list has `6 * n` values, of which the `i`-th six are the
order id, then product id, quantity, markup, discount and final price of line item `i`. -/
theorem batch_statement_shape {F : Type} (orderID : Int) (ps : List (ProductRequest F))
    (hne : ps ≠ []) :
    buildProductQuery ps
        = productQueryPrefix
            ++ ",".intercalate (List.replicate ps.length "(?, ?, ?, ?, ?, ?)")
    ∧ (buildProductValues orderID ps).length = 6 * ps.length
    ∧ ∀ (i : Nat) (h : i < ps.length),
        ((buildProductValues orderID ps).drop (6 * i)).take 6
          = [.int orderID, .int (ps.get ⟨i, h⟩).ProductID, .int (ps.get ⟨i, h⟩).Quantity,
             .float (ps.get ⟨i, h⟩).MarkUp, .float (ps.get ⟨i, h⟩).Discount,
             .float (ps.get ⟨i, h⟩).FinalPrice] := by
  have hvals : buildProductValues orderID ps
      = (ps.map (fun product =>
          [SqlValue.int orderID, .int product.ProductID, .int product.Quantity,
           .float product.MarkUp, .float product.Discount,
           .float product.FinalPrice])).flatten := by
    unfold buildProductValues
    rw [buildProductValues_foldl]
    simp
  refine ⟨?_, ?_, ?_⟩
  · obtain ⟨m, hm⟩ : ∃ m, ps.length = m + 1 := by
      cases ps with
      | nil => exact absurd rfl hne
      | cons p ps => exact ⟨ps.length, rfl⟩
    apply String.ext
    unfold buildProductQuery
    rw [foldl_append_data, hm]
    have hg : ("(?, ?, ?, ?, ?, ?)," : String).data
        = ("(?, ?, ?, ?, ?, ?)" : String).data ++ [','] := by decide
    rw [hg, join_replicate_shift, String.data_append]
    simp only [List.replicate_succ, String.intercalate, intercalate_go_data]
    rw [← List.append_assoc, ← List.append_assoc, List.dropLast_concat]
    have hsep : (",".data ++ ("(?, ?, ?, ?, ?, ?)" : String).data)
        = ',' :: ("(?, ?, ?, ?, ?, ?)" : String).data := by decide
    rw [hsep, List.append_assoc]
  · rw [hvals, List.length_flatten]
    simp only [List.map_map, Function.comp_def, List.length_cons, List.length_nil]
    clear hvals hne
    induction ps with
    | nil => rfl
    | cons p ps ih => simp only [List.map, List.sum_cons, List.length_cons, ih]; ring
  · intro i h
    rw [hvals]
    exact drop_take_join_six
      (fun product : ProductRequest F =>
        [SqlValue.int orderID, .int product.ProductID, .int product.Quantity,
         .float product.MarkUp, .float product.Discount, .float product.FinalPrice])
      (fun _ => rfl) ps i h

/-- Witness of C29: the two line items of the second example and the order id 1. -/
theorem batch_statement_shape_witness :
    twoItemOrder.ProductRequests ≠ []
    ∧ buildProductQuery twoItemOrder.ProductRequests
        = productQueryPrefix ++ "(?, ?, ?, ?, ?, ?),(?, ?, ?, ?, ?, ?)"
    ∧ (buildProductValues 1 twoItemOrder.ProductRequests).length = 12 :=
  ⟨by decide,
   (batch_statement_shape 1 twoItemOrder.ProductRequests (by decide)).1.trans (by decide),
   (batch_statement_shape 1 twoItemOrder.ProductRequests (by decide)).2.1⟩

/-! ## A reservation that the stock does not cover -/

/-- C30: whenever the record that `ReserveProductStock` reads for the product (the cached
copy, with a non-zero id) has a stock below the requested quantity, the call returns the
error `product out of stock` and the ledger, durable rows and cache, is exactly as before.
More generally a call that does not return success leaves the ledger as it was. -/
theorem reserve_insufficient_writes_nothing {F : Type} (env : LedgerEnv) (l : StockLedger F)
    (productID quantity : Int) :
    (∀ (p : Product F), env.redisGetErr = none →
        cacheGet l.cache env.now (productKey productID) = some (.product p) →
        p.ID ≠ 0 → p.Stock < quantity →
        l.ReserveProductStock env productID quantity = (.error "product out of stock", l))
    ∧ ((l.ReserveProductStock env productID quantity).1 ≠ .ok () →
        (l.ReserveProductStock env productID quantity).2 = l) := by
  constructor
  · intro p hget hc hid hlt
    simp [StockLedger.ReserveProductStock, hget, hc, jsonUnmarshal, hid, hlt]
  · intro hne
    cases hg : env.redisGetErr with
    | some e => simp [StockLedger.ReserveProductStock, hg]
    | none =>
      cases hj : jsonUnmarshal (cacheGet l.cache env.now (productKey productID)) with
      | error e => simp [StockLedger.ReserveProductStock, hg, hj]
      | ok pd =>
        by_cases hid : pd.ID = 0
        · simp [StockLedger.ReserveProductStock, hg, hj, hid, GetProductByID]
        · by_cases hlt : pd.Stock < quantity
          · simp [StockLedger.ReserveProductStock, hg, hj, hid, hlt]
          · cases hu : env.updateErr with
            | some e =>
              simp [StockLedger.ReserveProductStock, hg, hj, hid, hlt, UpdateProduct, hu]
            | none =>
              exfalso
              apply hne
              simp [StockLedger.ReserveProductStock, hg, hj, hid, hlt, UpdateProduct, hu]

/-- Witness of C30: product 1 with stock 2 in both stores, and a reservation of 3. -/
theorem reserve_insufficient_writes_nothing_witness :
    quietLedgerEnv.redisGetErr = none
    ∧ cacheGet (warmLedger 2).cache quietLedgerEnv.now (productKey 1)
        = some (.product (gadget 2))
    ∧ (gadget 2).ID ≠ 0 ∧ (gadget 2).Stock < 3
    ∧ (warmLedger 2).ReserveProductStock quietLedgerEnv 1 3
        = (.error "product out of stock", warmLedger 2) :=
  ⟨rfl, by decide, by decide, by decide,
   (reserve_insufficient_writes_nothing quietLedgerEnv (warmLedger 2) 1 3).1 (gadget 2) rfl
     (by decide) (by decide) (by decide)⟩

/-! ## The aggregate markup and discount -/

/-- C28, as stated, fails: the sample submission with `total_mark_up: 9` and
`total_discount: 4` in the payload is accepted and the row persisted for it carries 9 and 4,
while its one line item is persisted with markup 0 and discount 0, and the quantity-scaled
lookup values are 2 times 0.1 and 2 times 0.05. -/
theorem createOrder_persists_payload_markup :
    (∃ s', freshService.CreateOrder (calmEnv false 0 1) markedUpOrder
        = (.ok { markedUpOrder with ID := 1, OrderID := 1001 }, s'))
    ∧ (freshService.CreateOrder (calmEnv false 0 1) markedUpOrder).2.orderRepo.dbShards.map
        (fun db => db.orders.map (fun row => (row.total_mark_up, row.total_discount)))
        = [[], [], [(9, 4)]]
    ∧ (freshService.CreateOrder (calmEnv false 0 1) markedUpOrder).2.orderRepo.dbShards.map
        (fun db => db.product_requests.map (fun row => (row.mark_up, row.discount)))
        = [[], [], [(0, 0)]]
    ∧ (9 : ℚ) ≠ 0 ∧ (4 : ℚ) ≠ 0
    ∧ (9 : ℚ) ≠ ((2 : Int) : ℚ) * 0.1 ∧ (4 : ℚ) ≠ ((2 : Int) : ℚ) * 0.05 :=
  ⟨⟨_, by with_unfolding_all rfl⟩, by with_unfolding_all rfl, by with_unfolding_all rfl,
   by norm_num, by norm_num, by norm_num, by norm_num⟩

/-- C28, amended: for every order accepted by `CreateOrder`, the order that is returned, and
the row appended for it to table `orders` of the shard its business key routes to, carry the
`total_mark_up` and `total_discount` of the request payload: the orchestrator computes
neither. -/
theorem createOrder_markup_is_payload_markup {F : Type} [Zero F] [Add F] [Mul F]
    [IntCast F] [OfScientific F] (s s' : OrderService F) (env : Env F) (order o : Order F)
    (h : s.CreateOrder env order = (.ok o, s')) :
    o.TotalMarkUp = order.TotalMarkUp ∧ o.TotalDiscount = order.TotalDiscount
    ∧ ∃ idx db db' row, s.orderRepo.router.GetShard o.OrderID = .ok idx
        ∧ goIndex s.orderRepo.dbShards idx = .ok db
        ∧ goIndex s'.orderRepo.dbShards idx = .ok db'
        ∧ db'.orders = db.orders ++ [row]
        ∧ row.id = o.ID ∧ row.order_id = o.OrderID
        ∧ row.total_mark_up = order.TotalMarkUp
        ∧ row.total_discount = order.TotalDiscount := by
  obtain ⟨o1, hagg, hrepo, _⟩ := createOrder_ok_inv s s' env order o h
  have ho1 := aggregate_ok env order o1 hagg
  have hm : o1.TotalMarkUp = order.TotalMarkUp := by rw [ho1, sumTotal_eq]
  have hd : o1.TotalDiscount = order.TotalDiscount := by rw [ho1, sumTotal_eq]
  obtain ⟨idx, db, db', hidx, hdb, hdb', ho, horders⟩ :=
    repo_createOrder_ok s.orderRepo s'.orderRepo env.db o1 o hrepo
  refine ⟨by rw [ho]; exact hm, by rw [ho]; exact hd, idx, db, db', _, ?_, hdb, hdb', horders,
    ?_⟩
  · rw [ho]
    exact hidx
  · rw [ho]
    exact ⟨rfl, rfl, hm, hd⟩

/-- Witness of C28: the submission with aggregate markup 9 and discount 4. -/
theorem createOrder_markup_is_payload_markup_witness :
    freshService.CreateOrder (calmEnv false 0 1) markedUpOrder
        = (.ok { markedUpOrder with ID := 1, OrderID := 1001 },
            (freshService.CreateOrder (calmEnv false 0 1) markedUpOrder).2)
    ∧ ({ markedUpOrder with ID := 1, OrderID := 1001 } : Order ℚ).TotalMarkUp
        = markedUpOrder.TotalMarkUp
    ∧ ({ markedUpOrder with ID := 1, OrderID := 1001 } : Order ℚ).TotalDiscount
        = markedUpOrder.TotalDiscount :=
  ⟨by with_unfolding_all rfl,
   (createOrder_markup_is_payload_markup freshService _ (calmEnv false 0 1) markedUpOrder
      { markedUpOrder with ID := 1, OrderID := 1001 } (by with_unfolding_all rfl)).1,
   (createOrder_markup_is_payload_markup freshService _ (calmEnv false 0 1) markedUpOrder
      { markedUpOrder with ID := 1, OrderID := 1001 } (by with_unfolding_all rfl)).2.1⟩

/-! ## The stock checks of `UpdateOrder` -/

theorem stockCheckLoop_all_pass {F : Type} (env : Env F) (ps : List (ProductRequest F))
    (h : ∀ p ∈ ps, checkProductStock env p.ProductID p.Quantity = (true, none)) :
    stockCheckLoop env ps
      = (if env.test then [] else ps.map (fun p => Lookup.stock p.ProductID), none) := by
  induction ps with
  | nil => simp [stockCheckLoop]
  | cons p ps ih =>
    have hp := h p (List.mem_cons_self _ _)
    have hps := ih (fun q hq => h q (List.mem_cons_of_mem _ hq))
    simp only [stockCheckLoop, hp, hps]
    cases env.test <;> simp

theorem stockCheckLoop_first_failure {F : Type} (env : Env F)
    (pre post : List (ProductRequest F)) (bad : ProductRequest F)
    (hpre : ∀ p ∈ pre, checkProductStock env p.ProductID p.Quantity = (true, none))
    (hbad : checkProductStock env bad.ProductID bad.Quantity ≠ (true, none)) :
    stockCheckLoop env (pre ++ bad :: post)
      = (if env.test then [] else (pre ++ [bad]).map (fun p => Lookup.stock p.ProductID),
         some (match (checkProductStock env bad.ProductID bad.Quantity).2 with
               | some e => e
               | none => "product out of stock")) := by
  induction pre with
  | nil =>
    simp only [List.nil_append, stockCheckLoop]
    cases hc : checkProductStock env bad.ProductID bad.Quantity with
    | mk available err =>
      cases err with
      | some e => cases env.test <;> simp
      | none =>
        cases available with
        | true => exact absurd hc hbad
        | false => cases env.test <;> simp
  | cons p pre ih =>
    have hp := hpre p (List.mem_cons_self _ _)
    have hrest := ih (fun q hq => hpre q (List.mem_cons_of_mem _ hq))
    rw [List.cons_append]
    simp only [stockCheckLoop, hp]
    rw [hrest]
    cases env.test <;> simp

/-- C22: for every order passed to `UpdateOrder`.  With a status other than `paid` no
lookup is sent and the order goes to Replace; with status `paid` and every stock check
passing, one stock lookup per line item is sent, in line-item order, and no pricing lookup,
and the order goes to Replace; in both cases the store is left as Replace leaves it and, when
Replace and the publication succeed, the event `updated` is appended to the topic and the
updated order is returned.  With status `paid` and a first line item whose check fails or
reports too little stock, the call returns that check's error (`product out of stock` for
too little stock) after the stock lookups up to that item, with the store and the topic
untouched. -/
theorem updateOrder_paid_gate {F : Type} (s : OrderService F) (env : Env F) (order : Order F) :
    ((order.Status ≠ "paid"
        ∨ (∀ p ∈ order.ProductRequests,
            checkProductStock env p.ProductID p.Quantity = (true, none))) →
      (s.UpdateOrder env order).2.lookups
          = s.lookups ++ (if order.Status = "paid" ∧ env.test = false
              then order.ProductRequests.map (fun p => Lookup.stock p.ProductID) else [])
        ∧ (s.UpdateOrder env order).2.orderRepo = (s.orderRepo.UpdateOrder env.db order).2
        ∧ (∀ e, (s.orderRepo.UpdateOrder env.db order).1 = .error e →
            s.UpdateOrder env order
              = (.error e, { s with
                  lookups := (s.UpdateOrder env order).2.lookups,
                  orderRepo := (s.orderRepo.UpdateOrder env.db order).2 }))
        ∧ (∀ updated, (s.orderRepo.UpdateOrder env.db order).1 = .ok updated →
            env.marshalErr = none → env.kafkaErr = none →
            (s.UpdateOrder env order).1 = .ok updated
              ∧ (s.UpdateOrder env order).2.kafka
                  = s.kafka ++ [{ Key := eventKey "updated" updated.ID, Value := updated }]))
    ∧ (∀ (pre post : List (ProductRequest F)) (bad : ProductRequest F),
        order.Status = "paid" → order.ProductRequests = pre ++ bad :: post →
        (∀ p ∈ pre, checkProductStock env p.ProductID p.Quantity = (true, none)) →
        checkProductStock env bad.ProductID bad.Quantity ≠ (true, none) →
        s.UpdateOrder env order
          = (.error (match (checkProductStock env bad.ProductID bad.Quantity).2 with
                     | some e => e
                     | none => "product out of stock"),
             { s with lookups := s.lookups ++
                 (if env.test then []
                  else (pre ++ [bad]).map (fun p => Lookup.stock p.ProductID)) })) := by
  constructor
  · intro hgo
    have hloop : (if order.Status = "paid" then stockCheckLoop env order.ProductRequests
          else ([], none))
        = (if order.Status = "paid" ∧ env.test = false
            then order.ProductRequests.map (fun p => Lookup.stock p.ProductID) else [],
           none) := by
      by_cases hpaid : order.Status = "paid"
      · rcases hgo with hne | hall
        · exact absurd hpaid hne
        · rw [if_pos hpaid, stockCheckLoop_all_pass env _ hall]
          cases env.test <;> simp [hpaid]
      · simp [hpaid]
    cases hrepo : s.orderRepo.UpdateOrder env.db order with
    | mk res repo =>
      cases res with
      | error e => simp [OrderService.UpdateOrder, hloop, hrepo]
      | panic e => simp [OrderService.UpdateOrder, hloop, hrepo]
      | hang => simp [OrderService.UpdateOrder, hloop, hrepo]
      | ok updated =>
        cases hm : env.marshalErr with
        | some e => simp [OrderService.UpdateOrder, hloop, hrepo, publishOrderEvent, hm]
        | none =>
          cases hk : env.kafkaErr with
          | some e => simp [OrderService.UpdateOrder, hloop, hrepo, publishOrderEvent, hm, hk]
          | none => simp [OrderService.UpdateOrder, hloop, hrepo, publishOrderEvent, hm, hk]
  · intro pre post bad hpaid hitems hpre hbad
    simp only [OrderService.UpdateOrder, hpaid, if_true, hitems,
      stockCheckLoop_first_failure env pre post bad hpre hbad]

/-- Witness of C22: the two-item order with status `paid` while product 43 has stock 1 and
quantity 3 is asked: after the stock lookups for products 42 and 43 the call returns
`product out of stock`, and the store and the topic are as before. -/
theorem updateOrder_paid_gate_witness :
    freshService.UpdateOrder scarceEnv { twoItemOrder with Status := "paid" }
      = (.error "product out of stock",
         { freshService with lookups := [Lookup.stock 42, Lookup.stock 43] }) :=
  ((updateOrder_paid_gate freshService scarceEnv { twoItemOrder with Status := "paid" }).2
    [{ ProductID := 42, Quantity := 2, MarkUp := 0, Discount := 0, FinalPrice := 5 }] []
    { ProductID := 43, Quantity := 3, MarkUp := 0, Discount := 0, FinalPrice := 7 }
    rfl rfl (by intro p hp; rw [List.mem_singleton.1 hp]; decide) (by decide)).trans
    (by with_unfolding_all rfl)

/-! ## A line item without enough stock -/

theorem availabilityGoroutine_fields {F : Type} (env : Env F) (p : ProductRequest F) :
    (availabilityGoroutine env p).Available
        = (checkProductStock env p.ProductID p.Quantity).1
    ∧ (availabilityGoroutine env p).Error
        = (checkProductStock env p.ProductID p.Quantity).2 := by
  unfold availabilityGoroutine
  cases checkProductStock env p.ProductID p.Quantity
  exact ⟨rfl, rfl⟩

theorem gatherLoop_sees_shortage {F : Type} [Mul F] [IntCast F]
    (availability : List AvailabilityResult) (pricing : List (PricingResult F))
    (ao po : List Nat) (ks : List Nat) (order : Order F) (k : Nat) (hk : k ∈ ks)
    (r : AvailabilityResult) (hr : received availability ao k = some r)
    (hav : r.Available = false) (o : Order F) :
    gatherLoop availability pricing ao po ks order ≠ .ok o := by
  induction ks generalizing order with
  | nil => exact absurd hk (by simp)
  | cons k0 ks ih =>
    intro h
    simp only [gatherLoop] at h
    split at h
    · exact absurd h (by simp)
    · rename_i a ha
      split at h
      · exact absurd h (by simp)
      · split at h
        · exact absurd h (by simp)
        · split at h
          · exact absurd h (by simp)
          · rename_i hnot
            split at h
            · exact absurd h (by simp)
            · rcases List.mem_cons.1 hk with hk0 | hks
              · subst hk0
                rw [hr] at ha
                simp only [Option.some.injEq] at ha
                subst ha
                simp [hav] at hnot
              · exact ih _ hks h

theorem gatherLoop_shortage_error {F : Type} [Mul F] [IntCast F]
    (availability : List AvailabilityResult) (pricing : List (PricingResult F))
    (ao po : List Nat) (ks : List Nat) (order : Order F)
    (hall : ∀ k ∈ ks, ∃ a pr, received availability ao k = some a ∧ a.Error = none
      ∧ received pricing po k = some pr ∧ pr.Error = none)
    (k : Nat) (hk : k ∈ ks) (r : AvailabilityResult)
    (hr : received availability ao k = some r) (hav : r.Available = false) :
    gatherLoop availability pricing ao po ks order = .error "product out of stock" := by
  induction ks generalizing order with
  | nil => exact absurd hk (by simp)
  | cons k0 ks ih =>
    obtain ⟨a, pr, ha, hae, hp, hpe⟩ := hall k0 (List.mem_cons_self _ _)
    simp only [gatherLoop, ha, hp, hae, hpe]
    cases hav0 : a.Available with
    | false => simp
    | true =>
      simp only [Bool.not_true, Bool.false_eq_true, if_false]
      apply ih _ (fun k1 hk1 => hall k1 (List.mem_cons_of_mem _ hk1))
      rcases List.mem_cons.1 hk with hk0 | hks
      · subst hk0
        rw [hr] at ha
        simp only [Option.some.injEq] at ha
        subst ha
        rw [hav] at hav0
        exact absurd hav0 (by simp)
      · exact hks

theorem pricingResults_ok {F : Type} [IntCast F] [OfScientific F] (env : Env F)
    (items : List (ProductRequest F))
    (h : ∀ p ∈ items, ∃ pricing, getPricing env p.ProductID = (some pricing, none)) :
    ∃ rs, pricingResults env items = .ok rs ∧ rs.length = items.length
      ∧ ∀ r ∈ rs, r.Error = none := by
  induction items with
  | nil => exact ⟨[], rfl, rfl, by simp⟩
  | cons p ps ih =>
    obtain ⟨pricing, hp⟩ := h p (List.mem_cons_self _ _)
    obtain ⟨rs, hrs, hlen, herr⟩ := ih (fun q hq => h q (List.mem_cons_of_mem _ hq))
    refine ⟨{ ProductID := p.ProductID, FinalPrice := pricing.FinalPrice,
              MarkUp := pricing.Markup, Discount := pricing.Discount, Error := none } :: rs,
      by simp only [pricingResults, pricingGoroutine, hp, hrs], by simp [hlen], ?_⟩
    intro r hr
    rcases List.mem_cons.1 hr with h0 | h1
    · rw [h0]
    · exact herr r h1

theorem createOrder_not_ok_frame {F : Type} [Zero F] [Add F] [Mul F] [IntCast F]
    [OfScientific F] (s : OrderService F) (env : Env F) (order : Order F)
    (h : ∀ o, aggregate env order ≠ .ok o) :
    (∀ o, (s.CreateOrder env order).1 ≠ .ok o)
    ∧ (s.CreateOrder env order).2.orderRepo = s.orderRepo
    ∧ (s.CreateOrder env order).2.kafka = s.kafka := by
  cases hv : validateIdempotentKey env s.rdb order.IdempotentKey with
  | mk res rdb =>
    cases res with
    | mk validate err =>
      cases err with
      | some e => simp [OrderService.CreateOrder, hv]
      | none =>
        cases validate with
        | false => simp [OrderService.CreateOrder, hv]
        | true =>
          cases hagg : aggregate env order with
          | ok o => exact absurd hagg (h o)
          | error e => simp [OrderService.CreateOrder, hv, hagg]
          | panic e => simp [OrderService.CreateOrder, hv, hagg]
          | hang => simp [OrderService.CreateOrder, hv, hagg]

/-- C21, as stated, fails: of two line items, the first one's stock lookup fails in
transport and the second one's reports stock 1 for quantity 3; the first result received is
the failure, and `CreateOrder` returns the transport error, not `product out of stock`. -/
theorem shortage_masked_by_lookup_failure :
    checkProductStock flakyEnv 43 3 = (false, none)
    ∧ (freshService.CreateOrder flakyEnv twoItemOrder).1
        = .error "dial tcp: connection refused"
    ∧ (Outcome.error "dial tcp: connection refused" : Outcome (Order ℚ))
        ≠ .error "product out of stock" :=
  ⟨by decide, by with_unfolding_all rfl, by decide⟩

/-- C21, amended: for every order with a line item (index `j`) whose stock check reports
less stock than the quantity asked, and whose result is among those received (position `k`
of the completion order, any position): `CreateOrder` never returns an order, and the Order
Store and the topic are as before the call, whatever else happens.  When moreover the guard
admits the key, no stock check returns an error, every pricing lookup returns a pricing and
every receive gets the result of a line item, the error returned is `product out of stock`
and the service differs only by the marker written and the lookups sent. -/
theorem shortage_aborts_create {F : Type} [Zero F] [Add F] [Mul F] [IntCast F]
    [OfScientific F] (s : OrderService F) (env : Env F) (order : Order F) (j k : Nat)
    (p : ProductRequest F) (hk : k < order.ProductRequests.length)
    (hrecv : env.availabilityOrder[k]? = some j) (hitem : order.ProductRequests[j]? = some p)
    (hshort : checkProductStock env p.ProductID p.Quantity = (false, none)) :
    ((∀ o, (s.CreateOrder env order).1 ≠ .ok o)
      ∧ (s.CreateOrder env order).2.orderRepo = s.orderRepo
      ∧ (s.CreateOrder env order).2.kafka = s.kafka)
    ∧ (∀ rdb', validateIdempotentKey env s.rdb order.IdempotentKey = ((true, none), rdb') →
        (∀ q ∈ order.ProductRequests,
          (checkProductStock env q.ProductID q.Quantity).2 = none) →
        (∀ q ∈ order.ProductRequests,
          ∃ pricing, getPricing env q.ProductID = (some pricing, none)) →
        (∀ k1, k1 < order.ProductRequests.length →
          ∃ i, i < order.ProductRequests.length ∧ env.availabilityOrder[k1]? = some i) →
        (∀ k1, k1 < order.ProductRequests.length →
          ∃ i, i < order.ProductRequests.length ∧ env.pricingOrder[k1]? = some i) →
        s.CreateOrder env order
          = (.error "product out of stock",
             { s with rdb := rdb', lookups := s.lookups ++ createLookups env order })) := by
  have hr : ∀ pricing : List (PricingResult F),
      received (order.ProductRequests.map (availabilityGoroutine env)) env.availabilityOrder k
        = some (availabilityGoroutine env p) := by
    intro _
    simp [received, List.get?_eq_getElem?, hrecv, hitem]
  have hav : (availabilityGoroutine env p).Available = false := by
    rw [(availabilityGoroutine_fields env p).1, hshort]
  have hkmem : k ∈ List.range order.ProductRequests.length := List.mem_range.2 hk
  constructor
  · apply createOrder_not_ok_frame
    intro o hagg
    unfold aggregate at hagg
    simp only at hagg
    split at hagg
    · exact absurd hagg (by simp)
    · exact absurd hagg (by simp)
    · exact absurd hagg (by simp)
    · rename_i pricing _
      split at hagg
      · exact absurd hagg (by simp)
      · exact absurd hagg (by simp)
      · exact absurd hagg (by simp)
      · rename_i o2 hg
        exact gatherLoop_sees_shortage _ _ _ _ _ _ k hkmem _ (hr pricing) hav o2 hg
  · intro rdb' hv hnoerr hprice hao hpo
    obtain ⟨rs, hrs, hlen, herr⟩ := pricingResults_ok env order.ProductRequests hprice
    have hg : gatherLoop (order.ProductRequests.map (availabilityGoroutine env)) rs
        env.availabilityOrder env.pricingOrder (List.range order.ProductRequests.length)
        { order with OrderID := randomOrderID env.rand }
        = .error "product out of stock" := by
      apply gatherLoop_shortage_error _ _ _ _ _ _ _ k hkmem _ (hr rs) hav
      intro k1 hk1
      have hk1lt := List.mem_range.1 hk1
      obtain ⟨i, hi, hgi⟩ := hao k1 hk1lt
      obtain ⟨i2, hi2, hgi2⟩ := hpo k1 hk1lt
      have hi2rs : i2 < rs.length := by rw [hlen]; exact hi2
      refine ⟨availabilityGoroutine env (order.ProductRequests[i]),
        rs[i2], ?_, ?_, ?_, ?_⟩
      · simp [received, List.get?_eq_getElem?, hgi, hi]
      · rw [(availabilityGoroutine_fields env _).2]
        exact hnoerr _ (List.getElem_mem _)
      · simp [received, List.get?_eq_getElem?, hgi2, hi2rs]
      · exact herr _ (List.getElem_mem _)
    have hagg : aggregate env order = .error "product out of stock" := by
      unfold aggregate
      simp only [hrs, hg]
    simp [OrderService.CreateOrder, hv, hagg]

/-- Witness of C21: two line items of which the second asks 3 of a product with stock 1. -/
theorem shortage_aborts_create_witness :
    checkProductStock scarceEnv 43 3 = (false, none)
    ∧ freshService.CreateOrder scarceEnv twoItemOrder
        = (.error "product out of stock",
           { freshService with
             rdb := (validateIdempotentKey scarceEnv [] "xyz").2,
             lookups := [Lookup.stock 42, Lookup.stock 43,
                         Lookup.pricing 42, Lookup.pricing 43] }) :=
  ⟨by decide,
   ((shortage_aborts_create freshService scarceEnv twoItemOrder 1 1
      { ProductID := 43, Quantity := 3, MarkUp := 0, Discount := 0, FinalPrice := 7 }
      (by decide) rfl rfl (by decide)).2 _ rfl
      (by
        intro q hq
        simp only [twoItemOrder, List.mem_cons, List.mem_singleton, List.not_mem_nil,
          or_false] at hq
        rcases hq with h | h <;> rw [h] <;> decide)
      (by
        intro q hq
        simp only [twoItemOrder, List.mem_cons, List.mem_singleton, List.not_mem_nil,
          or_false] at hq
        rcases hq with h | h <;> rw [h] <;> exact ⟨_, by with_unfolding_all rfl⟩)
      (by decide) (by decide)).trans (by with_unfolding_all rfl)⟩

/-! ## The business key of created orders -/

theorem mem_orderIds {F : Type} (r : OrderRepository F) (x : Int) :
    x ∈ r.orderIds
      ↔ ∃ (i : Nat) (db : Shard F), r.dbShards[i]? = some db
          ∧ ∃ row ∈ db.orders, row.order_id = x := by
  unfold OrderRepository.orderIds
  simp only [List.mem_flatten, List.mem_map]
  constructor
  · rintro ⟨l, ⟨db, hdb, rfl⟩, hx⟩
    obtain ⟨i, hi, hget⟩ := List.getElem_of_mem hdb
    obtain ⟨row, hrow, rfl⟩ := List.mem_map.1 hx
    exact ⟨i, db, by rw [List.getElem?_eq_getElem hi, hget], row, hrow, rfl⟩
  · rintro ⟨i, db, hget, row, hrow, rfl⟩
    exact ⟨_, ⟨db, List.getElem?_mem hget, rfl⟩, List.mem_map.2 ⟨row, hrow, rfl⟩⟩

theorem wellPlaced_nodup {F : Type} (r : OrderRepository F) (h : r.wellPlaced) :
    r.orderIds.Nodup := by
  unfold OrderRepository.orderIds
  rw [List.nodup_flatten]
  constructor
  · intro l hl
    obtain ⟨db, hdb, rfl⟩ := List.mem_map.1 hl
    obtain ⟨i, hi, hget⟩ := List.getElem_of_mem hdb
    exact (h i db (by rw [List.getElem?_eq_getElem hi, hget])).1
  · rw [List.pairwise_map, List.pairwise_iff_getElem]
    intro i j hi hj hij
    intro x hx1 hx2
    obtain ⟨row1, hrow1, rfl⟩ := List.mem_map.1 hx1
    obtain ⟨row2, hrow2, heq⟩ := List.mem_map.1 hx2
    have h1 := (h i _ (List.getElem?_eq_getElem hi)).2 row1 hrow1
    have h2 := (h j _ (List.getElem?_eq_getElem hj)).2 row2 hrow2
    rw [heq, h1] at h2
    simp only [Outcome.ok.injEq, Nat.cast_inj] at h2
    omega

theorem insertOrder_duplicate_order_id {F : Type} (db : Shard F) (o : Order F)
    (h : db.orders.any (fun r => r.order_id == o.OrderID) = true) :
    ∃ e, db.insertOrder o = .error e := by
  unfold Shard.insertOrder
  split
  · exact ⟨_, rfl⟩
  · exact ⟨_, rfl⟩

theorem createOrderTx_duplicate_order_id {F : Type} (flt : DbFaults) (db : Shard F)
    (order : Order F) (h : db.orders.any (fun r => r.order_id == order.OrderID) = true) :
    ∃ e, createOrderTx flt db order = (.error e, db) := by
  obtain ⟨e, he⟩ := insertOrder_duplicate_order_id db order h
  cases h1 : flt .begin with
  | some e1 => exact ⟨e1, by simp [createOrderTx, h1]⟩
  | none =>
    cases h2 : flt .insertOrder with
    | some e2 => exact ⟨e2, by simp [createOrderTx, h1, h2]⟩
    | none => exact ⟨e, by simp [createOrderTx, h1, h2, he]⟩

theorem repo_createOrder_shape {F : Type} (r r' : OrderRepository F) (flt : DbFaults)
    (order o : Order F) (h : r.CreateOrder flt order = (.ok o, r')) :
    ∃ idx db tx, r.router.GetShard order.OrderID = .ok idx
      ∧ goIndex r.dbShards idx = .ok db
      ∧ r' = { r with dbShards := r.dbShards.set idx.toNat tx }
      ∧ o = { order with ID := db.ordersAutoInc }
      ∧ (∃ row, tx.orders = db.orders ++ [row] ∧ row.order_id = order.OrderID)
      ∧ ∀ row ∈ db.orders, row.order_id ≠ order.OrderID := by
  unfold OrderRepository.CreateOrder at h
  split at h
  · exact absurd h (by simp)
  · exact absurd h (by simp)
  · exact absurd h (by simp)
  · rename_i idx hidx
    split at h
    · exact absurd h (by simp)
    · exact absurd h (by simp)
    · exact absurd h (by simp)
    · rename_i db hdb
      simp only [Prod.mk.injEq] at h
      obtain ⟨h1, h2⟩ := h
      have htx : createOrderTx flt db order = (.ok o, (createOrderTx flt db order).2) := by
        rw [← h1]
      obtain ⟨ho, horders⟩ := createOrderTx_ok flt db order o _ htx
      refine ⟨idx, db, (createOrderTx flt db order).2, hidx, hdb, h2.symm, ho,
        ⟨_, horders, rfl⟩, ?_⟩
      intro row hrow heq
      have hany : db.orders.any (fun r => r.order_id == order.OrderID) = true :=
        List.any_eq_true.2 ⟨row, hrow, by simp [heq]⟩
      obtain ⟨e, he⟩ := createOrderTx_duplicate_order_id flt db order hany
      rw [he] at htx
      exact absurd htx (by simp)

theorem repo_createOrder_ok_ids {F : Type} (r r' : OrderRepository F) (flt : DbFaults)
    (order o : Order F) (hwp : r.wellPlaced) (h : r.CreateOrder flt order = (.ok o, r')) :
    o.OrderID = order.OrderID ∧ order.OrderID ∉ r.orderIds ∧ r'.wellPlaced
    ∧ ∀ x, x ∈ r'.orderIds ↔ x = order.OrderID ∨ x ∈ r.orderIds := by
  obtain ⟨idx, db, tx, hidx, hdb, hr', ho, ⟨row0, htx, hrow0⟩, hfresh⟩ :=
    repo_createOrder_shape r r' flt order o h
  obtain ⟨hnonneg, hget⟩ := goIndex_ok r.dbShards idx db hdb
  obtain ⟨hlt, _⟩ := List.getElem?_eq_some.1 hget
  have hcast : ((idx.toNat : Nat) : Int) = idx := Int.toNat_of_nonneg hnonneg
  have hshards : ∀ i, r'.dbShards[i]?
      = if idx.toNat = i then some tx else r.dbShards[i]? := by
    intro i
    rw [hr']
    simp only [List.getElem?_set]
    split
    · rename_i heq
      subst heq
      simp [hlt]
    · rfl
  have hrouter : r'.router = r.router := by rw [hr']
  have hsame : ∀ (i : Nat) (dbi : Shard F) (row : OrderRow F), r.dbShards[i]? = some dbi →
      row ∈ dbi.orders → row.order_id = order.OrderID → False := by
    intro i dbi row hgi hrow heq
    have hplace := (hwp i dbi hgi).2 row hrow
    rw [heq, hidx] at hplace
    simp only [Outcome.ok.injEq] at hplace
    have hi : idx.toNat = i := by omega
    subst hi
    rw [hget] at hgi
    simp only [Option.some.injEq] at hgi
    subst hgi
    exact hfresh row hrow heq
  refine ⟨by rw [ho], ?_, ?_, ?_⟩
  · intro hmem
    obtain ⟨i, dbi, hgi, row, hrow, heq⟩ := (mem_orderIds r _).1 hmem
    exact hsame i dbi row hgi hrow heq
  · intro i dbi hgi
    rw [hshards i] at hgi
    split at hgi
    · rename_i hi
      simp only [Option.some.injEq] at hgi
      subst hgi
      obtain ⟨hnd, hpl⟩ := hwp idx.toNat db hget
      constructor
      · rw [htx, List.map_append, List.nodup_append]
        refine ⟨hnd, by simp, ?_⟩
        intro x hx1 hx2
        simp only [List.map_cons, List.map_nil, List.mem_singleton] at hx2
        obtain ⟨row, hrow, hxrow⟩ := List.mem_map.1 hx1
        exact hfresh row hrow (by rw [hxrow, hx2, hrow0])
      · intro row hrow
        rw [htx, List.mem_append, List.mem_singleton] at hrow
        rw [hrouter, ← hi]
        rcases hrow with hold | hnew
        · exact hpl row hold
        · rw [hnew, hrow0, hidx, hcast]
    · rw [hrouter]
      exact hwp i dbi hgi
  · intro x
    rw [mem_orderIds, mem_orderIds]
    constructor
    · rintro ⟨i, dbi, hgi, row, hrow, heq⟩
      rw [hshards i] at hgi
      split at hgi
      · simp only [Option.some.injEq] at hgi
        subst hgi
        rw [htx, List.mem_append, List.mem_singleton] at hrow
        rcases hrow with hold | hnew
        · exact Or.inr ⟨idx.toNat, db, hget, row, hold, heq⟩
        · exact Or.inl (by rw [← heq, hnew, hrow0])
      · exact Or.inr ⟨i, dbi, hgi, row, hrow, heq⟩
    · rintro (hx | ⟨i, dbi, hgi, row, hrow, heq⟩)
      · exact ⟨idx.toNat, tx, by rw [hshards]; simp, row0,
          by rw [htx]; simp, by rw [hrow0, hx]⟩
      · by_cases hi : idx.toNat = i
        · subst hi
          rw [hget] at hgi
          simp only [Option.some.injEq] at hgi
          subst hgi
          exact ⟨idx.toNat, tx, by rw [hshards]; simp, row,
            by rw [htx]; exact List.mem_append_left _ hrow, heq⟩
        · exact ⟨i, dbi, by rw [hshards, if_neg hi]; exact hgi, row, hrow, heq⟩

theorem repo_createOrder_wellPlaced {F : Type} (r : OrderRepository F) (flt : DbFaults)
    (order : Order F) (hwp : r.wellPlaced) : (r.CreateOrder flt order).2.wellPlaced := by
  cases hres : (r.CreateOrder flt order).1 with
  | ok o =>
    exact (repo_createOrder_ok_ids r _ flt order o hwp (Prod.ext hres rfl)).2.2.1
  | error e =>
    rw [repo_createOrder_error_unchanged r flt order (by intro o; rw [hres]; simp)]
    exact hwp
  | panic e =>
    rw [repo_createOrder_error_unchanged r flt order (by intro o; rw [hres]; simp)]
    exact hwp
  | hang =>
    rw [repo_createOrder_error_unchanged r flt order (by intro o; rw [hres]; simp)]
    exact hwp

theorem createOrder_repo_cases {F : Type} [Zero F] [Add F] [Mul F] [IntCast F]
    [OfScientific F] (s : OrderService F) (env : Env F) (order : Order F) :
    (s.CreateOrder env order).2.orderRepo = s.orderRepo
    ∨ ∃ o1, aggregate env order = .ok o1
        ∧ (s.CreateOrder env order).2.orderRepo = (s.orderRepo.CreateOrder env.db o1).2 := by
  cases hv : validateIdempotentKey env s.rdb order.IdempotentKey with
  | mk res rdb =>
    cases res with
    | mk validate err =>
      cases err with
      | some e => exact Or.inl (by simp [OrderService.CreateOrder, hv])
      | none =>
        cases validate with
        | false => exact Or.inl (by simp [OrderService.CreateOrder, hv])
        | true =>
          cases hagg : aggregate env order with
          | error e => exact Or.inl (by simp [OrderService.CreateOrder, hv, hagg])
          | panic e => exact Or.inl (by simp [OrderService.CreateOrder, hv, hagg])
          | hang => exact Or.inl (by simp [OrderService.CreateOrder, hv, hagg])
          | ok o1 =>
            refine Or.inr ⟨o1, rfl, ?_⟩
            simp only [OrderService.CreateOrder, hv, hagg, Bool.not_true, Bool.false_eq_true,
              if_false]
            repeat' split
            all_goals rfl

theorem runCreates_wellPlaced {F : Type} [Zero F] [Add F] [Mul F] [IntCast F]
    [OfScientific F] (calls : List (Env F × Order F)) (s : OrderService F)
    (hwp : s.orderRepo.wellPlaced) : (runCreates calls s).orderRepo.wellPlaced := by
  induction calls generalizing s with
  | nil => exact hwp
  | cons c calls ih =>
    obtain ⟨env, order⟩ := c
    simp only [runCreates]
    apply ih
    rcases createOrder_repo_cases s env order with h | ⟨o1, _, h⟩
    · rw [h]
      exact hwp
    · rw [h]
      exact repo_createOrder_wellPlaced _ _ _ hwp

theorem emptyRepo_wellPlaced : emptyRepo.wellPlaced := by
  intro i db hget
  have hmem : db ∈ emptyRepo.dbShards := List.getElem?_mem hget
  have hdb : db = emptyShard := by
    simp only [emptyRepo, List.mem_cons, List.mem_singleton, List.not_mem_nil, or_false,
      or_self] at hmem
    exact hmem
  subst hdb
  exact ⟨by simp [emptyShard], by simp [emptyShard]⟩

/-- C27, as stated, fails: after the sample submission is created with `order_id` 1001, a
submission with another key whose call draws the same random number is assigned 1001 again,
the `order_id` of the order created earlier; the store then rejects it. -/
theorem repeated_draw_assigns_stored_order_id :
    (freshService.CreateOrder (calmEnv false 0 1) sampleOrder).1
        = .ok { sampleOrder with ID := 1, OrderID := 1001 }
    ∧ aggregate (calmEnv false 0 1) { sampleOrder with IdempotentKey := "def" }
        = .ok { sampleOrder with IdempotentKey := "def", OrderID := 1001 }
    ∧ ((freshService.CreateOrder (calmEnv false 0 1) sampleOrder).2.CreateOrder
          (calmEnv false 0 1) { sampleOrder with IdempotentKey := "def" }).1
        = .error "Duplicate entry for key order_id" :=
  ⟨by with_unfolding_all rfl, by with_unfolding_all rfl, by with_unfolding_all rfl⟩

/-- C27, amended: the `order_id` that `CreateOrder` assigns is `1000 + rand.Intn(1000)`,
which may repeat.  On a store in which every order row lies on the shard of its `order_id`
and every shard satisfies UNIQUE(`order_id`) (the empty store is one): a call that creates an
order returns an `order_id` that no stored order has, and adds exactly that `order_id` to
the stored ones; a call whose assigned `order_id` is already stored creates nothing; and
after any sequence of `CreateOrder` calls the `order_id` values of all stored orders are
pairwise distinct. -/
theorem created_order_ids_distinct {F : Type} [Zero F] [Add F] [Mul F] [IntCast F]
    [OfScientific F] (s : OrderService F) (hwp : s.orderRepo.wellPlaced) :
    (∀ (env : Env F) (order o : Order F) (s' : OrderService F),
        s.CreateOrder env order = (.ok o, s') →
        o.OrderID = randomOrderID env.rand ∧ o.OrderID ∉ s.orderRepo.orderIds
        ∧ ∀ x, x ∈ s'.orderRepo.orderIds ↔ x = o.OrderID ∨ x ∈ s.orderRepo.orderIds)
    ∧ (∀ (env : Env F) (order : Order F), randomOrderID env.rand ∈ s.orderRepo.orderIds →
        (∀ o, (s.CreateOrder env order).1 ≠ .ok o)
        ∧ (s.CreateOrder env order).2.orderRepo = s.orderRepo)
    ∧ (∀ calls : List (Env F × Order F), (runCreates calls s).orderRepo.orderIds.Nodup) := by
  have hfirst : ∀ (env : Env F) (order o : Order F) (s' : OrderService F),
      s.CreateOrder env order = (.ok o, s') →
      o.OrderID = randomOrderID env.rand ∧ o.OrderID ∉ s.orderRepo.orderIds
      ∧ ∀ x, x ∈ s'.orderRepo.orderIds ↔ x = o.OrderID ∨ x ∈ s.orderRepo.orderIds := by
    intro env order o s' h
    obtain ⟨o1, hagg, hrepo, _⟩ := createOrder_ok_inv s s' env order o h
    have ho1 : o1.OrderID = randomOrderID env.rand := by
      rw [aggregate_ok env order o1 hagg, sumTotal_eq]
    obtain ⟨hid, hnew, _, hmem⟩ :=
      repo_createOrder_ok_ids s.orderRepo s'.orderRepo env.db o1 o hwp hrepo
    rw [ho1] at hid hnew hmem
    rw [hid]
    exact ⟨rfl, hnew, hmem⟩
  have hnot : ∀ (env : Env F) (order : Order F),
      randomOrderID env.rand ∈ s.orderRepo.orderIds →
      ∀ o, (s.CreateOrder env order).1 ≠ .ok o := by
    intro env order hin o hok
    obtain ⟨hid, hnew, _⟩ := hfirst env order o _ (Prod.ext hok rfl)
    rw [hid] at hnew
    exact hnew hin
  refine ⟨hfirst, ?_, ?_⟩
  · intro env order hin
    refine ⟨hnot env order hin, ?_⟩
    rcases createOrder_repo_cases s env order with h | ⟨o1, hagg, h⟩
    · exact h
    · rw [h]
      apply repo_createOrder_error_unchanged
      intro o hok
      have ho1 : o1.OrderID = randomOrderID env.rand := by
        rw [aggregate_ok env order o1 hagg, sumTotal_eq]
      have hnew := (repo_createOrder_ok_ids s.orderRepo _ env.db o1 o hwp
        (Prod.ext hok rfl)).2.1
      rw [ho1] at hnew
      exact hnew hin
  · intro calls
    exact wellPlaced_nodup _ (runCreates_wellPlaced calls s hwp)

/-- Witness of C27: three submissions on the empty store, the first two with the same draw:
the stored `order_id` values are 1002 and 1001. -/
theorem created_order_ids_distinct_witness :
    freshService.orderRepo.wellPlaced
    ∧ (runCreates threeCreates freshService).orderRepo.orderIds = [1002, 1001]
    ∧ (runCreates threeCreates freshService).orderRepo.orderIds.Nodup :=
  ⟨emptyRepo_wellPlaced, by with_unfolding_all rfl,
   (created_order_ids_distinct freshService emptyRepo_wellPlaced).2.2 threeCreates⟩

/-! ## Cancelling an order that is already cancelled -/

theorem getOrderByID_noFaults_inv {F : Type} (r : OrderRepository F) (id : Int)
    (order : Order F) (h : r.GetOrderByID noDbFaults id = .ok order) :
    ∃ idx db row, r.router.GetShard id = .ok idx ∧ goIndex r.dbShards idx = .ok db
      ∧ db.orders.find? (fun row => row.id == id) = some row
      ∧ order = { ID := row.id, UserID := row.user_id, OrderID := row.order_id,
                  ProductRequests := db.selectProductRequests id, Quantity := row.quantity,
                  Total := row.total, TotalMarkUp := row.total_mark_up,
                  TotalDiscount := row.total_discount, Status := row.status,
                  IdempotentKey := "" } := by
  unfold OrderRepository.GetOrderByID OrderRepository.shardOfGetOrderByID at h
  split at h
  · exact absurd h (by simp)
  · exact absurd h (by simp)
  · exact absurd h (by simp)
  · rename_i idx hidx
    split at h
    · exact absurd h (by simp)
    · exact absurd h (by simp)
    · exact absurd h (by simp)
    · rename_i db hdb
      simp only [noDbFaults] at h
      split at h
      · exact absurd h (by simp)
      · rename_i row hrow
        simp only [Outcome.ok.injEq] at h
        exact ⟨idx, db, row, hidx, hdb, hrow, h.symm⟩

theorem insertLoop_noFaults {F : Type} (orderID : Int) (ps : List (ProductRequest F))
    (i : Nat) (tx : Shard F) (hfk : tx.orders.any (fun r => r.id == orderID) = true) :
    ∃ tx', insertLoop noDbFaults orderID i ps tx = .ok tx' := by
  induction ps generalizing i tx with
  | nil => exact ⟨tx, rfl⟩
  | cons p ps ih =>
    simp only [insertLoop, noDbFaults, Shard.insertProductRequest, hfk, Bool.not_true,
      Bool.false_eq_true, if_false]
    exact ih _ _ hfk

theorem updateOrderTx_noFaults {F : Type} (db : Shard F) (order : Order F)
    (hrow : ∃ row ∈ db.orders, row.id = order.ID) :
    ∃ tx, updateOrderTx noDbFaults db order = (.ok order, tx) := by
  have hfk : ((db.updateOrder order).deleteProductRequests order.ID).orders.any
      (fun r => r.id == order.ID) = true := by
    obtain ⟨row, hmem, hid⟩ := updateOrder_row_exists db order hrow
    exact List.any_eq_true.2 ⟨row, hmem, by simp [hid]⟩
  obtain ⟨tx, htx⟩ := insertLoop_noFaults order.ID order.ProductRequests 0 _ hfk
  exact ⟨tx, by simp only [updateOrderTx, noDbFaults, htx]⟩

theorem find_after_same_update {F : Type} (db : Shard F) (order : Order F) (row : OrderRow F)
    (hfind : db.orders.find? (fun row => row.id == order.ID) = some row)
    (hu : row.user_id = order.UserID) (hq : row.quantity = order.Quantity)
    (ht : row.total = order.Total) (hs : row.status = order.Status)
    (hm : row.total_mark_up = order.TotalMarkUp)
    (hd : row.total_discount = order.TotalDiscount) :
    (db.updateOrder order).orders.find? (fun row => row.id == order.ID) = some row := by
  have hid : row.id = order.ID := by
    have := List.find?_some hfind
    simpa using this
  simp only [Shard.updateOrder, List.find?_map]
  have hcomp : ((fun row : OrderRow F => row.id == order.ID) ∘ fun row : OrderRow F =>
      if row.id = order.ID then
        { row with user_id := order.UserID, quantity := order.Quantity, total := order.Total,
                   status := order.Status, total_mark_up := order.TotalMarkUp,
                   total_discount := order.TotalDiscount }
      else row) = fun row => row.id == order.ID := by
    funext r
    simp only [Function.comp]
    split <;> rfl
  rw [hcomp, hfind]
  simp only [Option.map_some', Option.some.injEq]
  rw [if_pos hid]
  cases row
  simp only at hu hq ht hs hm hd
  subst hu hq ht hs hm hd
  rfl

theorem cancel_of_cancelled_noop {F : Type} (s : OrderService F) (env : Env F) (id : Int)
    (order : Order F) (hflt : env.db = noDbFaults) (hm : env.marshalErr = none)
    (hk : env.kafkaErr = none) (hread : s.orderRepo.GetOrderByID env.db id = .ok order)
    (hst : order.Status = "cancelled")
    (hroute : s.orderRepo.router.GetShard order.OrderID = s.orderRepo.router.GetShard id) :
    ∃ repo', s.CancelOrder env id
        = (.ok order,
           { s with
             orderRepo := repo',
             kafka := s.kafka ++ [{ Key := eventKey "cancelled" order.ID, Value := order }] })
      ∧ repo'.GetOrderByID env.db id = .ok order := by
  have hread' := hread
  rw [hflt] at hread'
  obtain ⟨idx, db, row, hidx, hdb, hfind, horder⟩ :=
    getOrderByID_noFaults_inv s.orderRepo id order hread'
  have hrowid : row.id = id := by
    have := List.find?_some hfind
    simpa using this
  have hID : order.ID = id := by rw [horder]; exact hrowid
  have hPR : db.selectProductRequests id = order.ProductRequests := by rw [horder]
  have hc : ({ order with Status := "cancelled" } : Order F) = order := by
    cases order
    simp only at hst
    subst hst
    rfl
  have hrowmem : ∃ row ∈ db.orders, row.id = order.ID :=
    ⟨row, List.mem_of_find?_eq_some hfind, by rw [hID]; exact hrowid⟩
  obtain ⟨tx, htx⟩ := updateOrderTx_noFaults db order hrowmem
  have hupd : s.orderRepo.UpdateOrder noDbFaults order
      = (.ok order, { s.orderRepo with dbShards := s.orderRepo.dbShards.set idx.toNat tx }) := by
    simp only [OrderRepository.UpdateOrder, OrderRepository.shardOfUpdateOrder, hroute, hidx,
      hdb, htx]
  refine ⟨{ s.orderRepo with dbShards := s.orderRepo.dbShards.set idx.toNat tx }, ?_, ?_⟩
  · simp only [OrderService.CancelOrder, hflt, hread', hc, hupd, publishOrderEvent, hm, hk]
  · obtain ⟨_, horders, hsel⟩ := updateOrderTx_ok noDbFaults db order order tx htx
    have hfind' : tx.orders.find? (fun row => row.id == id) = some row := by
      have := find_after_same_update db order row (by rw [hID]; exact hfind)
        (by rw [horder]) (by rw [horder]) (by rw [horder]) (by rw [horder]) (by rw [horder])
        (by rw [horder])
      rw [hID] at this
      rw [horders]
      exact this
    rw [hID] at hsel
    rw [hflt]
    simp only [OrderRepository.GetOrderByID, OrderRepository.shardOfGetOrderByID, hidx,
      goIndex_set _ _ _ _ hdb, noDbFaults, hfind', hsel]
    rw [← hPR, ← horder]

theorem release_on_none {F : Type} (env : LedgerEnv) (items : List EventItem) :
    items.foldl
        (fun st item =>
          ((ledgerService env).ReleaseProductStock st item.ProductID item.Quantity).1)
        (none : Option (StockLedger F))
      = none := by
  induction items with
  | nil => rfl
  | cons item items ih =>
    simp only [List.foldl_cons]
    exact ih

theorem release_step_shape {F : Type} (env : LedgerEnv) (c : ProductCache F) (id q : Int) :
    (∀ products : List (Product F),
        ((ledgerService env).ReleaseProductStock
          (some { products := products, cache := c }) id q).1 = none)
    ∨ (∀ products : List (Product F),
        ((ledgerService env).ReleaseProductStock
          (some { products := products, cache := c }) id q).1
          = some { products := products, cache := c })
    ∨ ∃ p : Product F, ∀ products : List (Product F),
        ((ledgerService env).ReleaseProductStock
          (some { products := products, cache := c }) id q).1
          = some { products := products.map (fun row => if row.ID = p.ID then p else row),
                   cache := c } := by
  cases hg : env.redisGetErr with
  | some e =>
    exact Or.inr (Or.inl (fun products => by
      simp [ledgerService, StockLedger.ReleaseProductStock, hg]))
  | none =>
    cases hj : jsonUnmarshal (cacheGet c env.now (productKey id)) with
    | error e =>
      exact Or.inr (Or.inl (fun products => by
        simp [ledgerService, StockLedger.ReleaseProductStock, hg, hj]))
    | ok p =>
      by_cases hid : p.ID = 0
      · exact Or.inl (fun products => by
          simp [ledgerService, StockLedger.ReleaseProductStock, hg, hj, hid, GetProductByID])
      · cases hu : env.updateErr with
        | some e =>
          exact Or.inr (Or.inl (fun products => by
            simp [ledgerService, StockLedger.ReleaseProductStock, hg, hj, hid,
              UpdateProduct, hu]))
        | none =>
          exact Or.inr (Or.inr ⟨{ p with Stock := p.Stock + q }, fun products => by
            simp [ledgerService, StockLedger.ReleaseProductStock, hg, hj, hid,
              UpdateProduct, hu, writeCache]⟩)

theorem release_pass_shape {F : Type} (env : LedgerEnv) (c : ProductCache F)
    (items : List EventItem) :
    ∃ res : Option (Int → Option (Product F)),
      (∀ g, res = some g → ∀ i v, g i = some v → v.ID = i)
      ∧ ∀ products : List (Product F),
          items.foldl
              (fun st item =>
                ((ledgerService env).ReleaseProductStock st item.ProductID item.Quantity).1)
              (some { products := products, cache := c })
            = res.map (fun g =>
                { products := products.map (fun row => (g row.ID).getD row), cache := c }) := by
  induction items with
  | nil =>
    refine ⟨some (fun _ => none), ?_, ?_⟩
    · intro g hg i v hv
      simp only [Option.some.injEq] at hg
      subst hg
      exact absurd hv (by simp)
    · intro products
      simp
  | cons item items ih =>
    obtain ⟨res, hval, hrun⟩ := ih
    rcases release_step_shape env c item.ProductID item.Quantity with hnone | hsame | ⟨p, hp⟩
    · refine ⟨none, by intro g hg; exact absurd hg (by simp), ?_⟩
      intro products
      simp only [List.foldl_cons, hnone products, release_on_none, Option.map_none']
    · refine ⟨res, hval, ?_⟩
      intro products
      simp only [List.foldl_cons, hsame products, hrun products]
    · refine ⟨res.map (fun g => fun i =>
          match g i with
          | some v => some v
          | none => if i = p.ID then some p else none), ?_, ?_⟩
      · intro g hg i v hv
        cases res with
        | none => exact absurd hg (by simp)
        | some g0 =>
          simp only [Option.map_some', Option.some.injEq] at hg
          subst hg
          simp only at hv
          cases hg0 : g0 i with
          | some w =>
            simp only [hg0, Option.some.injEq] at hv
            subst hv
            exact hval g0 rfl i w hg0
          | none =>
            simp only [hg0] at hv
            split at hv
            · rename_i hi
              simp only [Option.some.injEq] at hv
              subst hv
              exact hi.symm
            · exact absurd hv (by simp)
      · intro products
        simp only [List.foldl_cons, hp products, hrun]
        cases res with
        | none => rfl
        | some g0 =>
          simp only [Option.map_some', Option.some.injEq, StockLedger.mk.injEq, and_true,
            List.map_map]
          apply List.map_congr_left
          intro row _
          simp only [Function.comp]
          by_cases hrow : row.ID = p.ID
          · simp only [hrow, if_true]
            cases g0 p.ID <;> simp
          · simp only [hrow, if_false]
            cases g0 row.ID <;> simp

/-- The ledger half of the sentence about repeated cancellation: for every ledger and every
fault of cache or store, a `cancelled` event processed a second time right after the first
leaves the ledger exactly as the first processing left it.  Each release recomputes the
durable stock from the cached copy, which no release refreshes. -/
theorem cancelled_event_twice_same {F V : Type} (env : LedgerEnv)
    (unmarshal : V → Except String EventOrder) (l : StockLedger F)
    (cancelled : KafkaMessage V) (hX : eventType cancelled.Key = .ok "cancelled") :
    ∃ st1 : Option (StockLedger F),
      processMessage (ledgerService env) unmarshal (some l) cancelled = .ok st1
      ∧ processMessage (ledgerService env) unmarshal st1 cancelled = .ok st1 := by
  have hne : ¬ ("cancelled" = "created") := by decide
  cases hdec : unmarshal cancelled.Value with
  | error e =>
    exact ⟨some l, by simp [processMessage, hdec], by simp [processMessage, hdec]⟩
  | ok orderEvent =>
    obtain ⟨res, hval, hrun⟩ := release_pass_shape env l.cache orderEvent.ProductRequests
    have hl : l = { products := l.products, cache := l.cache } := rfl
    cases res with
    | none =>
      refine ⟨none, ?_, ?_⟩
      · simp only [processMessage, hdec, hX, hne, if_false, if_true, releaseLoop_eq_foldl]
        rw [hl, hrun l.products]
        rfl
      · simp only [processMessage, hdec, hX, hne, if_false, if_true, releaseLoop_eq_foldl,
          release_on_none]
    | some g =>
      refine ⟨some { products := l.products.map (fun row => (g row.ID).getD row),
                     cache := l.cache }, ?_, ?_⟩
      · simp only [processMessage, hdec, hX, hne, if_false, if_true, releaseLoop_eq_foldl]
        rw [hl, hrun l.products]
        rfl
      · simp only [processMessage, hdec, hX, hne, if_false, if_true, releaseLoop_eq_foldl,
          hrun, Option.map_some', List.map_map, Outcome.ok.injEq, Option.some.injEq,
          StockLedger.mk.injEq, and_true]
        apply List.map_congr_left
        intro row _
        simp only [Function.comp]
        cases hrow : g row.ID with
        | none => simp [hrow]
        | some v =>
          have hv := hval g rfl row.ID v hrow
          simp [hv, hrow]

/-- C23: the order created from the sample submission lies on shard 2 (business key 1001)
under row id 1 and has status `cancelled`.  `CancelOrder(1)` selects the shard of the row id
(1 % 3 = 1) for its read, finds no row there, and returns `sql: no rows in result set`: the
service is as before, no event with the tag `cancelled` is published.  Replace would select
shard 2, the shard of the business key.  On a store where both selections agree (row id 1,
business key 1000) the same call succeeds, returns the order unchanged and publishes the
event. -/
theorem cancel_of_cancelled_order_reads_other_shard :
    cancelledService.orderRepo.dbShards.map
        (fun db => db.orders.map (fun row => (row.id, row.order_id, row.status)))
      = [[], [], [(1, 1001, "cancelled")]]
    ∧ cancelledService.orderRepo.shardOfGetOrderByID 1 = .ok 1
    ∧ cancelledService.orderRepo.shardOfUpdateOrder
        ({ sampleOrder with ID := 1, OrderID := 1001, Status := "cancelled" } : Order ℚ)
        = .ok 2
    ∧ cancelledService.CancelOrder (calmEnv false 0 1) 1
        = (.error "sql: no rows in result set", cancelledService)
    ∧ (alignedService.CancelOrder (calmEnv false 0 1) 1).1 = .ok alignedOrder
    ∧ (alignedService.CancelOrder (calmEnv false 0 1) 1).2.kafka
        = [{ Key := eventKey "cancelled" 1, Value := alignedOrder }]
    ∧ (alignedService.CancelOrder (calmEnv false 0 1) 1).2.orderRepo.GetOrderByID
        noDbFaults 1 = .ok alignedOrder :=
  ⟨by with_unfolding_all rfl, by decide, by decide, by with_unfolding_all rfl,
   by with_unfolding_all rfl, by with_unfolding_all rfl, by with_unfolding_all rfl⟩

end Microservices
